import Mathlib

/-!
# GLFW monitor subsystem (`src/monitor.c`): shallow embedding and verified properties

The C code is embedded as pure Lean functions.

* C `int` is a 32-bit two's complement integer: every arithmetic result is
  reduced with `wrap32`; `unsigned int` values are integers in `[0, 2^32)`.
* An array given by a pointer and a count is a `List`; a pointer that may be
  `NULL` is an `Option`.
* A heap object that is compared by address (`_GLFWmonitor`) carries its
  address in the field `addr`.
* The platform layer (`_glfwPlatformGetVideoModes`, `_glfwPlatformGetMonitors`)
  is outside `monitor.c`; the value it returns on a call is an argument of the
  embedded function.
* `qsort` of the C library is outside the repository as well. It is modelled
  as an insertion sort; the order it leaves in the mode cache is stated for
  every algorithm that keeps the promise of the C standard (`QsortContract`).
-/

namespace GLFW

/-! ## 32-bit machine arithmetic -/

/-- Reduction of an integer to the range of a 32-bit signed `int`
(two's complement wrap-around). -/
def wrap32 (x : Int) : Int := (x + 2147483648) % 4294967296 - 2147483648

/-- Conversion of an `int` to `unsigned int` (reduction modulo `2^32`). -/
def toUInt32 (x : Int) : Int := x % 4294967296

/-- The constant `UINT_MAX` of `<limits.h>` for a 32-bit `unsigned int`. -/
def UINT_MAX : Int := 4294967295

/-- Addition of two `int` values. -/
def add32 (a b : Int) : Int := wrap32 (a + b)

/-- Subtraction of two `int` values. -/
def sub32 (a b : Int) : Int := wrap32 (a - b)

/-- Multiplication of two `int` values. -/
def mul32 (a b : Int) : Int := wrap32 (a * b)

/-- The function `abs` of `<stdlib.h>` on a 32-bit `int`; `abs(INT_MIN)` wraps
around to `INT_MIN`. -/
def abs32 (x : Int) : Int := wrap32 (if x < 0 then -x else x)

/-- An integer that a 32-bit signed `int` holds exactly. -/
def InRange32 (x : Int) : Prop := -2147483648 ≤ x ∧ x < 2147483648

instance (x : Int) : Decidable (InRange32 x) := by
  unfold InRange32; infer_instance

/-! ## Data model -/

/-- Modelled from the spec: the declaration of `GLFWvidmode` is in
`include/GL/glfw3.h`, which is not among the sources. The spec's VideoMode has
width, height and the red, green and blue channel depths; these are the
fields `monitor.c` reads, all of C type `int`. -/
structure GLFWvidmode where
  width : Int
  height : Int
  redBits : Int
  blueBits : Int
  greenBits : Int
deriving DecidableEq, Repr

/-- The struct `_GLFWmonitor` of `internal.h`. `addr` is the address of the
object (the value of a `_GLFWmonitor*` pointing to it); `modes` is the
pointer to the cached mode array (`none` is `NULL`) and `modeCount` its
count. The platform-specific state is left out. -/
structure _GLFWmonitor where
  addr : Nat
  name : String
  primary : Bool
  widthMM : Int
  heightMM : Int
  positionX : Int
  positionY : Int
  modes : Option (List GLFWvidmode)
  modeCount : Int
deriving DecidableEq, Repr

/-! ## Video mode ordering -/

/-- The static function `compareVideoModes` (monitor.c lines 47-71), the
comparator handed to `qsort`. -/
def compareVideoModes (first second : GLFWvidmode) : Int :=
  let firstBPP := add32 (add32 first.redBits first.greenBits) first.blueBits
  let secondBPP := add32 (add32 second.redBits second.greenBits) second.blueBits
  if firstBPP ≠ secondBPP then
    sub32 firstBPP secondBPP
  else
    let firstSize := mul32 first.width first.height
    let secondSize := mul32 second.width second.height
    sub32 firstSize secondSize

/-- The function `_glfwCompareVideoModes` (monitor.c lines 269-272). -/
def _glfwCompareVideoModes (first second : GLFWvidmode) : Int :=
  compareVideoModes first second

/-- Insertion of one element in front of the first element that does not
compare below it. -/
def qsortInsert {α : Type} (compar : α → α → Int) (x : α) : List α → List α
  | [] => [x]
  | y :: ys => if compar x y ≤ 0 then x :: y :: ys else y :: qsortInsert compar x ys

/-- The C library function `qsort` of `<stdlib.h>`, which is not part of the
repository. The C standard leaves the algorithm open; it is modelled here as
an insertion sort driven by the comparator. What the standard promises of
every algorithm is `QsortContract` below; the order of the sorted array is
stated for every algorithm that keeps that promise. -/
def qsort {α : Type} (compar : α → α → Int) : List α → List α
  | [] => []
  | x :: xs => qsortInsert compar x (qsort compar xs)

/-! ## Video mode cache -/

/-- The static function `refreshVideoModes` (monitor.c lines 78-93).
`platformModes` is what `_glfwPlatformGetVideoModes` returns for the monitor
on this call: `none` for a `NULL` pointer, otherwise the mode array with its
count. The result is the returned flag and the monitor after the call. -/
def refreshVideoModes (monitor : _GLFWmonitor)
    (platformModes : Option (List GLFWvidmode)) : Bool × _GLFWmonitor :=
  match platformModes with
  | none => (false, monitor)
  | some modes =>
    (true, { monitor with
               modes := some (qsort compareVideoModes modes)
               modeCount := (modes.length : Int) })

/-! ## Mode matcher -/

/-- The value assigned to the local `colorDiff` of `_glfwChooseVideoMode`
(monitor.c lines 244-245) for the candidate `current`. -/
def colorDiffOf (desired current : GLFWvidmode) : Int :=
  toUInt32 (abs32 (sub32
    (add32 (add32 current.redBits current.greenBits) current.blueBits)
    (add32 (add32 desired.redBits desired.greenBits) desired.blueBits)))

/-- The value assigned to the local `sizeDiff` of `_glfwChooseVideoMode`
(monitor.c lines 247-250) for the candidate `current`. -/
def sizeDiffOf (desired current : GLFWvidmode) : Int :=
  toUInt32 (abs32 (add32
    (mul32 (sub32 current.width desired.width) (sub32 current.width desired.width))
    (mul32 (sub32 current.height desired.height) (sub32 current.height desired.height))))

/-- The locals of `_glfwChooseVideoMode` that live across loop iterations.
`closest` points into the monitor's mode cache: it is kept as the index
together with the mode stored there. -/
structure ChooseState where
  closest : Option (Nat × GLFWvidmode)
  leastSizeDiff : Int
  leastColorDiff : Int
deriving DecidableEq, Repr

/-- The initial values of the locals of `_glfwChooseVideoMode` (monitor.c
lines 232-235): no closest mode, both least differences `UINT_MAX`. -/
def chooseInit : ChooseState :=
  { closest := none, leastSizeDiff := UINT_MAX, leastColorDiff := UINT_MAX }

/-- One iteration of the loop of `_glfwChooseVideoMode` (monitor.c lines
242-258) for index `i`, where `current` is `monitor->modes[i]`. -/
def chooseStep (desired : GLFWvidmode) (i : Nat) (current : GLFWvidmode)
    (st : ChooseState) : ChooseState :=
  let colorDiff := colorDiffOf desired current
  let sizeDiff := sizeDiffOf desired current
  if colorDiff < st.leastColorDiff ∨
      (colorDiff = st.leastColorDiff ∧ sizeDiff < st.leastSizeDiff) then
    { closest := some (i, current), leastSizeDiff := sizeDiff, leastColorDiff := colorDiff }
  else st

/-- The loop of `_glfwChooseVideoMode` (monitor.c lines 240-259) from index
`i` on; the list holds the cache entries from index `i`. -/
def chooseLoop (desired : GLFWvidmode) : List GLFWvidmode → Nat → ChooseState → ChooseState
  | [], _, st => st
  | current :: rest, i, st => chooseLoop desired rest (i + 1) (chooseStep desired i current st)

/-- The function `_glfwChooseVideoMode` (monitor.c lines 228-262).
`platformModes` is the result of the platform's mode discovery during the
refresh. The result is the returned pointer (`none` is `NULL`; otherwise the
index into the cache and the mode there) and the monitor after the call. -/
def _glfwChooseVideoMode (monitor : _GLFWmonitor)
    (platformModes : Option (List GLFWvidmode)) (desired : GLFWvidmode) :
    Option (Nat × GLFWvidmode) × _GLFWmonitor :=
  let refreshed := refreshVideoModes monitor platformModes
  if refreshed.1 = false then
    (none, refreshed.2)
  else
    let cache := (refreshed.2.modes.getD []).take refreshed.2.modeCount.toNat
    ((chooseLoop desired cache 0 chooseInit).closest, refreshed.2)

/-! ## Public video mode query -/

/-- Modelled from the spec: the error codes handed to `_glfwInputError` are
declared in `include/GL/glfw3.h`, which is not among the sources; the spec's
error taxonomy names these five. -/
inductive ErrorCode where
  | GLFW_NOT_INITIALIZED
  | GLFW_INVALID_VALUE
  | GLFW_INVALID_ENUM
  | GLFW_OUT_OF_MEMORY
  | GLFW_PLATFORM_ERROR
deriving DecidableEq, Repr

/-- What a call of `glfwGetVideoModes` leaves behind: the returned pointer to
the mode array (`none` is `NULL`), the monitor object behind the handle, the
integer behind the `count` pointer and the error handed to `_glfwInputError`,
if any. -/
structure VideoModesCall where
  ret : Option (List GLFWvidmode)
  monitor : Option _GLFWmonitor
  count : Option Int
  error : Option ErrorCode
deriving DecidableEq, Repr

/-- The function `glfwGetVideoModes` (monitor.c lines 444-472).
`initialized` is the global `_glfwInitialized`, `handle` the monitor the
handle points to (`none` for a `NULL` handle), `count` the integer the
`count` pointer points to (`none` for a `NULL` pointer) and `platformModes`
the result of the platform's mode discovery during the refresh. -/
def glfwGetVideoModes (initialized : Bool) (handle : Option _GLFWmonitor)
    (count : Option Int) (platformModes : Option (List GLFWvidmode)) : VideoModesCall :=
  if initialized = false then
    { ret := none, monitor := handle, count := count,
      error := some ErrorCode.GLFW_NOT_INITIALIZED }
  else
    match handle with
    | none =>
      { ret := none, monitor := none, count := count,
        error := some ErrorCode.GLFW_INVALID_VALUE }
    | some monitor =>
      match count with
      | none =>
        { ret := none, monitor := some monitor, count := none,
          error := some ErrorCode.GLFW_INVALID_VALUE }
      | some c =>
        let refreshed := refreshVideoModes monitor platformModes
        if refreshed.1 = false then
          { ret := none, monitor := some refreshed.2, count := some c, error := none }
        else
          { ret := refreshed.2.modes, monitor := some refreshed.2,
            count := some refreshed.2.modeCount, error := none }

/-! ## Monitor registry and hotplug reconciliation -/

/-- The struct `_GLFWwindow` of `internal.h`, restricted to its size and its
monitor reference; `monitor` is a `_GLFWmonitor*` (`none` is `NULL`). The
linked list starting at `windowListHead` is a `List` of these. -/
structure _GLFWwindow where
  width : Int
  height : Int
  monitor : Option Nat
deriving DecidableEq, Repr

/-- The struct `_GLFWlibrary` of `internal.h` (the global `_glfw`), restricted
to the fields `monitor.c` uses. `monitorCallback` is a function pointer
(`none` is `NULL`). -/
structure _GLFWlibrary where
  windowListHead : List _GLFWwindow
  monitors : List _GLFWmonitor
  monitorCount : Int
  monitorCallback : Option Nat
deriving DecidableEq, Repr

/-- Modelled from the spec: the event tags `GLFW_CONNECTED` and
`GLFW_DISCONNECTED` are declared in `include/GL/glfw3.h`, which is not among
the sources; the spec names a connected-event tag and a disconnected-event
tag. -/
inductive MonitorEvent where
  | GLFW_CONNECTED
  | GLFW_DISCONNECTED
deriving DecidableEq, Repr

/-- What `_glfwInputMonitorChange` works on while it runs: the array
`_glfw.monitors` with the slots it sets to `NULL`, the window list, the calls
made to the monitor callback so far (monitor address and event tag) and the
addresses of the monitors handed to `_glfwDestroyMonitor` so far. -/
structure ChangeState where
  registry : List (Option _GLFWmonitor)
  windows : List _GLFWwindow
  events : List (Nat × MonitorEvent)
  destroyed : List Nat
deriving DecidableEq, Repr

/-- The function `_glfwDestroyMonitor` (monitor.c lines 131-141): nothing
for `NULL`, otherwise the object is freed, which is recorded by its
address. -/
def _glfwDestroyMonitor (monitor : Option _GLFWmonitor) (destroyed : List Nat) : List Nat :=
  match monitor with
  | none => destroyed
  | some m => destroyed ++ [m.addr]

/-- The call `_glfw.monitorCallback(monitor, event)`. Calling through a
`NULL` function pointer does not return (`none`); a registered callback is
recorded as an event. -/
def callMonitorCallback (callback : Option Nat) (monitor : _GLFWmonitor)
    (event : MonitorEvent) (st : ChangeState) : Option ChangeState :=
  match callback with
  | none => none
  | some _ => some { st with events := st.events ++ [(monitor.addr, event)] }

/-- The inner loop of `_glfwInputMonitorChange` (monitor.c lines 157-174):
the search of `_glfw.monitors` for the first non-`NULL` entry with the given
name. On a match the result is that entry and the array with its slot set to
`NULL`; `none` is the outcome `j == _glfw.monitorCount`. -/
def matchMonitor (name : String) :
    List (Option _GLFWmonitor) → Option (_GLFWmonitor × List (Option _GLFWmonitor))
  | [] => none
  | none :: rest =>
    match matchMonitor name rest with
    | none => none
    | some (r, rest') => some (r, none :: rest')
  | some m :: rest =>
    if name = m.name then some (m, none :: rest)
    else
      match matchMonitor name rest with
      | none => none
      | some (r, rest') => some (r, some m :: rest')

/-- The first loop of `_glfwInputMonitorChange` (monitor.c lines 155-181)
over the freshly discovered monitors still to be visited. The result is the
content of the local array `monitors` for these slots and the state after the
loop; `none` when a call through the callback pointer did not return. -/
def connectLoop (callback : Option Nat) :
    List _GLFWmonitor → ChangeState → Option (List _GLFWmonitor × ChangeState)
  | [], st => some ([], st)
  | f :: rest, st =>
    match matchMonitor f.name st.registry with
    | some (r, registry) =>
      match connectLoop callback rest
          { st with registry := registry, destroyed := _glfwDestroyMonitor (some f) st.destroyed } with
      | none => none
      | some (monitors, st') => some (r :: monitors, st')
    | none =>
      match callMonitorCallback callback f MonitorEvent.GLFW_CONNECTED st with
      | none => none
      | some st1 =>
        match connectLoop callback rest st1 with
        | none => none
        | some (monitors, st') => some (f :: monitors, st')

/-- The inner loop over the window list (monitor.c lines 193-197): every
window whose monitor pointer equals the given monitor gets `NULL`. -/
def clearWindows (monitor : _GLFWmonitor) (windows : List _GLFWwindow) : List _GLFWwindow :=
  windows.map fun window =>
    if window.monitor = some monitor.addr then { window with monitor := none } else window

/-- The second loop of `_glfwInputMonitorChange` (monitor.c lines 183-198)
over the entries of `_glfw.monitors` still to be visited. -/
def disconnectLoop (callback : Option Nat) :
    List (Option _GLFWmonitor) → ChangeState → Option ChangeState
  | [], st => some st
  | none :: rest, st => disconnectLoop callback rest st
  | some r :: rest, st =>
    match callMonitorCallback callback r MonitorEvent.GLFW_DISCONNECTED st with
    | none => none
    | some st1 =>
      disconnectLoop callback rest { st1 with windows := clearWindows r st1.windows }

/-- The loop of `_glfwDestroyMonitors` (monitor.c lines 215-216) over the
given array. -/
def _glfwDestroyMonitors (registry : List (Option _GLFWmonitor)) (destroyed : List Nat) :
    List Nat :=
  registry.foldl (fun d m => _glfwDestroyMonitor m d) destroyed

/-- What a call of `_glfwInputMonitorChange` leaves behind: the library
state, the sequence of callback calls and the addresses of the destroyed
monitors, in order. -/
structure MonitorChange where
  lib : _GLFWlibrary
  events : List (Nat × MonitorEvent)
  destroyed : List Nat
deriving DecidableEq, Repr

/-- The state in which `_glfwInputMonitorChange` starts its first loop. -/
def changeStart (lib : _GLFWlibrary) : ChangeState :=
  { registry := (lib.monitors.take lib.monitorCount.toNat).map some
    windows := lib.windowListHead
    events := []
    destroyed := [] }

/-- The function `_glfwInputMonitorChange` (monitor.c lines 148-204).
`fresh` is the array returned by `_glfwPlatformGetMonitors`. The result is
`none` when a call through a `NULL` callback pointer is reached. -/
def _glfwInputMonitorChange (lib : _GLFWlibrary) (fresh : List _GLFWmonitor) :
    Option MonitorChange :=
  match connectLoop lib.monitorCallback fresh (changeStart lib) with
  | none => none
  | some (monitors, st1) =>
    match disconnectLoop lib.monitorCallback st1.registry st1 with
    | none => none
    | some st2 =>
      some { lib := { lib with
                        windowListHead := st2.windows
                        monitors := monitors
                        monitorCount := (fresh.length : Int) }
             events := st2.events
             destroyed := _glfwDestroyMonitors st2.registry st2.destroyed }

/-- The array `_glfw.monitors` as the first loop of `_glfwInputMonitorChange`
finds it when it reaches index `i`: the entries not set to `NULL` are the
old monitors not matched so far. -/
def registryAt (lib : _GLFWlibrary) (fresh : List _GLFWmonitor) (i : Nat) :
    List (Option _GLFWmonitor) :=
  match connectLoop lib.monitorCallback (fresh.take i) (changeStart lib) with
  | none => []
  | some (_, st) => st.registry

/-! ## BPP splitter -/

/-- Division of two `int` values, which truncates toward zero. -/
def div32 (a b : Int) : Int := wrap32 (Int.tdiv a b)

/-- The function `_glfwSplitBPP` (monitor.c lines 279-296). The result is
what the pointers `red`, `green` and `blue` point to after the call. -/
def _glfwSplitBPP (bpp : Int) : Int × Int × Int :=
  let bpp := if bpp = 32 then 24 else bpp
  let blue := div32 bpp 3
  let green := blue
  let red := green
  let delta := sub32 bpp (mul32 red 3)
  let green := if delta ≥ 1 then add32 green 1 else green
  let red := if delta = 2 then add32 red 1 else red
  (red, green, blue)

/-! ## Public monitor queries -/

/-- What a call of `glfwGetMonitors` leaves behind: the returned pointer to
the monitor array (`none` is `NULL`), the integer behind the `count` pointer
and the error handed to `_glfwInputError`, if any. -/
structure MonitorsCall where
  ret : Option (List _GLFWmonitor)
  count : Option Int
  error : Option ErrorCode
deriving DecidableEq, Repr

/-- The function `glfwGetMonitors` (monitor.c lines 307-323). `count` is the
integer the `count` pointer points to (`none` for a `NULL` pointer). On
success the result stands for the pointer `_glfw.monitors`, given by the array
it points to: the registry is a list, so a `NULL` array pointer and an array
without entries are not told apart. -/
def glfwGetMonitors (initialized : Bool) (lib : _GLFWlibrary) (count : Option Int) :
    MonitorsCall :=
  if initialized = false then
    { ret := none, count := count, error := some ErrorCode.GLFW_NOT_INITIALIZED }
  else
    match count with
    | none => { ret := none, count := none, error := some ErrorCode.GLFW_INVALID_VALUE }
    | some _ => { ret := some lib.monitors, count := some lib.monitorCount, error := none }

/-- The loop of `glfwGetPrimaryMonitor` (monitor.c lines 341-348) over the
entries of `_glfw.monitors` still to be visited: the first one whose
`primary` flag is set, `none` when the loop ends with `handle` still
`NULL`. -/
def findPrimary : List _GLFWmonitor → Option _GLFWmonitor
  | [] => none
  | m :: rest => if m.primary = true then some m else findPrimary rest

/-- The function `glfwGetPrimaryMonitor` (monitor.c lines 330-357). The
result is the monitor the returned handle points to (`none` is `NULL`) and
the error handed to `_glfwInputError`, if any. -/
def glfwGetPrimaryMonitor (initialized : Bool) (lib : _GLFWlibrary) :
    Option _GLFWmonitor × Option ErrorCode :=
  if initialized = false then
    (none, some ErrorCode.GLFW_NOT_INITIALIZED)
  else
    match findPrimary (lib.monitors.take lib.monitorCount.toNat) with
    | none => (none, some ErrorCode.GLFW_PLATFORM_ERROR)
    | some handle => (some handle, none)

/-- The values of the selector constants of `glfwGetMonitorParam`. They are
declared in `include/GL/glfw3.h`, which is not among the sources, so they are
parameters of the embedded function. -/
structure ParamSelectors where
  GLFW_MONITOR_WIDTH_MM : Int
  GLFW_MONITOR_HEIGHT_MM : Int
  GLFW_MONITOR_POS_X : Int
  GLFW_MONITOR_POS_Y : Int
deriving DecidableEq, Repr

/-- The selector constants are four different values, as the case labels of
a C `switch` have to be. -/
def ParamSelectors.Distinct (sel : ParamSelectors) : Prop :=
  sel.GLFW_MONITOR_WIDTH_MM ≠ sel.GLFW_MONITOR_HEIGHT_MM ∧
  sel.GLFW_MONITOR_WIDTH_MM ≠ sel.GLFW_MONITOR_POS_X ∧
  sel.GLFW_MONITOR_WIDTH_MM ≠ sel.GLFW_MONITOR_POS_Y ∧
  sel.GLFW_MONITOR_HEIGHT_MM ≠ sel.GLFW_MONITOR_POS_X ∧
  sel.GLFW_MONITOR_HEIGHT_MM ≠ sel.GLFW_MONITOR_POS_Y ∧
  sel.GLFW_MONITOR_POS_X ≠ sel.GLFW_MONITOR_POS_Y

instance (sel : ParamSelectors) : Decidable sel.Distinct := by
  unfold ParamSelectors.Distinct; infer_instance

/-- The function `glfwGetMonitorParam` (monitor.c lines 364-396). The result
is the returned `int` and the error handed to `_glfwInputError`, if any. -/
def glfwGetMonitorParam (sel : ParamSelectors) (initialized : Bool)
    (handle : Option _GLFWmonitor) (param : Int) : Int × Option ErrorCode :=
  if initialized = false then
    (0, some ErrorCode.GLFW_NOT_INITIALIZED)
  else
    match handle with
    | none => (0, some ErrorCode.GLFW_INVALID_VALUE)
    | some monitor =>
      if param = sel.GLFW_MONITOR_WIDTH_MM then (monitor.widthMM, none)
      else if param = sel.GLFW_MONITOR_HEIGHT_MM then (monitor.heightMM, none)
      else if param = sel.GLFW_MONITOR_POS_X then (monitor.positionX, none)
      else if param = sel.GLFW_MONITOR_POS_Y then (monitor.positionY, none)
      else (0, some ErrorCode.GLFW_INVALID_ENUM)

/-- The function `glfwGetMonitorName` (monitor.c lines 403-421). The result
is the returned string pointer (`none` is `NULL`) and the error handed to
`_glfwInputError`, if any. -/
def glfwGetMonitorName (initialized : Bool) (handle : Option _GLFWmonitor) :
    Option String × Option ErrorCode :=
  if initialized = false then
    (none, some ErrorCode.GLFW_NOT_INITIALIZED)
  else
    match handle with
    | none => (none, some ErrorCode.GLFW_INVALID_VALUE)
    | some monitor => (some monitor.name, none)

/-- The function `glfwSetMonitorCallback` (monitor.c lines 428-437). The
result is the library state after the call and the error handed to
`_glfwInputError`, if any. -/
def glfwSetMonitorCallback (initialized : Bool) (lib : _GLFWlibrary) (cbfun : Option Nat) :
    _GLFWlibrary × Option ErrorCode :=
  if initialized = false then
    (lib, some ErrorCode.GLFW_NOT_INITIALIZED)
  else
    ({ lib with monitorCallback := cbfun }, none)

/-- What a call of `glfwGetVideoMode` leaves behind: the mode behind the
`mode` pointer (`none` for a `NULL` pointer), the error handed to
`_glfwInputError`, if any, and, when `_glfwPlatformGetVideoMode` is called,
the monitor pointer handed to it (`some none` is a call with `NULL`). -/
structure VideoModeCall where
  mode : Option GLFWvidmode
  error : Option ErrorCode
  platformCall : Option (Option _GLFWmonitor)
deriving DecidableEq, Repr

/-- The function `glfwGetVideoMode` (monitor.c lines 479-496). `mode` is the
mode the `mode` pointer points to (`none` for a `NULL` pointer);
`platformMode` is the mode `_glfwPlatformGetVideoMode` writes for the monitor
pointer it is given. -/
def glfwGetVideoMode (initialized : Bool) (handle : Option _GLFWmonitor)
    (mode : Option GLFWvidmode) (platformMode : Option _GLFWmonitor → GLFWvidmode) :
    VideoModeCall :=
  if initialized = false then
    { mode := mode, error := some ErrorCode.GLFW_NOT_INITIALIZED, platformCall := none }
  else
    match mode with
    | none => { mode := none, error := some ErrorCode.GLFW_INVALID_VALUE, platformCall := none }
    | some _ => { mode := some (platformMode handle), error := none, platformCall := some handle }

/-! ## Notions used to state the properties -/

/-- The colour depth of a mode: the exact sum of its red, green and blue
bits. -/
def colorDepth (m : GLFWvidmode) : Int := m.redBits + m.greenBits + m.blueBits

/-- The area of a mode: the exact product of width and height. -/
def area (m : GLFWvidmode) : Int := m.width * m.height

/-- A mode whose colour depth and area are non-negative and are held exactly
by a 32-bit signed `int`. -/
def FitsInt32 (m : GLFWvidmode) : Prop :=
  0 ≤ colorDepth m ∧ colorDepth m < 2147483648 ∧ 0 ≤ area m ∧ area m < 2147483648

instance (m : GLFWvidmode) : Decidable (FitsInt32 m) := by
  unfold FitsInt32; infer_instance

/-- The colour distance of the mode `x` from the desired mode `d`: the exact
absolute difference of the colour depths. -/
def colorDiff (d x : GLFWvidmode) : Int := |colorDepth x - colorDepth d|

/-- The size distance of the mode `x` from the desired mode `d`: the exact
squared Euclidean distance of the resolutions. -/
def sizeDiff (d x : GLFWvidmode) : Int :=
  (x.width - d.width) ^ 2 + (x.height - d.height) ^ 2

/-- The loop invariant of `_glfwChooseVideoMode` once the cache entries
`seen` have been visited: `closest` points at an entry of `seen`, the least
differences are those of that entry, no visited entry beats it, and no entry
before it has the same pair of differences. -/
def ChooseInv (d : GLFWvidmode) (seen : List GLFWvidmode) (st : ChooseState) : Prop :=
  ∃ k r, st.closest = some (k, r) ∧ seen[k]? = some r ∧
    st.leastColorDiff = colorDiffOf d r ∧ st.leastSizeDiff = sizeDiffOf d r ∧
    (∀ m ∈ seen, colorDiffOf d r < colorDiffOf d m ∨
      (colorDiffOf d r = colorDiffOf d m ∧ sizeDiffOf d r ≤ sizeDiffOf d m)) ∧
    (∀ j m, j < k → seen[j]? = some m →
      ¬ (colorDiffOf d m = colorDiffOf d r ∧ sizeDiffOf d m = sizeDiffOf d r))

/-- The non-`NULL` entries of an array of monitor pointers, in order. -/
def live (registry : List (Option _GLFWmonitor)) : List _GLFWmonitor :=
  registry.filterMap id

/-- The number of calls of the monitor callback made for the monitor at
address `addr` with the event tag `event`. -/
def timesNotified (events : List (Nat × MonitorEvent)) (addr : Nat)
    (event : MonitorEvent) : Nat :=
  (events.filter (fun e => decide (e = (addr, event)))).length

/-- A monitor object at the given address with the given name, for the worked
examples. -/
def exampleMonitor (addr : Nat) (name : String) : _GLFWmonitor :=
  { addr := addr, name := name, primary := false, widthMM := 300, heightMM := 200,
    positionX := 0, positionY := 0, modes := none, modeCount := 0 }

/-- A library state for the worked examples: the monitors "X" (at address 1)
and "Z" (at address 2), three windows of which the first is on "Z" and the
second on "X", and a registered monitor callback. -/
def exampleLib : _GLFWlibrary :=
  { windowListHead := [⟨800, 600, some 2⟩, ⟨640, 480, some 1⟩, ⟨320, 200, none⟩]
    monitors := [exampleMonitor 1 "X", exampleMonitor 2 "Z"]
    monitorCount := 2
    monitorCallback := some 7 }

/-- The library state of the worked examples with the monitor callback
unset. -/
def exampleLibNoCallback : _GLFWlibrary :=
  { exampleLib with monitorCallback := none }

/-- A library state for the worked examples with three monitors, of which
"Z" (index 1) and "W" (index 2) are flagged primary. -/
def examplePrimaryLib : _GLFWlibrary :=
  { exampleLib with
      monitors := [exampleMonitor 1 "X", { exampleMonitor 2 "Z" with primary := true },
        { exampleMonitor 3 "W" with primary := true }]
      monitorCount := 3 }

/-- Selector values for the worked examples: 1, 2, 3 and 4. -/
def exampleSelectors : ParamSelectors :=
  { GLFW_MONITOR_WIDTH_MM := 1, GLFW_MONITOR_HEIGHT_MM := 2,
    GLFW_MONITOR_POS_X := 3, GLFW_MONITOR_POS_Y := 4 }

/-- The `int` value handed to `abs` for the local `sizeDiff` of
`_glfwChooseVideoMode` (monitor.c lines 247-250): the sum of the two squares
as the 32-bit arithmetic computes it. -/
def sizeDiffArg (desired current : GLFWvidmode) : Int :=
  add32
    (mul32 (sub32 current.width desired.width) (sub32 current.width desired.width))
    (mul32 (sub32 current.height desired.height) (sub32 current.height desired.height))

/-- The number of monitors of a list whose primary flag is set. -/
def primaryCount (l : List _GLFWmonitor) : Nat :=
  (l.filter (fun m => m.primary)).length

/-- The number of times the address `a` occurs in a list of addresses. -/
def occurrences (a : Nat) (l : List Nat) : Nat :=
  (l.filter (fun x => decide (x = a))).length

/-- A library state for the worked examples with a registered callback and
the monitors "X" (address 1, primary) and "Z" (address 2, not primary). -/
def examplePrimaryXLib : _GLFWlibrary :=
  { exampleLib with
      monitors := [{ exampleMonitor 1 "X" with primary := true }, exampleMonitor 2 "Z"] }

/-- A library state for the worked examples with a registered callback and
two monitors of the same name "X" (addresses 1 and 2); the first window is
on the second of them. -/
def exampleTwinLib : _GLFWlibrary :=
  { exampleLib with monitors := [exampleMonitor 1 "X", exampleMonitor 2 "X"] }

/-! ## The contract of `qsort` and a second sorting algorithm -/

/-- The requirement of the C standard on the comparison function handed to
`qsort` (C11 7.22.5, paragraph 4): on the elements of the array its results
define a total ordering. A negative result one way is a positive result the
other way round, and "at or below" is transitive. -/
def Consistent {α : Type} (compar : α → α → Int) (l : List α) : Prop :=
  (∀ a ∈ l, ∀ b ∈ l, (compar a b < 0 ↔ 0 < compar b a)) ∧
  (∀ a ∈ l, ∀ b ∈ l, ∀ d ∈ l, compar a b ≤ 0 → compar b d ≤ 0 → compar a d ≤ 0)

/-- What the C standard promises of `qsort` (C11 7.22.5.2), whichever
algorithm the library uses: when the comparison function is consistent on the
array, the array afterwards holds the same elements in ascending order. For a
comparison function that is not consistent the standard promises nothing. -/
def QsortContract
    (sort : (GLFWvidmode → GLFWvidmode → Int) → List GLFWvidmode → List GLFWvidmode) : Prop :=
  ∀ (compar : GLFWvidmode → GLFWvidmode → Int) (l : List GLFWvidmode),
    Consistent compar l →
      (sort compar l).Perm l ∧ List.Chain' (fun a b => compar a b ≤ 0) (sort compar l)

/-- The static function `refreshVideoModes` (monitor.c lines 78-93) with the
algorithm of the C library's `qsort` left open: `sort` is what `qsort` does
to an array with a comparison function. -/
def refreshVideoModesWith
    (sort : (GLFWvidmode → GLFWvidmode → Int) → List GLFWvidmode → List GLFWvidmode)
    (monitor : _GLFWmonitor) (platformModes : Option (List GLFWvidmode)) :
    Bool × _GLFWmonitor :=
  match platformModes with
  | none => (false, monitor)
  | some modes =>
    (true, { monitor with
               modes := some (sort compareVideoModes modes)
               modeCount := (modes.length : Int) })

/-- The function `glfwGetVideoModes` (monitor.c lines 444-472) with the
algorithm of the C library's `qsort` left open. -/
def glfwGetVideoModesWith
    (sort : (GLFWvidmode → GLFWvidmode → Int) → List GLFWvidmode → List GLFWvidmode)
    (initialized : Bool) (handle : Option _GLFWmonitor)
    (count : Option Int) (platformModes : Option (List GLFWvidmode)) : VideoModesCall :=
  if initialized = false then
    { ret := none, monitor := handle, count := count,
      error := some ErrorCode.GLFW_NOT_INITIALIZED }
  else
    match handle with
    | none =>
      { ret := none, monitor := none, count := count,
        error := some ErrorCode.GLFW_INVALID_VALUE }
    | some monitor =>
      match count with
      | none =>
        { ret := none, monitor := some monitor, count := none,
          error := some ErrorCode.GLFW_INVALID_VALUE }
      | some c =>
        let refreshed := refreshVideoModesWith sort monitor platformModes
        if refreshed.1 = false then
          { ret := none, monitor := some refreshed.2, count := some c, error := none }
        else
          { ret := refreshed.2.modes, monitor := some refreshed.2,
            count := some refreshed.2.modeCount, error := none }

/-- A binary tree with an element at every inner node, used as a heap: the
element at a node is at or below the elements under it. -/
inductive Heap (α : Type) where
  | leaf : Heap α
  | node (left : Heap α) (root : α) (right : Heap α) : Heap α

/-- Insertion into a heap: the smaller of the new element and the root stays
at the root, the other one is pushed down into the right subtree, and the
subtrees change sides to keep the tree balanced. -/
def heapInsert {α : Type} (compar : α → α → Int) : α → Heap α → Heap α
  | x, Heap.leaf => Heap.node Heap.leaf x Heap.leaf
  | x, Heap.node l y r =>
    if compar x y ≤ 0 then Heap.node (heapInsert compar y r) x l
    else Heap.node (heapInsert compar x r) y l

/-- Removal of the root of a heap: the smaller of the roots of the two
subtrees moves up, and its place is filled in the same way. -/
def heapRemoveRoot {α : Type} (compar : α → α → Int) : Heap α → Heap α
  | Heap.leaf => Heap.leaf
  | Heap.node Heap.leaf _ r => r
  | Heap.node (Heap.node ll y lr) _ Heap.leaf => Heap.node ll y lr
  | Heap.node (Heap.node ll y lr) _ (Heap.node rl z rr) =>
    if compar y z ≤ 0 then
      Heap.node (heapRemoveRoot compar (Heap.node ll y lr)) y (Heap.node rl z rr)
    else
      Heap.node (Heap.node ll y lr) z (heapRemoveRoot compar (Heap.node rl z rr))

/-- The heap built from an array, last element first. -/
def heapOfList {α : Type} (compar : α → α → Int) : List α → Heap α
  | [] => Heap.leaf
  | x :: xs => heapInsert compar x (heapOfList compar xs)

/-- The roots taken off a heap one after the other, at most `n` of them. -/
def heapDrain {α : Type} (compar : α → α → Int) : Nat → Heap α → List α
  | 0, _ => []
  | _ + 1, Heap.leaf => []
  | n + 1, Heap.node l x r => x :: heapDrain compar n (heapRemoveRoot compar (Heap.node l x r))

/-- Heap sort: a second algorithm a C library may use for `qsort`. The array
is made a heap, and the roots are taken off in turn. -/
def heapsort {α : Type} (compar : α → α → Int) (l : List α) : List α :=
  heapDrain compar l.length (heapOfList compar l)

/-- The elements of a heap. -/
def heapElems {α : Type} : Heap α → List α
  | Heap.leaf => []
  | Heap.node l x r => x :: (heapElems l ++ heapElems r)

/-- The heap property: every node's element compares at or below the
elements under it. -/
def IsHeap {α : Type} (compar : α → α → Int) : Heap α → Prop
  | Heap.leaf => True
  | Heap.node l x r =>
    (∀ y ∈ heapElems l, compar x y ≤ 0) ∧ (∀ y ∈ heapElems r, compar x y ≤ 0) ∧
      IsHeap compar l ∧ IsHeap compar r

/-! ## 32-bit arithmetic: basic facts -/

theorem wrap32_inRange (x : Int) : InRange32 (wrap32 x) := by
  unfold InRange32 wrap32; omega

theorem wrap32_of_inRange {x : Int} (h : InRange32 x) : wrap32 x = x := by
  unfold InRange32 at h; unfold wrap32; omega

theorem wrap32_modEq (x : Int) : wrap32 x ≡ x [ZMOD 4294967296] := by
  unfold wrap32 Int.ModEq; omega

theorem wrap32_congr {x y : Int} (h : x ≡ y [ZMOD 4294967296]) : wrap32 x = wrap32 y := by
  unfold Int.ModEq at h; unfold wrap32; omega

theorem add32_add32 (a b c : Int) : add32 (add32 a b) c = wrap32 (a + b + c) := by
  unfold add32 wrap32; omega

theorem mul32_eq (a b : Int) : mul32 (wrap32 a) (wrap32 b) = wrap32 (a * b) := by
  unfold mul32
  exact wrap32_congr ((wrap32_modEq a).mul (wrap32_modEq b))

theorem toUInt32_abs32_bounds (x : Int) :
    0 ≤ toUInt32 (abs32 (wrap32 x)) ∧ toUInt32 (abs32 (wrap32 x)) ≤ 2147483648 := by
  have h := wrap32_inRange x
  generalize wrap32 x = y at h
  unfold InRange32 at h
  unfold toUInt32 abs32 wrap32
  split_ifs <;> omega

theorem toUInt32_abs32_exact {x : Int} (h : InRange32 x) :
    toUInt32 (abs32 (wrap32 x)) = |x| := by
  rw [wrap32_of_inRange h]
  unfold InRange32 at h
  unfold toUInt32 abs32 wrap32
  rcases abs_cases x with ⟨h1, h2⟩ | ⟨h1, h2⟩ <;> rw [h1] <;> split_ifs <;> omega

/-! ## The comparator in terms of colour depth and area -/

theorem compareVideoModes_eq (a b : GLFWvidmode) :
    compareVideoModes a b =
      if wrap32 (colorDepth a) ≠ wrap32 (colorDepth b) then
        wrap32 (wrap32 (colorDepth a) - wrap32 (colorDepth b))
      else wrap32 (wrap32 (area a) - wrap32 (area b)) := by
  simp only [compareVideoModes, add32_add32, colorDepth, area, sub32, mul32]

theorem compareVideoModes_exact {a b : GLFWvidmode} (ha : FitsInt32 a) (hb : FitsInt32 b) :
    compareVideoModes a b =
      if colorDepth a ≠ colorDepth b then colorDepth a - colorDepth b
      else area a - area b := by
  obtain ⟨ha1, ha2, ha3, ha4⟩ := ha
  obtain ⟨hb1, hb2, hb3, hb4⟩ := hb
  rw [compareVideoModes_eq,
    wrap32_of_inRange (x := colorDepth a) ⟨by omega, ha2⟩,
    wrap32_of_inRange (x := colorDepth b) ⟨by omega, hb2⟩,
    wrap32_of_inRange (x := area a) ⟨by omega, ha4⟩,
    wrap32_of_inRange (x := area b) ⟨by omega, hb4⟩,
    wrap32_of_inRange (x := colorDepth a - colorDepth b) ⟨by omega, by omega⟩,
    wrap32_of_inRange (x := area a - area b) ⟨by omega, by omega⟩]

/-- Even with wrap-around, of two modes at least one compares at or below
the other. -/
theorem compareVideoModes_total (a b : GLFWvidmode) (h : 0 < compareVideoModes a b) :
    compareVideoModes b a ≤ 0 := by
  rw [compareVideoModes_eq] at h ⊢
  have h1 := wrap32_inRange (colorDepth a)
  have h2 := wrap32_inRange (colorDepth b)
  have h3 := wrap32_inRange (area a)
  have h4 := wrap32_inRange (area b)
  generalize wrap32 (colorDepth a) = x1 at *
  generalize wrap32 (colorDepth b) = x2 at *
  generalize wrap32 (area a) = y1 at *
  generalize wrap32 (area b) = y2 at *
  unfold InRange32 at *
  unfold wrap32 at *
  split_ifs at h ⊢ with c1 c2 c2
  · omega
  · exact absurd (Ne.symm c1) c2
  · exact absurd (Ne.symm c2) c1
  · omega

/-! ## The sort -/

theorem qsortInsert_perm {α : Type} (c : α → α → Int) (x : α) (l : List α) :
    (qsortInsert c x l).Perm (x :: l) := by
  induction l with
  | nil => exact List.Perm.refl _
  | cons y ys ih =>
    unfold qsortInsert
    split_ifs
    · exact List.Perm.refl _
    · exact (List.Perm.cons y ih).trans (List.Perm.swap x y ys)

theorem qsort_perm {α : Type} (c : α → α → Int) (l : List α) : (qsort c l).Perm l := by
  induction l with
  | nil => exact List.Perm.refl _
  | cons x xs ih =>
    unfold qsort
    exact (qsortInsert_perm c x _).trans (List.Perm.cons x ih)

theorem qsort_length {α : Type} (c : α → α → Int) (l : List α) :
    (qsort c l).length = l.length := (qsort_perm c l).length_eq

theorem qsortInsert_chain {α : Type} (c : α → α → Int)
    (htotal : ∀ a b, 0 < c a b → c b a ≤ 0) (x : α) (l : List α)
    (h : List.Chain' (fun a b => c a b ≤ 0) l) :
    List.Chain' (fun a b => c a b ≤ 0) (qsortInsert c x l) := by
  induction l with
  | nil => simp [qsortInsert]
  | cons y ys ih =>
    unfold qsortInsert
    split_ifs with hxy
    · exact List.Chain'.cons hxy h
    · have hyx : c y x ≤ 0 := htotal x y (by omega)
      have ih' := ih (List.Chain'.tail h)
      cases ys with
      | nil => simpa [qsortInsert] using hyx
      | cons z zs =>
        have hyz : c y z ≤ 0 := (List.chain'_cons.mp h).1
        unfold qsortInsert at ih' ⊢
        split_ifs at ih' ⊢ with hxz
        · exact List.Chain'.cons hyx ih'
        · exact List.Chain'.cons hyz ih'

theorem qsort_chain {α : Type} (c : α → α → Int)
    (htotal : ∀ a b, 0 < c a b → c b a ≤ 0) (l : List α) :
    List.Chain' (fun a b => c a b ≤ 0) (qsort c l) := by
  induction l with
  | nil => simp [qsort]
  | cons x xs ih =>
    unfold qsort
    exact qsortInsert_chain c htotal x _ ih

theorem chain_adjacent {α : Type} (R : α → α → Prop) (l : List α) (h : List.Chain' R l) :
    ∀ (i : Nat) (a b : α), l[i]? = some a → l[i + 1]? = some b → R a b := by
  induction l with
  | nil => intro i a b ha; simp at ha
  | cons x xs ih =>
    intro i a b ha hb
    cases xs with
    | nil => simp at hb
    | cons y ys =>
      have hxy := (List.chain'_cons.mp h).1
      have htl := (List.chain'_cons.mp h).2
      cases i with
      | zero =>
        simp at ha hb
        subst ha; subst hb
        exact hxy
      | succ j =>
        rw [List.getElem?_cons_succ] at ha hb
        exact ih htl j a b ha hb

/-! ## Sorting under the contract of `qsort` -/

theorem heapInsert_perm {α : Type} (c : α → α → Int) (h : Heap α) :
    ∀ x : α, (heapElems (heapInsert c x h)).Perm (x :: heapElems h) := by
  induction h with
  | leaf => intro x; exact List.Perm.refl _
  | node l y r _ ihr =>
    intro x
    rw [heapInsert]
    split_ifs with hxy
    · simp only [heapElems]
      refine List.Perm.cons x ?_
      refine ((ihr y).append_right (heapElems l)).trans ?_
      simp only [List.cons_append]
      exact List.Perm.cons y List.perm_append_comm
    · simp only [heapElems]
      refine (List.Perm.cons y ((ihr x).append_right (heapElems l))).trans ?_
      simp only [List.cons_append]
      refine (List.Perm.swap x y _).trans ?_
      exact List.Perm.cons x (List.Perm.cons y List.perm_append_comm)

theorem consistent_total {α : Type} {c : α → α → Int} {L : List α} (hc : Consistent c L)
    {a b : α} (ha : a ∈ L) (hb : b ∈ L) (h : ¬ c a b ≤ 0) : c b a ≤ 0 := by
  have h1 := (hc.1 b hb a ha).mpr (by omega)
  omega

theorem heapInsert_isHeap {α : Type} (c : α → α → Int) (L : List α) (hc : Consistent c L)
    (h : Heap α) :
    ∀ x : α, x ∈ L → (∀ y ∈ heapElems h, y ∈ L) → IsHeap c h → IsHeap c (heapInsert c x h) := by
  induction h with
  | leaf =>
    intro x _ _ _
    simp [heapInsert, IsHeap, heapElems]
  | node l y r _ ihr =>
    intro x hx hsub hh
    obtain ⟨hl, hr, Hl, Hr⟩ := hh
    have hy : y ∈ L := hsub y (by simp [heapElems])
    have hlL : ∀ z ∈ heapElems l, z ∈ L := fun z hz => hsub z (by simp [heapElems, hz])
    have hrL : ∀ z ∈ heapElems r, z ∈ L := fun z hz => hsub z (by simp [heapElems, hz])
    rw [heapInsert]
    split_ifs with hxy
    · refine ⟨?_, ?_, ihr y hy hrL Hr, Hl⟩
      · intro z hz
        rcases List.mem_cons.mp ((heapInsert_perm c r y).mem_iff.mp hz) with h1 | h1
        · rw [h1]; exact hxy
        · exact hc.2 x hx y hy z (hrL z h1) hxy (hr z h1)
      · intro z hz
        exact hc.2 x hx y hy z (hlL z hz) hxy (hl z hz)
    · have hyx : c y x ≤ 0 := consistent_total hc hx hy hxy
      refine ⟨?_, hl, ihr x hx hrL Hr, Hl⟩
      intro z hz
      rcases List.mem_cons.mp ((heapInsert_perm c r x).mem_iff.mp hz) with h1 | h1
      · rw [h1]; exact hyx
      · exact hr z h1

theorem heapOfList_perm {α : Type} (c : α → α → Int) (l : List α) :
    (heapElems (heapOfList c l)).Perm l := by
  induction l with
  | nil => exact List.Perm.refl _
  | cons x xs ih =>
    rw [heapOfList]
    exact (heapInsert_perm c _ x).trans (List.Perm.cons x ih)

theorem heapOfList_isHeap {α : Type} (c : α → α → Int) (L : List α) (hc : Consistent c L)
    (l : List α) (hl : ∀ x ∈ l, x ∈ L) : IsHeap c (heapOfList c l) := by
  induction l with
  | nil => simp [heapOfList, IsHeap]
  | cons x xs ih =>
    rw [heapOfList]
    have hxs : ∀ y ∈ xs, y ∈ L := fun y hy => hl y (List.mem_cons_of_mem _ hy)
    refine heapInsert_isHeap c L hc _ x (hl x (List.mem_cons_self _ _)) ?_ (ih hxs)
    intro y hy
    exact hxs y ((heapOfList_perm c xs).mem_iff.mp hy)

theorem heapRemoveRoot_perm {α : Type} (c : α → α → Int) (h : Heap α) :
    (heapElems (heapRemoveRoot c h)).Perm (heapElems h).tail := by
  induction h with
  | leaf => exact List.Perm.refl _
  | node l x r ihl ihr =>
    cases l with
    | leaf => simp [heapRemoveRoot, heapElems]
    | node ll y lr =>
      cases r with
      | leaf => simp [heapRemoveRoot, heapElems]
      | node rl z rr =>
        rw [heapRemoveRoot]
        split_ifs with hyz
        · simp only [heapElems, List.tail_cons] at ihl ⊢
          simp only [List.cons_append]
          exact List.Perm.cons y (ihl.append_right _)
        · simp only [heapElems, List.tail_cons] at ihr ⊢
          refine (List.Perm.cons z (ihr.append_left _)).trans ?_
          exact List.perm_middle.symm

theorem heapRemoveRoot_isHeap {α : Type} (c : α → α → Int) (L : List α) (hc : Consistent c L)
    (h : Heap α) :
    (∀ y ∈ heapElems h, y ∈ L) → IsHeap c h → IsHeap c (heapRemoveRoot c h) := by
  induction h with
  | leaf => intro _ _; simp [heapRemoveRoot, IsHeap]
  | node l x r ihl ihr =>
    intro hsub hh
    obtain ⟨_, _, Hl, Hr⟩ := hh
    have hlL : ∀ z ∈ heapElems l, z ∈ L := fun z hz => hsub z (by simp [heapElems, hz])
    have hrL : ∀ z ∈ heapElems r, z ∈ L := fun z hz => hsub z (by simp [heapElems, hz])
    cases l with
    | leaf => rw [heapRemoveRoot]; exact Hr
    | node ll y lr =>
      cases r with
      | leaf => rw [heapRemoveRoot]; exact Hl
      | node rl z rr =>
        have hy : y ∈ L := hlL y (by simp [heapElems])
        have hz : z ∈ L := hrL z (by simp [heapElems])
        have Hl' := Hl
        have Hr' := Hr
        obtain ⟨hl1, hl2, _, _⟩ := Hl'
        obtain ⟨hr1, hr2, _, _⟩ := Hr'
        rw [heapRemoveRoot]
        split_ifs with hyz
        · refine ⟨?_, ?_, ihl hlL Hl, Hr⟩
          · intro w hw
            have hw' := (heapRemoveRoot_perm c (Heap.node ll y lr)).mem_iff.mp hw
            simp only [heapElems, List.tail_cons, List.mem_append] at hw'
            rcases hw' with h1 | h1
            · exact hl1 w h1
            · exact hl2 w h1
          · intro w hw
            simp only [heapElems, List.mem_cons, List.mem_append] at hw
            rcases hw with h1 | h1 | h1
            · rw [h1]; exact hyz
            · exact hc.2 y hy z hz w (hrL w (by simp [heapElems, h1])) hyz (hr1 w h1)
            · exact hc.2 y hy z hz w (hrL w (by simp [heapElems, h1])) hyz (hr2 w h1)
        · have hzy : c z y ≤ 0 := consistent_total hc hy hz hyz
          refine ⟨?_, ?_, Hl, ihr hrL Hr⟩
          · intro w hw
            simp only [heapElems, List.mem_cons, List.mem_append] at hw
            rcases hw with h1 | h1 | h1
            · rw [h1]; exact hzy
            · exact hc.2 z hz y hy w (hlL w (by simp [heapElems, h1])) hzy (hl1 w h1)
            · exact hc.2 z hz y hy w (hlL w (by simp [heapElems, h1])) hzy (hl2 w h1)
          · intro w hw
            have hw' := (heapRemoveRoot_perm c (Heap.node rl z rr)).mem_iff.mp hw
            simp only [heapElems, List.tail_cons, List.mem_append] at hw'
            rcases hw' with h1 | h1
            · exact hr1 w h1
            · exact hr2 w h1

theorem heapDrain_perm {α : Type} (c : α → α → Int) :
    ∀ (n : Nat) (h : Heap α), (heapElems h).length ≤ n →
      (heapDrain c n h).Perm (heapElems h) := by
  intro n
  induction n with
  | zero =>
    intro h hn
    have h0 : heapElems h = [] := List.length_eq_zero.mp (by omega)
    rw [h0]
    cases h <;> exact List.Perm.refl _
  | succ n ih =>
    intro h hn
    cases h with
    | leaf => exact List.Perm.refl _
    | node l x r =>
      rw [heapDrain]
      have hp := heapRemoveRoot_perm c (Heap.node l x r)
      have hlen : (heapElems (heapRemoveRoot c (Heap.node l x r))).length ≤ n := by
        rw [hp.length_eq]
        simp only [heapElems, List.tail_cons, List.length_cons] at hn ⊢
        omega
      refine (List.Perm.cons x ((ih _ hlen).trans hp)).trans ?_
      simp [heapElems]

theorem heapDrain_chain {α : Type} (c : α → α → Int) (L : List α) (hc : Consistent c L) :
    ∀ (n : Nat) (h : Heap α), (heapElems h).length ≤ n → (∀ y ∈ heapElems h, y ∈ L) →
      IsHeap c h → List.Chain' (fun a b => c a b ≤ 0) (heapDrain c n h) := by
  intro n
  induction n with
  | zero => intro h _ _ _; cases h <;> simp [heapDrain]
  | succ n ih =>
    intro h hn hsub hh
    cases h with
    | leaf => simp [heapDrain]
    | node l x r =>
      rw [heapDrain]
      have hp := heapRemoveRoot_perm c (Heap.node l x r)
      have hlen : (heapElems (heapRemoveRoot c (Heap.node l x r))).length ≤ n := by
        rw [hp.length_eq]
        simp only [heapElems, List.tail_cons, List.length_cons] at hn ⊢
        omega
      have hsub' : ∀ y ∈ heapElems (heapRemoveRoot c (Heap.node l x r)), y ∈ L := by
        intro y hy
        have hy' := hp.mem_iff.mp hy
        simp only [heapElems, List.tail_cons] at hy'
        exact hsub y (by simp only [heapElems]; exact List.mem_cons_of_mem _ hy')
      rw [List.chain'_cons']
      refine ⟨?_, ih _ hlen hsub' (heapRemoveRoot_isHeap c L hc _ hsub hh)⟩
      intro y hy
      have hy1 := List.mem_of_mem_head? hy
      have hy2 := hp.mem_iff.mp ((heapDrain_perm c n _ hlen).mem_iff.mp hy1)
      simp only [heapElems, List.tail_cons, List.mem_append] at hy2
      obtain ⟨hl, hr, _, _⟩ := hh
      rcases hy2 with h1 | h1
      · exact hl y h1
      · exact hr y h1

/-- Heap sort keeps the promise of `qsort`. -/
theorem heapsort_contract : QsortContract heapsort := by
  intro c l hc
  have hp := heapOfList_perm c l
  have hlen : (heapElems (heapOfList c l)).length ≤ l.length := by rw [hp.length_eq]
  constructor
  · exact (heapDrain_perm c l.length _ hlen).trans hp
  · exact heapDrain_chain c l hc l.length _ hlen (fun y hy => hp.mem_iff.mp hy)
      (heapOfList_isHeap c l hc l (fun x hx => hx))

theorem qsortInsert_chain_on {α : Type} (c : α → α → Int) (x : α) (l : List α)
    (htotal : ∀ y ∈ l, ¬ c x y ≤ 0 → c y x ≤ 0)
    (h : List.Chain' (fun a b => c a b ≤ 0) l) :
    List.Chain' (fun a b => c a b ≤ 0) (qsortInsert c x l) := by
  induction l with
  | nil => simp [qsortInsert]
  | cons y ys ih =>
    unfold qsortInsert
    split_ifs with hxy
    · exact List.Chain'.cons hxy h
    · have hyx : c y x ≤ 0 := htotal y (List.mem_cons_self _ _) hxy
      have ih' := ih (fun z hz => htotal z (List.mem_cons_of_mem _ hz)) (List.Chain'.tail h)
      cases ys with
      | nil => simpa [qsortInsert] using hyx
      | cons z zs =>
        have hyz : c y z ≤ 0 := (List.chain'_cons.mp h).1
        unfold qsortInsert at ih' ⊢
        split_ifs at ih' ⊢ with hxz
        · exact List.Chain'.cons hyx ih'
        · exact List.Chain'.cons hyz ih'

/-- Insertion sort keeps the promise of `qsort`. -/
theorem qsort_contract : QsortContract qsort := by
  intro c l hc
  refine ⟨qsort_perm c l, ?_⟩
  have key : ∀ l' : List GLFWvidmode, (∀ x ∈ l', x ∈ l) →
      List.Chain' (fun a b => c a b ≤ 0) (qsort c l') := by
    intro l'
    induction l' with
    | nil => intro _; simp [qsort]
    | cons x xs ih =>
      intro hsub
      unfold qsort
      have hxs : ∀ y ∈ xs, y ∈ l := fun y hy => hsub y (List.mem_cons_of_mem _ hy)
      refine qsortInsert_chain_on c x _ ?_ (ih hxs)
      intro y hy hxy
      exact consistent_total hc (hsub x (List.mem_cons_self _ _))
        (hxs y ((qsort_perm c xs).mem_iff.mp hy)) hxy
  exact key l (fun x hx => hx)

/-- On modes whose colour depth and area fit in an `int`, `compareVideoModes`
is the comparison function the C standard asks for. -/
theorem compareVideoModes_consistent (M : List GLFWvidmode) (hfit : ∀ m ∈ M, FitsInt32 m) :
    Consistent compareVideoModes M := by
  constructor
  · intro a ha b hb
    rw [compareVideoModes_exact (hfit a ha) (hfit b hb),
      compareVideoModes_exact (hfit b hb) (hfit a ha)]
    split_ifs <;> omega
  · intro a ha b hb d hd
    rw [compareVideoModes_exact (hfit a ha) (hfit b hb),
      compareVideoModes_exact (hfit b hb) (hfit d hd),
      compareVideoModes_exact (hfit a ha) (hfit d hd)]
    split_ifs <;> omega

theorem refreshVideoModesWith_qsort (monitor : _GLFWmonitor)
    (platformModes : Option (List GLFWvidmode)) :
    refreshVideoModesWith qsort monitor platformModes = refreshVideoModes monitor platformModes :=
  rfl

theorem glfwGetVideoModesWith_qsort (initialized : Bool) (handle : Option _GLFWmonitor)
    (count : Option Int) (platformModes : Option (List GLFWvidmode)) :
    glfwGetVideoModesWith qsort initialized handle count platformModes =
      glfwGetVideoModes initialized handle count platformModes :=
  rfl

/-! ## The differences computed by the mode matcher -/

theorem colorDiffOf_eq (d m : GLFWvidmode) :
    colorDiffOf d m = toUInt32 (abs32 (wrap32 (colorDepth m - colorDepth d))) := by
  have : sub32 (add32 (add32 m.redBits m.greenBits) m.blueBits)
      (add32 (add32 d.redBits d.greenBits) d.blueBits)
      = wrap32 (colorDepth m - colorDepth d) := by
    unfold sub32 add32 wrap32 colorDepth; omega
  unfold colorDiffOf; rw [this]

theorem sizeDiffOf_eq (d m : GLFWvidmode) :
    sizeDiffOf d m = toUInt32 (abs32 (wrap32 (sizeDiff d m))) := by
  have : add32 (mul32 (sub32 m.width d.width) (sub32 m.width d.width))
      (mul32 (sub32 m.height d.height) (sub32 m.height d.height))
      = wrap32 (sizeDiff d m) := by
    unfold sub32
    rw [mul32_eq, mul32_eq]
    unfold add32
    apply wrap32_congr
    have h1 := wrap32_modEq ((m.width - d.width) * (m.width - d.width))
    have h2 := wrap32_modEq ((m.height - d.height) * (m.height - d.height))
    have h3 := h1.add h2
    unfold sizeDiff
    rw [pow_two, pow_two]
    exact h3
  unfold sizeDiffOf; rw [this]

theorem colorDiffOf_lt_UINT_MAX (d m : GLFWvidmode) : colorDiffOf d m < UINT_MAX := by
  rw [colorDiffOf_eq]
  have := toUInt32_abs32_bounds (colorDepth m - colorDepth d)
  unfold UINT_MAX; omega

theorem colorDiffOf_exact {d m : GLFWvidmode} (h : InRange32 (colorDepth m - colorDepth d)) :
    colorDiffOf d m = colorDiff d m := by
  rw [colorDiffOf_eq, toUInt32_abs32_exact h]; rfl

theorem sizeDiffOf_exact {d m : GLFWvidmode} (h : InRange32 (sizeDiff d m)) :
    sizeDiffOf d m = sizeDiff d m := by
  rw [sizeDiffOf_eq, toUInt32_abs32_exact h]
  apply abs_of_nonneg
  unfold sizeDiff; positivity

/-! ## The loop of the mode matcher -/

theorem chooseStep_init (d cur : GLFWvidmode) :
    ChooseInv d [cur] (chooseStep d 0 cur chooseInit) := by
  have h := colorDiffOf_lt_UINT_MAX d cur
  unfold chooseStep chooseInit
  simp only [h, true_or, if_true]
  refine ⟨0, cur, rfl, rfl, rfl, rfl, ?_, ?_⟩
  · intro m hm
    rw [List.mem_singleton] at hm
    subst hm
    exact Or.inr ⟨rfl, le_refl _⟩
  · intro j m hj
    omega

theorem chooseStep_inv (d cur : GLFWvidmode) (seen : List GLFWvidmode) (st : ChooseState)
    (h : ChooseInv d seen st) :
    ChooseInv d (seen ++ [cur]) (chooseStep d seen.length cur st) := by
  obtain ⟨k, r, hc, hk, hcd, hsd, hmin, hfirst⟩ := h
  have hklt : k < seen.length := (List.getElem?_eq_some_iff.mp hk).1
  unfold chooseStep
  simp only
  split_ifs with hif
  · refine ⟨seen.length, cur, rfl, by simp, rfl, rfl, ?_, ?_⟩
    · intro m hm
      rw [List.mem_append, List.mem_singleton] at hm
      rcases hm with hm | hm
      · have := hmin m hm
        rw [hcd, hsd] at hif
        omega
      · subst hm; exact Or.inr ⟨rfl, le_refl _⟩
    · intro j m hj hjm
      rw [List.getElem?_append_left hj] at hjm
      have := hmin m (List.getElem?_mem hjm)
      rw [hcd, hsd] at hif
      omega
  · refine ⟨k, r, hc, ?_, hcd, hsd, ?_, ?_⟩
    · rw [List.getElem?_append_left hklt]; exact hk
    · intro m hm
      rw [List.mem_append, List.mem_singleton] at hm
      rcases hm with hm | hm
      · exact hmin m hm
      · subst hm
        rw [hcd, hsd] at hif
        omega
    · intro j m hj hjm
      rw [List.getElem?_append_left (by omega)] at hjm
      exact hfirst j m hj hjm

theorem chooseLoop_inv (d : GLFWvidmode) (rest : List GLFWvidmode) :
    ∀ (seen : List GLFWvidmode) (st : ChooseState), ChooseInv d seen st →
      ChooseInv d (seen ++ rest) (chooseLoop d rest seen.length st) := by
  induction rest with
  | nil => intro seen st h; simpa [chooseLoop] using h
  | cons cur rest ih =>
    intro seen st h
    have h1 := ih (seen ++ [cur]) _ (chooseStep_inv d cur seen st h)
    simpa [chooseLoop] using h1

theorem chooseLoop_nonempty (d cur : GLFWvidmode) (rest : List GLFWvidmode) :
    ChooseInv d (cur :: rest) (chooseLoop d (cur :: rest) 0 chooseInit) := by
  have h := chooseLoop_inv d rest [cur] _ (chooseStep_init d cur)
  simpa [chooseLoop] using h

/-- After a successful discovery `_glfwChooseVideoMode` runs its loop over
the whole sorted list. -/
theorem chooseVideoMode_some (monitor : _GLFWmonitor) (M : List GLFWvidmode)
    (d : GLFWvidmode) :
    _glfwChooseVideoMode monitor (some M) d =
      ((chooseLoop d (qsort compareVideoModes M) 0 chooseInit).closest,
       (refreshVideoModes monitor (some M)).2) := by
  simp [_glfwChooseVideoMode, refreshVideoModes, List.take_of_length_le, qsort_length]

/-! ## Claims on the video mode ordering, the cache and the mode matcher -/

/-- C1 (as stated) fails: with the cache `[2x1, 65537x1]` and the desired mode
`1x1` of the same colour depth, the squared distance `65536^2` of the mode
`65537x1` wraps around to `0` in 32-bit arithmetic, so `_glfwChooseVideoMode`
returns `65537x1` although `2x1` has the smaller exact size distance. -/
theorem chooseVideoMode_lex_minimum_counterexample :
    (_glfwChooseVideoMode ⟨1, "DVI-0", true, 300, 200, 0, 0, none, 0⟩
        (some [⟨65537, 1, 8, 8, 8⟩, ⟨2, 1, 8, 8, 8⟩]) ⟨1, 1, 8, 8, 8⟩).1
      = some (1, ⟨65537, 1, 8, 8, 8⟩) ∧
    (⟨2, 1, 8, 8, 8⟩ : GLFWvidmode) ∈
      [(⟨65537, 1, 8, 8, 8⟩ : GLFWvidmode), ⟨2, 1, 8, 8, 8⟩] ∧
    colorDiff ⟨1, 1, 8, 8, 8⟩ ⟨65537, 1, 8, 8, 8⟩ = colorDiff ⟨1, 1, 8, 8, 8⟩ ⟨2, 1, 8, 8, 8⟩ ∧
    sizeDiff ⟨1, 1, 8, 8, 8⟩ ⟨2, 1, 8, 8, 8⟩ < sizeDiff ⟨1, 1, 8, 8, 8⟩ ⟨65537, 1, 8, 8, 8⟩ := by
  decide

/-- C1 (amended): for every monitor whose mode discovery succeeds with a
non-empty list `M` and every desired mode `d` such that, for each mode of `M`,
the exact colour depth difference and the exact squared distance to `d` fit
in a 32-bit signed int, `_glfwChooseVideoMode` returns a pointer to a cache
entry `r` that is an element of `M` and a lexicographic minimum of
`(colorDiff, sizeDiff)` over `M`. -/
theorem chooseVideoMode_lex_minimum (monitor : _GLFWmonitor) (M : List GLFWvidmode)
    (d : GLFWvidmode) (hM : M ≠ [])
    (hfit : ∀ m ∈ M, InRange32 (colorDepth m - colorDepth d) ∧ InRange32 (sizeDiff d m)) :
    ∃ k r cache,
      (_glfwChooseVideoMode monitor (some M) d).1 = some (k, r) ∧
      (_glfwChooseVideoMode monitor (some M) d).2.modes = some cache ∧
      cache[k]? = some r ∧ r ∈ M ∧
      ∀ m ∈ M, colorDiff d r < colorDiff d m ∨
        (colorDiff d r = colorDiff d m ∧ sizeDiff d r ≤ sizeDiff d m) := by
  rw [chooseVideoMode_some]
  have hperm := qsort_perm compareVideoModes M
  cases hq : qsort compareVideoModes M with
  | nil =>
    rw [hq] at hperm
    exact absurd (List.Perm.nil_eq hperm).symm hM
  | cons x xs =>
    obtain ⟨k, r, hc, hk, _, _, hmin, _⟩ := chooseLoop_nonempty d x xs
    have hrM : r ∈ M := by
      have : r ∈ x :: xs := List.getElem?_mem hk
      rw [← hq] at this
      exact hperm.mem_iff.mp this
    refine ⟨k, r, x :: xs, hc, ?_, hk, hrM, ?_⟩
    · simp [refreshVideoModes, hq]
    · intro m hm
      have hm' : m ∈ x :: xs := by
        rw [← hq]; exact hperm.mem_iff.mpr hm
      have h := hmin m hm'
      rw [colorDiffOf_exact (hfit r hrM).1, colorDiffOf_exact (hfit m hm).1,
        sizeDiffOf_exact (hfit r hrM).2, sizeDiffOf_exact (hfit m hm).2] at h
      exact h

/-- C1 (amended), at a concrete input: of `800x600` and `640x480` the mode
closest to the desired `640x480` is a minimum. -/
theorem chooseVideoMode_lex_minimum_witness :
    ([⟨800, 600, 8, 8, 8⟩, ⟨640, 480, 8, 8, 8⟩] : List GLFWvidmode) ≠ [] ∧
    (∀ m ∈ [(⟨800, 600, 8, 8, 8⟩ : GLFWvidmode), ⟨640, 480, 8, 8, 8⟩],
      InRange32 (colorDepth m - colorDepth ⟨640, 480, 8, 8, 8⟩) ∧
      InRange32 (sizeDiff ⟨640, 480, 8, 8, 8⟩ m)) ∧
    ∃ k r cache,
      (_glfwChooseVideoMode ⟨1, "DVI-0", true, 300, 200, 0, 0, none, 0⟩
        (some [⟨800, 600, 8, 8, 8⟩, ⟨640, 480, 8, 8, 8⟩]) ⟨640, 480, 8, 8, 8⟩).1 = some (k, r) ∧
      (_glfwChooseVideoMode ⟨1, "DVI-0", true, 300, 200, 0, 0, none, 0⟩
        (some [⟨800, 600, 8, 8, 8⟩, ⟨640, 480, 8, 8, 8⟩]) ⟨640, 480, 8, 8, 8⟩).2.modes
          = some cache ∧
      cache[k]? = some r ∧ r ∈ [(⟨800, 600, 8, 8, 8⟩ : GLFWvidmode), ⟨640, 480, 8, 8, 8⟩] ∧
      ∀ m ∈ [(⟨800, 600, 8, 8, 8⟩ : GLFWvidmode), ⟨640, 480, 8, 8, 8⟩],
        colorDiff ⟨640, 480, 8, 8, 8⟩ r < colorDiff ⟨640, 480, 8, 8, 8⟩ m ∨
        (colorDiff ⟨640, 480, 8, 8, 8⟩ r = colorDiff ⟨640, 480, 8, 8, 8⟩ m ∧
          sizeDiff ⟨640, 480, 8, 8, 8⟩ r ≤ sizeDiff ⟨640, 480, 8, 8, 8⟩ m) :=
  ⟨by decide, by decide,
   chooseVideoMode_lex_minimum ⟨1, "DVI-0", true, 300, 200, 0, 0, none, 0⟩
     [⟨800, 600, 8, 8, 8⟩, ⟨640, 480, 8, 8, 8⟩] ⟨640, 480, 8, 8, 8⟩ (by decide) (by decide)⟩

/-- C5 (as stated) fails: the modes `65536x65536` and `1x1`, both with positive
width and height and channel bits `8, 8, 8`, have equal colour depth and the
first has the larger area, yet its area `2^32` wraps around to `0` and
`compareVideoModes` returns a negative value. -/
theorem compareVideoModes_sign_counterexample :
    (0 < (⟨65536, 65536, 8, 8, 8⟩ : GLFWvidmode).width ∧
      0 < (⟨65536, 65536, 8, 8, 8⟩ : GLFWvidmode).height ∧
      0 ≤ (⟨65536, 65536, 8, 8, 8⟩ : GLFWvidmode).redBits ∧
      0 ≤ (⟨65536, 65536, 8, 8, 8⟩ : GLFWvidmode).greenBits ∧
      0 ≤ (⟨65536, 65536, 8, 8, 8⟩ : GLFWvidmode).blueBits) ∧
    compareVideoModes ⟨65536, 65536, 8, 8, 8⟩ ⟨1, 1, 8, 8, 8⟩ < 0 ∧
    colorDepth ⟨65536, 65536, 8, 8, 8⟩ = colorDepth ⟨1, 1, 8, 8, 8⟩ ∧
    area ⟨1, 1, 8, 8, 8⟩ < area ⟨65536, 65536, 8, 8, 8⟩ := by
  decide

/-- C5 (amended): for all video modes `a` and `b` whose colour depth sum and
area are non-negative and fit in a 32-bit signed int, the result of
`compareVideoModes a b` (and of `_glfwCompareVideoModes a b`) is negative
exactly when the pair (colour depth, area) of `a` is lexicographically smaller
than that of `b`, zero exactly when both pairs are equal, and positive exactly
when the pair of `b` is the smaller one. -/
theorem compareVideoModes_sign (a b : GLFWvidmode) (ha : FitsInt32 a) (hb : FitsInt32 b) :
    _glfwCompareVideoModes a b = compareVideoModes a b ∧
    (compareVideoModes a b < 0 ↔
      (colorDepth a < colorDepth b ∨ (colorDepth a = colorDepth b ∧ area a < area b))) ∧
    (compareVideoModes a b = 0 ↔ (colorDepth a = colorDepth b ∧ area a = area b)) ∧
    (0 < compareVideoModes a b ↔
      (colorDepth b < colorDepth a ∨ (colorDepth a = colorDepth b ∧ area b < area a))) := by
  refine ⟨rfl, ?_⟩
  rw [compareVideoModes_exact ha hb]
  split_ifs with h <;> omega

/-- C5 (amended), at a concrete input: `640x480` sorts before `800x600` of the
same colour depth. -/
theorem compareVideoModes_sign_witness :
    FitsInt32 ⟨640, 480, 8, 8, 8⟩ ∧ FitsInt32 ⟨800, 600, 8, 8, 8⟩ ∧
    compareVideoModes ⟨640, 480, 8, 8, 8⟩ ⟨800, 600, 8, 8, 8⟩ < 0 :=
  ⟨by decide, by decide,
    (compareVideoModes_sign ⟨640, 480, 8, 8, 8⟩ ⟨800, 600, 8, 8, 8⟩
      (by decide) (by decide)).2.1.2 (Or.inr ⟨by decide, by decide⟩)⟩

/-- C6 (as stated) fails: for `a = 32768x32768`, `b = 49152x65536` and
`c = 1x1` of equal colour depth, the area of `b` wraps around to `-2^30`, so
`compareVideoModes a b` and `compareVideoModes b c` are both negative while
`compareVideoModes a c` is positive. -/
theorem compareVideoModes_trans_counterexample :
    compareVideoModes ⟨32768, 32768, 8, 8, 8⟩ ⟨49152, 65536, 8, 8, 8⟩ ≤ 0 ∧
    compareVideoModes ⟨49152, 65536, 8, 8, 8⟩ ⟨1, 1, 8, 8, 8⟩ ≤ 0 ∧
    0 < compareVideoModes ⟨32768, 32768, 8, 8, 8⟩ ⟨1, 1, 8, 8, 8⟩ := by
  decide

/-- C6 (amended): for all video modes `a`, `b`, `c` whose colour depth sum and
area are non-negative and fit in a 32-bit signed int, if
`compareVideoModes a b ≤ 0` and `compareVideoModes b c ≤ 0` then
`compareVideoModes a c ≤ 0`. -/
theorem compareVideoModes_trans (a b c : GLFWvidmode)
    (ha : FitsInt32 a) (hb : FitsInt32 b) (hc : FitsInt32 c)
    (hab : compareVideoModes a b ≤ 0) (hbc : compareVideoModes b c ≤ 0) :
    compareVideoModes a c ≤ 0 := by
  rw [compareVideoModes_exact ha hb] at hab
  rw [compareVideoModes_exact hb hc] at hbc
  rw [compareVideoModes_exact ha hc]
  split_ifs at hab hbc ⊢ <;> omega

/-- C6 (amended), at a concrete input: `640x480 ≤ 800x600 ≤ 1024x768`. -/
theorem compareVideoModes_trans_witness :
    FitsInt32 ⟨640, 480, 8, 8, 8⟩ ∧ FitsInt32 ⟨800, 600, 8, 8, 8⟩ ∧
    FitsInt32 ⟨1024, 768, 8, 8, 8⟩ ∧
    compareVideoModes ⟨640, 480, 8, 8, 8⟩ ⟨800, 600, 8, 8, 8⟩ ≤ 0 ∧
    compareVideoModes ⟨800, 600, 8, 8, 8⟩ ⟨1024, 768, 8, 8, 8⟩ ≤ 0 ∧
    compareVideoModes ⟨640, 480, 8, 8, 8⟩ ⟨1024, 768, 8, 8, 8⟩ ≤ 0 :=
  ⟨by decide, by decide, by decide, by decide, by decide,
    compareVideoModes_trans ⟨640, 480, 8, 8, 8⟩ ⟨800, 600, 8, 8, 8⟩ ⟨1024, 768, 8, 8, 8⟩
      (by decide) (by decide) (by decide) (by decide) (by decide)⟩

/-- C7 (as stated) fails: for `a = 32768x32768` and `b = 49152x65536` of equal
colour depth, the difference of the wrapped areas is `2^31` in either
direction and wraps around to `INT_MIN`, so `compareVideoModes a b` and
`compareVideoModes b a` are both negative. -/
theorem compareVideoModes_antisymm_counterexample :
    compareVideoModes ⟨32768, 32768, 8, 8, 8⟩ ⟨49152, 65536, 8, 8, 8⟩ < 0 ∧
    compareVideoModes ⟨49152, 65536, 8, 8, 8⟩ ⟨32768, 32768, 8, 8, 8⟩ < 0 := by
  decide

/-- C7 (amended): for all video modes `a` and `b` whose colour depth sum and
area are non-negative and fit in a 32-bit signed int, the sign of
`compareVideoModes a b` is the negation of the sign of
`compareVideoModes b a`, and both are zero exactly when `a` and `b` have the
same colour depth sum and the same area. -/
theorem compareVideoModes_antisymm (a b : GLFWvidmode) (ha : FitsInt32 a) (hb : FitsInt32 b) :
    Int.sign (compareVideoModes a b) = - Int.sign (compareVideoModes b a) ∧
    ((compareVideoModes a b = 0 ∧ compareVideoModes b a = 0) ↔
      (colorDepth a = colorDepth b ∧ area a = area b)) := by
  rw [compareVideoModes_exact ha hb, compareVideoModes_exact hb ha]
  constructor
  · split_ifs with h1 h2 h2
    · rw [← Int.sign_neg]; congr 1; omega
    · exact absurd (Ne.symm h1) h2
    · exact absurd (Ne.symm h2) h1
    · rw [← Int.sign_neg]; congr 1; omega
  · split_ifs <;> omega

/-- C7 (amended), at a concrete input: `640x480` against `800x600`. -/
theorem compareVideoModes_antisymm_witness :
    FitsInt32 ⟨640, 480, 8, 8, 8⟩ ∧ FitsInt32 ⟨800, 600, 8, 8, 8⟩ ∧
    Int.sign (compareVideoModes ⟨640, 480, 8, 8, 8⟩ ⟨800, 600, 8, 8, 8⟩) =
      - Int.sign (compareVideoModes ⟨800, 600, 8, 8, 8⟩ ⟨640, 480, 8, 8, 8⟩) :=
  ⟨by decide, by decide,
    (compareVideoModes_antisymm ⟨640, 480, 8, 8, 8⟩ ⟨800, 600, 8, 8, 8⟩
      (by decide) (by decide)).1⟩

/-- C8 (as stated) fails: the C standard leaves the algorithm of `qsort` open
and promises a sorted array only for a consistent comparison function, which
`compareVideoModes` is not when an area overflows an `int`. With heap sort,
which keeps the promise of `qsort`, and the discovered list
`[1x1, 32768x32768, 49152x65536, 65536x65536]` the refreshed cache is
`[1x1, 49152x65536, 65536x65536, 32768x32768]`, and `compareVideoModes` of its
first two entries is `1073741825`, above zero. -/
theorem refreshVideoModes_sorted_perm_counterexample :
    QsortContract heapsort ∧
    refreshVideoModesWith heapsort (exampleMonitor 1 "X")
        (some [⟨1, 1, 8, 8, 8⟩, ⟨32768, 32768, 8, 8, 8⟩, ⟨49152, 65536, 8, 8, 8⟩,
          ⟨65536, 65536, 8, 8, 8⟩])
      = (true, { exampleMonitor 1 "X" with
                   modes := some [⟨1, 1, 8, 8, 8⟩, ⟨49152, 65536, 8, 8, 8⟩,
                     ⟨65536, 65536, 8, 8, 8⟩, ⟨32768, 32768, 8, 8, 8⟩]
                   modeCount := 4 }) ∧
    compareVideoModes ⟨1, 1, 8, 8, 8⟩ ⟨49152, 65536, 8, 8, 8⟩ = 1073741825 ∧
    ¬ compareVideoModes ⟨1, 1, 8, 8, 8⟩ ⟨49152, 65536, 8, 8, 8⟩ ≤ 0 :=
  ⟨heapsort_contract, by decide, by decide, by decide⟩

/-- C8 (amended): whichever algorithm the C library's `qsort` uses, as long
as it keeps the promise of the C standard, for every monitor whose mode
discovery succeeds with a list `M` of modes whose colour depth and area fit in
a 32-bit signed int, `refreshVideoModes` succeeds and leaves a cache that is a
permutation of `M`, with count equal to the length of `M`, in which every
adjacent pair satisfies `compareVideoModes cache[i] cache[i+1] ≤ 0`; a
successful `glfwGetVideoModes` returns that cache and stores that count. -/
theorem refreshVideoModes_sorted_perm
    (sort : (GLFWvidmode → GLFWvidmode → Int) → List GLFWvidmode → List GLFWvidmode)
    (hsort : QsortContract sort) (monitor : _GLFWmonitor) (M : List GLFWvidmode)
    (count : Int) (hfit : ∀ m ∈ M, FitsInt32 m) :
    (refreshVideoModesWith sort monitor (some M)).1 = true ∧
    ∃ cache,
      (refreshVideoModesWith sort monitor (some M)).2.modes = some cache ∧
      cache.Perm M ∧
      (refreshVideoModesWith sort monitor (some M)).2.modeCount = (M.length : Int) ∧
      (∀ (i : Nat) (a b : GLFWvidmode), cache[i]? = some a → cache[i + 1]? = some b →
        compareVideoModes a b ≤ 0) ∧
      glfwGetVideoModesWith sort true (some monitor) (some count) (some M) =
        { ret := some cache
          monitor := some (refreshVideoModesWith sort monitor (some M)).2
          count := some (M.length : Int)
          error := none } := by
  obtain ⟨hperm, hchain⟩ := hsort compareVideoModes M (compareVideoModes_consistent M hfit)
  refine ⟨rfl, sort compareVideoModes M, rfl, hperm, rfl, ?_, ?_⟩
  · exact chain_adjacent _ _ hchain
  · simp [glfwGetVideoModesWith, refreshVideoModesWith]

/-- C8 (amended), at a concrete input and with `qsort` an insertion sort, as
in the functions `refreshVideoModes` and `glfwGetVideoModes` above: four
modes of two colour depths. -/
theorem refreshVideoModes_sorted_perm_witness :
    QsortContract qsort ∧
    (∀ m ∈ [(⟨800, 600, 8, 8, 8⟩ : GLFWvidmode), ⟨640, 480, 8, 8, 8⟩, ⟨1024, 768, 5, 6, 5⟩,
      ⟨640, 480, 5, 6, 5⟩], FitsInt32 m) ∧
    (refreshVideoModes (exampleMonitor 1 "X")
      (some [⟨800, 600, 8, 8, 8⟩, ⟨640, 480, 8, 8, 8⟩, ⟨1024, 768, 5, 6, 5⟩,
        ⟨640, 480, 5, 6, 5⟩])).1 = true ∧
    ∃ cache,
      (refreshVideoModes (exampleMonitor 1 "X")
        (some [⟨800, 600, 8, 8, 8⟩, ⟨640, 480, 8, 8, 8⟩, ⟨1024, 768, 5, 6, 5⟩,
          ⟨640, 480, 5, 6, 5⟩])).2.modes = some cache ∧
      cache.Perm [⟨800, 600, 8, 8, 8⟩, ⟨640, 480, 8, 8, 8⟩, ⟨1024, 768, 5, 6, 5⟩,
        ⟨640, 480, 5, 6, 5⟩] ∧
      (refreshVideoModes (exampleMonitor 1 "X")
        (some [⟨800, 600, 8, 8, 8⟩, ⟨640, 480, 8, 8, 8⟩, ⟨1024, 768, 5, 6, 5⟩,
          ⟨640, 480, 5, 6, 5⟩])).2.modeCount = 4 ∧
      (∀ (i : Nat) (a b : GLFWvidmode), cache[i]? = some a → cache[i + 1]? = some b →
        compareVideoModes a b ≤ 0) ∧
      glfwGetVideoModes true (some (exampleMonitor 1 "X")) (some 0)
          (some [⟨800, 600, 8, 8, 8⟩, ⟨640, 480, 8, 8, 8⟩, ⟨1024, 768, 5, 6, 5⟩,
            ⟨640, 480, 5, 6, 5⟩]) =
        { ret := some cache
          monitor := some (refreshVideoModes (exampleMonitor 1 "X")
            (some [⟨800, 600, 8, 8, 8⟩, ⟨640, 480, 8, 8, 8⟩, ⟨1024, 768, 5, 6, 5⟩,
              ⟨640, 480, 5, 6, 5⟩])).2
          count := some 4
          error := none } :=
  ⟨qsort_contract, by decide,
    refreshVideoModes_sorted_perm qsort qsort_contract (exampleMonitor 1 "X")
      [⟨800, 600, 8, 8, 8⟩, ⟨640, 480, 8, 8, 8⟩, ⟨1024, 768, 5, 6, 5⟩, ⟨640, 480, 5, 6, 5⟩]
      0 (by decide)⟩

/-- C9: for every monitor and every prior cache content, when mode discovery
fails (`NULL`), `glfwGetVideoModes` and `_glfwChooseVideoMode` return `NULL`
and the monitor, in particular its cached mode list and mode count, is
exactly what it was before the call. -/
theorem discovery_failure_keeps_cache (initialized : Bool) (handle : Option _GLFWmonitor)
    (count : Option Int) (monitor : _GLFWmonitor) (desired : GLFWvidmode) :
    (glfwGetVideoModes initialized handle count none).ret = none ∧
    (glfwGetVideoModes initialized handle count none).monitor = handle ∧
    (glfwGetVideoModes initialized handle count none).count = count ∧
    (_glfwChooseVideoMode monitor none desired).1 = none ∧
    (_glfwChooseVideoMode monitor none desired).2 = monitor ∧
    (_glfwChooseVideoMode monitor none desired).2.modes = monitor.modes ∧
    (_glfwChooseVideoMode monitor none desired).2.modeCount = monitor.modeCount ∧
    refreshVideoModes monitor none = (false, monitor) := by
  refine ⟨?_, ?_, ?_, rfl, rfl, rfl, rfl, rfl⟩ <;>
    cases initialized <;> cases handle <;> cases count <;> rfl

/-- C10: for every monitor and desired mode, `_glfwChooseVideoMode` returns
`NULL` if and only if the mode refresh fails or the refreshed mode list has
zero modes; it returns a mode exactly when the refresh succeeds with a
non-empty list. -/
theorem chooseVideoMode_null_iff (monitor : _GLFWmonitor)
    (platformModes : Option (List GLFWvidmode)) (desired : GLFWvidmode) :
    ((_glfwChooseVideoMode monitor platformModes desired).1 = none ↔
      ((refreshVideoModes monitor platformModes).1 = false ∨
        ((refreshVideoModes monitor platformModes).1 = true ∧
          (refreshVideoModes monitor platformModes).2.modes = some []))) ∧
    ((_glfwChooseVideoMode monitor platformModes desired).1.isSome = true ↔
      ((refreshVideoModes monitor platformModes).1 = true ∧
        (refreshVideoModes monitor platformModes).2.modes ≠ some [])) := by
  cases platformModes with
  | none => simp [_glfwChooseVideoMode, refreshVideoModes]
  | some M =>
    rw [chooseVideoMode_some]
    cases hq : qsort compareVideoModes M with
    | nil => simp [refreshVideoModes, hq, chooseLoop, chooseInit]
    | cons x xs =>
      obtain ⟨k, r, hc, _⟩ := chooseLoop_nonempty desired x xs
      simp [refreshVideoModes, hq, hc]

/-! ## Hotplug reconciliation: the loops -/

theorem live_nil : live [] = [] := rfl

theorem live_cons_none (reg : List (Option _GLFWmonitor)) : live (none :: reg) = live reg := rfl

theorem live_cons_some (m : _GLFWmonitor) (reg : List (Option _GLFWmonitor)) :
    live (some m :: reg) = m :: live reg := rfl

theorem live_map_some (l : List _GLFWmonitor) : live (l.map some) = l := by
  induction l with
  | nil => rfl
  | cons x xs ih => rw [List.map_cons, live_cons_some, ih]

theorem matchMonitor_cons_none (n : String) (rest : List (Option _GLFWmonitor)) :
    matchMonitor n (none :: rest) =
      (matchMonitor n rest).map (fun p => (p.1, none :: p.2)) := by
  rw [matchMonitor]; cases matchMonitor n rest <;> rfl

theorem matchMonitor_cons_eq (n : String) (m : _GLFWmonitor)
    (rest : List (Option _GLFWmonitor)) (h : n = m.name) :
    matchMonitor n (some m :: rest) = some (m, none :: rest) := by
  rw [matchMonitor, if_pos h]

theorem matchMonitor_cons_ne (n : String) (m : _GLFWmonitor)
    (rest : List (Option _GLFWmonitor)) (h : n ≠ m.name) :
    matchMonitor n (some m :: rest) =
      (matchMonitor n rest).map (fun p => (p.1, some m :: p.2)) := by
  rw [matchMonitor, if_neg h]; cases matchMonitor n rest <;> rfl

theorem matchMonitor_none_iff (n : String) (reg : List (Option _GLFWmonitor)) :
    matchMonitor n reg = none ↔ ∀ m ∈ live reg, m.name ≠ n := by
  induction reg with
  | nil => simp [matchMonitor, live]
  | cons x xs ih =>
    cases x with
    | none =>
      rw [live_cons_none, ← ih, matchMonitor_cons_none, Option.map_eq_none']
    | some m =>
      rw [live_cons_some]
      by_cases hn : n = m.name
      · rw [matchMonitor_cons_eq n m xs hn]
        simp [hn]
      · rw [matchMonitor_cons_ne n m xs hn, Option.map_eq_none', ih]
        simp only [List.mem_cons, forall_eq_or_imp]
        exact ⟨fun h => ⟨fun h' => hn h'.symm, h⟩, fun h => h.2⟩

theorem matchMonitor_some (n : String) (reg : List (Option _GLFWmonitor)) :
    ∀ (r : _GLFWmonitor) (reg' : List (Option _GLFWmonitor)),
      matchMonitor n reg = some (r, reg') →
      ∃ pre post, live reg = pre ++ r :: post ∧ live reg' = pre ++ post ∧
        (∀ m ∈ pre, m.name ≠ n) ∧ r.name = n := by
  induction reg with
  | nil => intro r reg' h; simp [matchMonitor] at h
  | cons x xs ih =>
    intro r reg' h
    cases x with
    | none =>
      rw [matchMonitor_cons_none, Option.map_eq_some'] at h
      obtain ⟨⟨r0, rest0⟩, hx, h⟩ := h
      simp only [Prod.mk.injEq] at h
      obtain ⟨h1, h2⟩ := h
      subst h1; subst h2
      obtain ⟨pre, post, e1, e2, e3, e4⟩ := ih r0 rest0 hx
      exact ⟨pre, post, by rw [live_cons_none, e1], by rw [live_cons_none, e2], e3, e4⟩
    | some m =>
      by_cases hn : n = m.name
      · rw [matchMonitor_cons_eq n m xs hn] at h
        simp only [Option.some.injEq, Prod.mk.injEq] at h
        obtain ⟨h1, h2⟩ := h
        subst h1; subst h2
        exact ⟨[], live xs, by rw [live_cons_some]; rfl, by rw [live_cons_none]; rfl,
          by simp, hn.symm⟩
      · rw [matchMonitor_cons_ne n m xs hn, Option.map_eq_some'] at h
        obtain ⟨⟨r0, rest0⟩, hx, h⟩ := h
        simp only [Prod.mk.injEq] at h
        obtain ⟨h1, h2⟩ := h
        subst h1; subst h2
        obtain ⟨pre, post, e1, e2, e3, e4⟩ := ih r0 rest0 hx
        refine ⟨m :: pre, post, by rw [live_cons_some, e1]; rfl,
          by rw [live_cons_some, e2]; rfl, ?_, e4⟩
        intro m' hm'
        rcases List.mem_cons.mp hm' with h' | h'
        · subst h'; exact fun h => hn h.symm
        · exact e3 m' h'

theorem connectLoop_cons_matched (cb : Option Nat) (f : _GLFWmonitor)
    (rest : List _GLFWmonitor) (st : ChangeState) (r : _GLFWmonitor)
    (reg' : List (Option _GLFWmonitor)) (h : matchMonitor f.name st.registry = some (r, reg')) :
    connectLoop cb (f :: rest) st =
      (connectLoop cb rest
        { st with registry := reg', destroyed := _glfwDestroyMonitor (some f) st.destroyed }).map
        (fun p => (r :: p.1, p.2)) := by
  rw [connectLoop, h]
  simp only
  cases connectLoop cb rest
    { st with registry := reg', destroyed := _glfwDestroyMonitor (some f) st.destroyed } <;> rfl

theorem connectLoop_cons_unmatched (c : Nat) (f : _GLFWmonitor)
    (rest : List _GLFWmonitor) (st : ChangeState) (h : matchMonitor f.name st.registry = none) :
    connectLoop (some c) (f :: rest) st =
      (connectLoop (some c) rest
        { st with events := st.events ++ [(f.addr, MonitorEvent.GLFW_CONNECTED)] }).map
        (fun p => (f :: p.1, p.2)) := by
  rw [connectLoop, h]
  simp only [callMonitorCallback]
  cases connectLoop (some c) rest
    { st with events := st.events ++ [(f.addr, MonitorEvent.GLFW_CONNECTED)] } <;> rfl

/-- What the first loop does when a callback is registered. -/
theorem connectLoop_spec (c : Nat) (F : List _GLFWmonitor) :
    ∀ st : ChangeState, ∃ (ms : List _GLFWmonitor) (st' : ChangeState) (U : List _GLFWmonitor),
      connectLoop (some c) F st = some (ms, st') ∧
      ms.length = F.length ∧
      st'.windows = st.windows ∧
      (live st'.registry).Sublist (live st.registry) ∧
      (∀ r ∈ live st.registry, (∀ f ∈ F, f.name ≠ r.name) → r ∈ live st'.registry) ∧
      U.Sublist F ∧
      st'.events = st.events ++ U.map (fun f => (f.addr, MonitorEvent.GLFW_CONNECTED)) ∧
      (∀ f ∈ U, ∃ k : Nat, F[k]? = some f ∧ ms[k]? = some f) ∧
      (∀ m ∈ ms, m ∈ F ∨ (m ∈ live st.registry ∧ ∃ f ∈ F, f.name = m.name)) := by
  induction F with
  | nil =>
    intro st
    exact ⟨[], st, [], rfl, rfl, rfl, List.Sublist.refl _, fun r hr _ => hr,
      List.Sublist.refl _, by simp, by simp, by simp⟩
  | cons f rest ih =>
    intro st
    cases hm : matchMonitor f.name st.registry with
    | none =>
      obtain ⟨ms, st', U, hrun, hlen, hwin, hsub, hkeep, hU, hev, hUk, hmem⟩ :=
        ih { st with events := st.events ++ [(f.addr, MonitorEvent.GLFW_CONNECTED)] }
      refine ⟨f :: ms, st', f :: U, ?_, ?_, hwin, hsub, ?_, hU.cons₂ f, ?_, ?_, ?_⟩
      · rw [connectLoop_cons_unmatched c f rest st hm, hrun]; rfl
      · simp [hlen]
      · intro r hr hne
        exact hkeep r hr (fun f' hf' => hne f' (List.mem_cons_of_mem _ hf'))
      · rw [hev]; simp
      · intro f' hf'
        rcases List.mem_cons.mp hf' with h | h
        · subst h; exact ⟨0, List.getElem?_cons_zero, List.getElem?_cons_zero⟩
        · obtain ⟨k, h1, h2⟩ := hUk f' h
          exact ⟨k + 1, by rw [List.getElem?_cons_succ]; exact h1,
            by rw [List.getElem?_cons_succ]; exact h2⟩
      · intro m hm'
        rcases List.mem_cons.mp hm' with h | h
        · subst h; exact Or.inl (List.mem_cons_self _ _)
        · rcases hmem m h with h' | h'
          · exact Or.inl (List.mem_cons_of_mem _ h')
          · obtain ⟨h1, f', hf', hn⟩ := h'
            exact Or.inr ⟨h1, f', List.mem_cons_of_mem _ hf', hn⟩
    | some p =>
      obtain ⟨r, reg'⟩ := p
      obtain ⟨pre, post, e1, e2, e3, e4⟩ := matchMonitor_some f.name st.registry r reg' hm
      obtain ⟨ms, st', U, hrun, hlen, hwin, hsub, hkeep, hU, hev, hUk, hmem⟩ :=
        ih { st with registry := reg', destroyed := _glfwDestroyMonitor (some f) st.destroyed }
      simp only at hsub hkeep hev hmem hwin
      have hsub1 : (live reg').Sublist (live st.registry) := by
        rw [e1, e2]
        exact List.Sublist.append_left (List.sublist_cons_self r post) pre
      refine ⟨r :: ms, st', U, ?_, ?_, hwin, hsub.trans hsub1, ?_, hU.cons f, hev, ?_, ?_⟩
      · rw [connectLoop_cons_matched (some c) f rest st r reg' hm, hrun]; rfl
      · simp [hlen]
      · intro r0 hr0 hne
        apply hkeep r0 _ (fun f' hf' => hne f' (List.mem_cons_of_mem _ hf'))
        have hfr : f.name ≠ r0.name := hne f (List.mem_cons_self _ _)
        rw [e1] at hr0
        rw [e2]
        rcases List.mem_append.mp hr0 with h | h
        · exact List.mem_append_left _ h
        · rcases List.mem_cons.mp h with h | h
          · subst h; exact absurd e4.symm hfr
          · exact List.mem_append_right _ h
      · intro f' hf'
        obtain ⟨k, h1, h2⟩ := hUk f' hf'
        exact ⟨k + 1, by rw [List.getElem?_cons_succ]; exact h1,
            by rw [List.getElem?_cons_succ]; exact h2⟩
      · intro m hm'
        rcases List.mem_cons.mp hm' with h | h
        · subst h
          refine Or.inr ⟨?_, f, List.mem_cons_self _ _, e4.symm⟩
          rw [e1]; simp
        · rcases hmem m h with h' | h'
          · exact Or.inl (List.mem_cons_of_mem _ h')
          · obtain ⟨h1, f', hf', hn⟩ := h'
            exact Or.inr ⟨hsub1.subset h1, f', List.mem_cons_of_mem _ hf', hn⟩

theorem connectLoop_append (c : Nat) (F1 F2 : List _GLFWmonitor) :
    ∀ (st : ChangeState) (ms1 ms2 : List _GLFWmonitor) (st1 st2 : ChangeState),
      connectLoop (some c) F1 st = some (ms1, st1) →
      connectLoop (some c) F2 st1 = some (ms2, st2) →
      connectLoop (some c) (F1 ++ F2) st = some (ms1 ++ ms2, st2) := by
  induction F1 with
  | nil =>
    intro st ms1 ms2 st1 st2 h1 h2
    rw [connectLoop] at h1
    simp only [Option.some.injEq, Prod.mk.injEq] at h1
    obtain ⟨e1, e2⟩ := h1
    subst e1; subst e2
    exact h2
  | cons f rest ih =>
    intro st ms1 ms2 st1 st2 h1 h2
    rw [List.cons_append]
    cases hm : matchMonitor f.name st.registry with
    | none =>
      rw [connectLoop_cons_unmatched c f rest st hm, Option.map_eq_some'] at h1
      obtain ⟨⟨ms, s⟩, hr, he⟩ := h1
      simp only [Prod.mk.injEq] at he
      obtain ⟨e1, e2⟩ := he
      subst e1; subst e2
      rw [connectLoop_cons_unmatched c f (rest ++ F2) st hm, ih _ ms ms2 s st2 hr h2]
      rfl
    | some p =>
      obtain ⟨r, reg'⟩ := p
      rw [connectLoop_cons_matched (some c) f rest st r reg' hm, Option.map_eq_some'] at h1
      obtain ⟨⟨ms, s⟩, hr, he⟩ := h1
      simp only [Prod.mk.injEq] at he
      obtain ⟨e1, e2⟩ := he
      subst e1; subst e2
      rw [connectLoop_cons_matched (some c) f (rest ++ F2) st r reg' hm,
        ih _ ms ms2 s st2 hr h2]
      rfl

theorem disconnectLoop_spec (c : Nat) (reg : List (Option _GLFWmonitor)) :
    ∀ st : ChangeState, disconnectLoop (some c) reg st =
      some { st with
        windows := (live reg).foldl (fun w r => clearWindows r w) st.windows
        events := st.events ++
          (live reg).map (fun r => (r.addr, MonitorEvent.GLFW_DISCONNECTED)) } := by
  induction reg with
  | nil => intro st; simp [disconnectLoop, live]
  | cons x xs ih =>
    intro st
    cases x with
    | none => rw [disconnectLoop, ih, live_cons_none]
    | some r =>
      rw [disconnectLoop]
      simp only [callMonitorCallback]
      rw [ih, live_cons_some]
      simp

theorem clearWindows_foldl (L : List _GLFWmonitor) :
    ∀ ws : List _GLFWwindow, L.foldl (fun w r => clearWindows r w) ws =
      ws.map (fun w =>
        if w.monitor ∈ L.map (fun r => some r.addr) then { w with monitor := none } else w) := by
  induction L with
  | nil => intro ws; simp
  | cons r L ih =>
    intro ws
    rw [List.foldl_cons, ih, clearWindows, List.map_map]
    apply List.map_congr_left
    intro w _
    simp only [Function.comp, List.map_cons, List.mem_cons]
    by_cases h1 : w.monitor = some r.addr
    · simp [h1]
    · simp [h1]

theorem live_changeStart (lib : _GLFWlibrary)
    (hcount : lib.monitorCount = (lib.monitors.length : Int)) :
    live (changeStart lib).registry = lib.monitors := by
  unfold changeStart
  simp only
  rw [hcount, Int.toNat_ofNat, List.take_length, live_map_some]

/-- What a call of `_glfwInputMonitorChange` does when a callback is
registered and the monitor count is the length of the monitor array. -/
theorem inputMonitorChange_spec (lib : _GLFWlibrary) (fresh : List _GLFWmonitor) (c : Nat)
    (hcb : lib.monitorCallback = some c)
    (hcount : lib.monitorCount = (lib.monitors.length : Int)) :
    ∃ (ms : List _GLFWmonitor) (st1 : ChangeState) (U : List _GLFWmonitor)
      (res : MonitorChange),
      connectLoop (some c) fresh (changeStart lib) = some (ms, st1) ∧
      _glfwInputMonitorChange lib fresh = some res ∧
      res.lib.monitors = ms ∧
      st1.events = U.map (fun f => (f.addr, MonitorEvent.GLFW_CONNECTED)) ∧
      res.events = U.map (fun f => (f.addr, MonitorEvent.GLFW_CONNECTED)) ++
        (live st1.registry).map (fun r => (r.addr, MonitorEvent.GLFW_DISCONNECTED)) ∧
      res.lib.windowListHead = lib.windowListHead.map (fun w =>
        if w.monitor ∈ (live st1.registry).map (fun r => some r.addr)
        then { w with monitor := none } else w) ∧
      ms.length = fresh.length ∧
      (live st1.registry).Sublist lib.monitors ∧
      (∀ r ∈ lib.monitors, (∀ f ∈ fresh, f.name ≠ r.name) → r ∈ live st1.registry) ∧
      U.Sublist fresh ∧
      (∀ f ∈ U, ∃ k : Nat, fresh[k]? = some f ∧ ms[k]? = some f) ∧
      (∀ m ∈ ms, m ∈ fresh ∨ (m ∈ lib.monitors ∧ ∃ f ∈ fresh, f.name = m.name)) := by
  obtain ⟨ms, st1, U, hrun, hlen, hwin, hsub, hkeep, hU, hev, hUk, hmem⟩ :=
    connectLoop_spec c fresh (changeStart lib)
  rw [live_changeStart lib hcount] at hsub hkeep hmem
  have hev' : st1.events = U.map (fun f => (f.addr, MonitorEvent.GLFW_CONNECTED)) := by
    rw [hev]; rfl
  have hwin' : st1.windows = lib.windowListHead := by rw [hwin]; rfl
  refine ⟨ms, st1, U,
    { lib := { lib with
                 windowListHead := (live st1.registry).foldl (fun w r => clearWindows r w)
                   st1.windows
                 monitors := ms
                 monitorCount := (fresh.length : Int) }
      events := st1.events ++
        (live st1.registry).map (fun r => (r.addr, MonitorEvent.GLFW_DISCONNECTED))
      destroyed := _glfwDestroyMonitors st1.registry st1.destroyed },
    hrun, ?_, rfl, hev', ?_, ?_, hlen, hsub, hkeep, hU, hUk, hmem⟩
  · unfold _glfwInputMonitorChange
    rw [hcb, hrun]
    simp only
    rw [disconnectLoop_spec]
  · simp only [hev']
  · simp only [hwin', clearWindows_foldl]

/-- The first loop up to and from index `i`. -/
theorem connectLoop_at (c : Nat) (fresh : List _GLFWmonitor) (st : ChangeState) (i : Nat)
    (f : _GLFWmonitor) (hf : fresh[i]? = some f) :
    ∃ (ms1 : List _GLFWmonitor) (s1 : ChangeState) (ms2 : List _GLFWmonitor)
      (s2 : ChangeState),
      connectLoop (some c) (fresh.take i) st = some (ms1, s1) ∧
      ms1.length = i ∧
      connectLoop (some c) (f :: fresh.drop (i + 1)) s1 = some (ms2, s2) ∧
      connectLoop (some c) fresh st = some (ms1 ++ ms2, s2) ∧
      (live s1.registry).Sublist (live st.registry) ∧
      (∀ r ∈ live st.registry, (∀ f' ∈ fresh.take i, f'.name ≠ r.name) →
        r ∈ live s1.registry) := by
  obtain ⟨hi, hfi⟩ := List.getElem?_eq_some_iff.mp hf
  obtain ⟨ms1, s1, U1, hrun1, hlen1, _, hsub1, hkeep1, _⟩ :=
    connectLoop_spec c (fresh.take i) st
  obtain ⟨ms2, s2, U2, hrun2, _⟩ := connectLoop_spec c (f :: fresh.drop (i + 1)) s1
  have hsplit : fresh = fresh.take i ++ f :: fresh.drop (i + 1) := by
    rw [← hfi, ← List.drop_eq_getElem_cons hi, List.take_append_drop]
  refine ⟨ms1, s1, ms2, s2, hrun1, ?_, hrun2, ?_, hsub1, hkeep1⟩
  · rw [hlen1, List.length_take]; omega
  · have := connectLoop_append c _ _ st ms1 ms2 s1 s2 hrun1 hrun2
    rw [← hsplit] at this
    exact this

/-- Monitor objects with pairwise different addresses: the parts of the
statement for the old array, for the fresh array and between the two. -/
theorem addr_nodup_split (R F : List _GLFWmonitor)
    (h : ((R ++ F).map (fun m => m.addr)).Nodup) :
    (R.map (fun m => m.addr)).Nodup ∧ (F.map (fun m => m.addr)).Nodup ∧
    ∀ r ∈ R, ∀ f ∈ F, r.addr ≠ f.addr := by
  rw [List.map_append, List.nodup_append] at h
  obtain ⟨h1, h2, h3⟩ := h
  refine ⟨h1, h2, ?_⟩
  intro r hr f hf heq
  exact h3 (List.mem_map_of_mem _ hr) (heq ▸ List.mem_map_of_mem _ hf)

/-- In a list without two entries of the same key, entries with equal keys
sit at the same index. -/
theorem index_unique_of_nodup_map {β : Type} (g : _GLFWmonitor → β) (l : List _GLFWmonitor)
    (h : (l.map g).Nodup) (k i : Nat) (a b : _GLFWmonitor)
    (hk : l[k]? = some a) (hi : l[i]? = some b) (hg : g a = g b) : k = i := by
  obtain ⟨hk1, hk2⟩ := List.getElem?_eq_some_iff.mp hk
  obtain ⟨hi1, hi2⟩ := List.getElem?_eq_some_iff.mp hi
  have hk' : k < (l.map g).length := by rw [List.length_map]; exact hk1
  have hi' : i < (l.map g).length := by rw [List.length_map]; exact hi1
  apply (@List.Nodup.getElem_inj_iff _ _ h k hk' i hi').mp
  rw [List.getElem_map, List.getElem_map, hk2, hi2]
  exact hg

theorem timesNotified_append (l1 l2 : List (Nat × MonitorEvent)) (a : Nat)
    (ev : MonitorEvent) :
    timesNotified (l1 ++ l2) a ev = timesNotified l1 a ev + timesNotified l2 a ev := by
  unfold timesNotified
  rw [List.filter_append, List.length_append]

theorem timesNotified_eq_zero (l : List (Nat × MonitorEvent)) (a : Nat) (ev : MonitorEvent)
    (h : (a, ev) ∉ l) : timesNotified l a ev = 0 := by
  unfold timesNotified
  rw [List.length_eq_zero, List.filter_eq_nil_iff]
  intro e he hd
  have : e = (a, ev) := of_decide_eq_true hd
  exact h (this ▸ he)

theorem timesNotified_eq_one (l : List (Nat × MonitorEvent)) (a : Nat) (ev : MonitorEvent)
    (hnd : l.Nodup) (h : (a, ev) ∈ l) : timesNotified l a ev = 1 := by
  induction l with
  | nil => simp at h
  | cons x xs ih =>
    obtain ⟨hx, hxs⟩ := List.nodup_cons.mp hnd
    have happ : x :: xs = [x] ++ xs := rfl
    rw [happ, timesNotified_append]
    by_cases hxa : x = (a, ev)
    · subst hxa
      rw [timesNotified_eq_zero xs _ _ hx]
      simp [timesNotified]
    · have hmem : (a, ev) ∈ xs := by
        rcases List.mem_cons.mp h with h' | h'
        · exact absurd h'.symm hxa
        · exact h'
      rw [ih hxs hmem]
      simp [timesNotified, hxa]

theorem registryAt_eq (lib : _GLFWlibrary) (fresh : List _GLFWmonitor) (i c : Nat)
    (hcb : lib.monitorCallback = some c) (ms1 : List _GLFWmonitor) (s1 : ChangeState)
    (h : connectLoop (some c) (fresh.take i) (changeStart lib) = some (ms1, s1)) :
    registryAt lib fresh i = s1.registry := by
  unfold registryAt
  rw [hcb, h]

/-- A fresh monitor that finds no old monitor of its name stays in its slot
and is announced as connected. -/
theorem connectLoop_unmatched_at (c : Nat) (fresh : List _GLFWmonitor) (st : ChangeState)
    (i : Nat) (f : _GLFWmonitor) (hf : fresh[i]? = some f)
    (hno : ∀ ms1 s1, connectLoop (some c) (fresh.take i) st = some (ms1, s1) →
      matchMonitor f.name s1.registry = none)
    (ms : List _GLFWmonitor) (st' : ChangeState)
    (hrun : connectLoop (some c) fresh st = some (ms, st')) :
    ms[i]? = some f ∧ (f.addr, MonitorEvent.GLFW_CONNECTED) ∈ st'.events := by
  obtain ⟨ms1, s1, ms2, s2, hrun1, hlen1, hrun2, hrunall, _, _⟩ :=
    connectLoop_at c fresh st i f hf
  have hnone := hno ms1 s1 hrun1
  rw [connectLoop_cons_unmatched c f _ s1 hnone] at hrun2
  obtain ⟨ms3, s3, U3, hrun3, _, _, _, _, _, hev3, _, _⟩ := connectLoop_spec c
    (fresh.drop (i + 1))
    { s1 with events := s1.events ++ [(f.addr, MonitorEvent.GLFW_CONNECTED)] }
  rw [hrun3] at hrun2
  simp only [Option.map_some', Option.some.injEq, Prod.mk.injEq] at hrun2
  obtain ⟨hms2, hs2⟩ := hrun2
  rw [hrun] at hrunall
  simp only [Option.some.injEq, Prod.mk.injEq] at hrunall
  obtain ⟨hms, hst⟩ := hrunall
  constructor
  · rw [hms, ← hms2, List.getElem?_append_right (by omega), hlen1, Nat.sub_self,
      List.getElem?_cons_zero]
  · rw [hst, ← hs2, hev3]
    simp

/-- A fresh monitor whose name is that of an old monitor, with names unique
among the old and among the fresh monitors, gets the old object in its slot,
and the old object leaves the old array. -/
theorem connectLoop_matched_at (c : Nat) (fresh : List _GLFWmonitor) (st : ChangeState)
    (i : Nat) (f r : _GLFWmonitor) (hf : fresh[i]? = some f)
    (hFnames : (fresh.map (fun m => m.name)).Nodup)
    (hRnames : ((live st.registry).map (fun m => m.name)).Nodup)
    (hRaddr : ((live st.registry).map (fun m => m.addr)).Nodup)
    (hr : r ∈ live st.registry) (hname : f.name = r.name)
    (ms : List _GLFWmonitor) (st' : ChangeState)
    (hrun : connectLoop (some c) fresh st = some (ms, st')) :
    ms[i]? = some r ∧ r.addr ∉ (live st'.registry).map (fun m => m.addr) := by
  obtain ⟨ms1, s1, ms2, s2, hrun1, hlen1, hrun2, hrunall, hsub1, hkeep1⟩ :=
    connectLoop_at c fresh st i f hf
  have hrs1 : r ∈ live s1.registry := by
    apply hkeep1 r hr
    intro f' hf' hn
    obtain ⟨k, hk⟩ := List.mem_iff_getElem?.mp hf'
    rw [List.getElem?_take] at hk
    split_ifs at hk with hki
    have := index_unique_of_nodup_map (fun m => m.name) fresh hFnames k i f' f hk hf
      (hn.trans hname.symm)
    omega
  cases hm : matchMonitor f.name s1.registry with
  | none => exact absurd hname.symm ((matchMonitor_none_iff _ _).mp hm r hrs1)
  | some p =>
    obtain ⟨r', reg'⟩ := p
    obtain ⟨pre, post, e1, e2, _, e4⟩ := matchMonitor_some f.name s1.registry r' reg' hm
    have hr's1 : r' ∈ live s1.registry := by rw [e1]; simp
    have hrr : r' = r :=
      List.inj_on_of_nodup_map (List.Nodup.sublist (hsub1.map _) hRnames) hr's1 hrs1
        (e4.trans hname)
    subst hrr
    rw [connectLoop_cons_matched (some c) f _ s1 r' reg' hm] at hrun2
    obtain ⟨ms3, s3, U3, hrun3, _, _, hsub3, _⟩ := connectLoop_spec c
      (fresh.drop (i + 1))
      { s1 with registry := reg', destroyed := _glfwDestroyMonitor (some f) s1.destroyed }
    simp only at hsub3
    rw [hrun3] at hrun2
    simp only [Option.map_some', Option.some.injEq, Prod.mk.injEq] at hrun2
    obtain ⟨hms2, hs2⟩ := hrun2
    rw [hrun] at hrunall
    simp only [Option.some.injEq, Prod.mk.injEq] at hrunall
    obtain ⟨hms, hst⟩ := hrunall
    constructor
    · rw [hms, ← hms2, List.getElem?_append_right (by omega), hlen1, Nat.sub_self,
        List.getElem?_cons_zero]
    · have hnd : ((live s1.registry).map (fun m => m.addr)).Nodup :=
        List.Nodup.sublist (hsub1.map _) hRaddr
      rw [e1, List.map_append, List.map_cons, List.nodup_middle, List.nodup_cons,
        ← List.map_append, ← e2] at hnd
      intro h
      rw [hst, ← hs2] at h
      exact hnd.1 ((hsub3.map _).subset h)

/-! ## Claims on hotplug reconciliation -/

/-- C2 fails on the code: with the monitor callback unset, the registry
`[X, Z]` and the fresh list `[X', Y]` (names unique within each), index 0 of
the fresh list has the name of the old monitor "X", but for the newly
connected "Y" the code calls `_glfw.monitorCallback` through the `NULL`
pointer: the first loop, and with it `_glfwInputMonitorChange`, does not
complete, and the new array with the old "X" in slot 0 never becomes the
registry. With a callback registered the same call leaves the old "X" in slot
0 and notifies of "Y" and "Z" only. -/
theorem inputMonitorChange_reuse_unset_callback :
    exampleLibNoCallback.monitorCallback = none ∧
    exampleLibNoCallback.monitorCount = (exampleLibNoCallback.monitors.length : Int) ∧
    ((exampleLibNoCallback.monitors ++ [exampleMonitor 10 "X", exampleMonitor 11 "Y"]).map
      (fun m => m.addr)).Nodup ∧
    (exampleLibNoCallback.monitors.map (fun m => m.name)).Nodup ∧
    ([exampleMonitor 10 "X", exampleMonitor 11 "Y"].map (fun m => m.name)).Nodup ∧
    [exampleMonitor 10 "X", exampleMonitor 11 "Y"][0]? = some (exampleMonitor 10 "X") ∧
    exampleMonitor 1 "X" ∈ exampleLibNoCallback.monitors ∧
    (exampleMonitor 10 "X").name = (exampleMonitor 1 "X").name ∧
    connectLoop none [exampleMonitor 10 "X", exampleMonitor 11 "Y"]
      (changeStart exampleLibNoCallback) = none ∧
    _glfwInputMonitorChange exampleLibNoCallback
      [exampleMonitor 10 "X", exampleMonitor 11 "Y"] = none ∧
    (_glfwInputMonitorChange exampleLib [exampleMonitor 10 "X", exampleMonitor 11 "Y"]).map
        (fun res => (res.lib.monitors[0]?, res.events)) =
      some (some (exampleMonitor 1 "X"),
        [(11, MonitorEvent.GLFW_CONNECTED), (2, MonitorEvent.GLFW_DISCONNECTED)]) := by
  decide

/-- Reuse when a monitor callback is registered (and the registry is
well formed: its count is the length of its array, and the old and fresh
monitor objects have pairwise different addresses): for every registry and
fresh list with names unique within each and every index `i` of the fresh list
whose name equals the name of an entry `r` of the registry,
`_glfwInputMonitorChange` completes, afterwards slot `i` of the registry holds
the old object `r` itself, whose address is not that of the fresh object, and
no notification of either kind is emitted for `r` or for the fresh object. -/
theorem inputMonitorChange_reuse (lib : _GLFWlibrary) (fresh : List _GLFWmonitor)
    (cb : Nat) (i : Nat) (f r : _GLFWmonitor)
    (hcb : lib.monitorCallback = some cb)
    (hcount : lib.monitorCount = (lib.monitors.length : Int))
    (haddr : ((lib.monitors ++ fresh).map (fun m => m.addr)).Nodup)
    (hRnames : (lib.monitors.map (fun m => m.name)).Nodup)
    (hFnames : (fresh.map (fun m => m.name)).Nodup)
    (hf : fresh[i]? = some f) (hr : r ∈ lib.monitors) (hname : f.name = r.name) :
    ∃ res, _glfwInputMonitorChange lib fresh = some res ∧
      res.lib.monitors[i]? = some r ∧ r.addr ≠ f.addr ∧
      ∀ ev : MonitorEvent, (r.addr, ev) ∉ res.events ∧ (f.addr, ev) ∉ res.events := by
  obtain ⟨ms, st1, U, res, hrun, hres, hmon, hev1, hev, hwin, hlen, hsub, hkeep, hU, hUk,
    hmem⟩ :=
    inputMonitorChange_spec lib fresh cb hcb hcount
  obtain ⟨hRa, hFa, hdisj⟩ := addr_nodup_split _ _ haddr
  have hfm : f ∈ fresh := List.getElem?_mem hf
  have hlive := live_changeStart lib hcount
  obtain ⟨hslot, hgone⟩ := connectLoop_matched_at cb fresh (changeStart lib) i f r hf hFnames
    (by rw [hlive]; exact hRnames) (by rw [hlive]; exact hRa) (by rw [hlive]; exact hr)
    hname ms st1 hrun
  refine ⟨res, hres, by rw [hmon]; exact hslot, hdisj r hr f hfm, ?_⟩
  intro ev
  rw [hev]
  constructor
  · rw [List.mem_append]
    rintro (h | h)
    · obtain ⟨f', hf', hfe⟩ := List.mem_map.mp h
      simp only [Prod.mk.injEq] at hfe
      exact hdisj r hr f' (hU.subset hf') hfe.1.symm
    · obtain ⟨m, hm, hme⟩ := List.mem_map.mp h
      simp only [Prod.mk.injEq] at hme
      exact hgone (List.mem_map.mpr ⟨m, hm, hme.1⟩)
  · rw [List.mem_append]
    rintro (h | h)
    · obtain ⟨f', hf', hfe⟩ := List.mem_map.mp h
      simp only [Prod.mk.injEq] at hfe
      have hff : f' = f := List.inj_on_of_nodup_map hFa (hU.subset hf') hfm hfe.1
      subst hff
      obtain ⟨k, hk1, hk2⟩ := hUk f' hf'
      have hki : k = i := index_unique_of_nodup_map (fun m => m.addr) fresh hFa k i f' f'
        hk1 hf rfl
      subst hki
      rw [hslot] at hk2
      simp only [Option.some.injEq] at hk2
      subst hk2
      exact hdisj r hr r hfm rfl
    · obtain ⟨m, hm, hme⟩ := List.mem_map.mp h
      simp only [Prod.mk.injEq] at hme
      exact hdisj m (hsub.subset hm) f hfm hme.1

/-- Reuse at a concrete input: the registry `[X, Z]` with a registered
callback and the fresh list `[X', Y]`; slot 0 keeps the old "X". -/
theorem inputMonitorChange_reuse_witness :
    exampleLib.monitorCallback = some 7 ∧
    exampleLib.monitorCount = (exampleLib.monitors.length : Int) ∧
    ((exampleLib.monitors ++ [exampleMonitor 10 "X", exampleMonitor 11 "Y"]).map
      (fun m => m.addr)).Nodup ∧
    (exampleLib.monitors.map (fun m => m.name)).Nodup ∧
    ([exampleMonitor 10 "X", exampleMonitor 11 "Y"].map (fun m => m.name)).Nodup ∧
    ∃ res, _glfwInputMonitorChange exampleLib [exampleMonitor 10 "X", exampleMonitor 11 "Y"]
        = some res ∧
      res.lib.monitors[0]? = some (exampleMonitor 1 "X") ∧
      (exampleMonitor 1 "X").addr ≠ (exampleMonitor 10 "X").addr ∧
      ∀ ev : MonitorEvent, ((exampleMonitor 1 "X").addr, ev) ∉ res.events ∧
        ((exampleMonitor 10 "X").addr, ev) ∉ res.events :=
  ⟨by decide, by decide, by decide, by decide, by decide,
    inputMonitorChange_reuse exampleLib [exampleMonitor 10 "X", exampleMonitor 11 "Y"] 7 0
      (exampleMonitor 10 "X") (exampleMonitor 1 "X")
      (by decide) (by decide) (by decide) (by decide) (by decide) (by decide) (by decide)
      (by decide)⟩

/-- C3 (as stated) fails: with the monitor callback unset, the registry
`[X, Z]` and the fresh list `[X']`, the old monitor "Z" matches no fresh
monitor, and the call `_glfw.monitorCallback(Z, GLFW_DISCONNECTED)` goes
through a `NULL` pointer: `_glfwInputMonitorChange` does not complete, no
notification is emitted and the registry is not replaced. -/
theorem inputMonitorChange_disconnect_counterexample :
    exampleLibNoCallback.monitorCount = (exampleLibNoCallback.monitors.length : Int) ∧
    ((exampleLibNoCallback.monitors ++ [exampleMonitor 10 "X"]).map
      (fun m => m.addr)).Nodup ∧
    exampleMonitor 2 "Z" ∈ exampleLibNoCallback.monitors ∧
    (∀ f ∈ [exampleMonitor 10 "X"], f.name ≠ (exampleMonitor 2 "Z").name) ∧
    _glfwInputMonitorChange exampleLibNoCallback [exampleMonitor 10 "X"] = none := by
  decide

/-- C3 (amended): when a monitor callback is registered (and the registry is
well formed: its count is the length of its array, and the old and fresh
monitor objects have pairwise different addresses), for every registry, fresh
list and window list and every entry `r` of the registry whose name matches no
fresh monitor, `_glfwInputMonitorChange` completes, afterwards `r` is not in
the registry, exactly one disconnected notification and no connected one was
emitted for `r`, and every window whose monitor reference was `r` has its
monitor reference set to none. -/
theorem inputMonitorChange_disconnect (lib : _GLFWlibrary) (fresh : List _GLFWmonitor)
    (cb : Nat) (r : _GLFWmonitor)
    (hcb : lib.monitorCallback = some cb)
    (hcount : lib.monitorCount = (lib.monitors.length : Int))
    (haddr : ((lib.monitors ++ fresh).map (fun m => m.addr)).Nodup)
    (hr : r ∈ lib.monitors) (hno : ∀ f ∈ fresh, f.name ≠ r.name) :
    ∃ res, _glfwInputMonitorChange lib fresh = some res ∧
      r.addr ∉ res.lib.monitors.map (fun m => m.addr) ∧
      timesNotified res.events r.addr MonitorEvent.GLFW_DISCONNECTED = 1 ∧
      timesNotified res.events r.addr MonitorEvent.GLFW_CONNECTED = 0 ∧
      res.lib.windowListHead.length = lib.windowListHead.length ∧
      ∀ (k : Nat) (w : _GLFWwindow), lib.windowListHead[k]? = some w →
        w.monitor = some r.addr →
        ∃ w', res.lib.windowListHead[k]? = some w' ∧ w'.monitor = none := by
  obtain ⟨ms, st1, U, res, hrun, hres, hmon, hev1, hev, hwin, hlen, hsub, hkeep, hU, hUk,
    hmem⟩ :=
    inputMonitorChange_spec lib fresh cb hcb hcount
  obtain ⟨hRa, hFa, hdisj⟩ := addr_nodup_split _ _ haddr
  have hrlive : r ∈ live st1.registry := hkeep r hr hno
  refine ⟨res, hres, ?_, ?_, ?_, ?_, ?_⟩
  · rw [hmon]
    intro h
    obtain ⟨m, hm, hma⟩ := List.mem_map.mp h
    rcases hmem m hm with h' | ⟨h1, f, hf, hfn⟩
    · exact hdisj r hr m h' hma.symm
    · have : m = r := List.inj_on_of_nodup_map hRa h1 hr hma
      subst this
      exact hno f hf hfn
  · rw [hev, timesNotified_append]
    have h0 : timesNotified (U.map (fun f => (f.addr, MonitorEvent.GLFW_CONNECTED)))
        r.addr MonitorEvent.GLFW_DISCONNECTED = 0 := by
      apply timesNotified_eq_zero
      intro h
      obtain ⟨f, _, hfe⟩ := List.mem_map.mp h
      simp at hfe
    have hnd : ((live st1.registry).map
        (fun r => (r.addr, MonitorEvent.GLFW_DISCONNECTED))).Nodup := by
      have h1 : ((live st1.registry).map (fun m => m.addr)).Nodup :=
        List.Nodup.sublist (hsub.map _) hRa
      have h2 := List.Nodup.map (f := fun a : Nat => (a, MonitorEvent.GLFW_DISCONNECTED))
        (fun a b hab => by simpa using hab) h1
      rw [List.map_map] at h2
      exact h2
    rw [h0, timesNotified_eq_one _ _ _ hnd (List.mem_map_of_mem _ hrlive)]
  · apply timesNotified_eq_zero
    rw [hev, List.mem_append]
    rintro (h | h)
    · obtain ⟨f, hf, hfe⟩ := List.mem_map.mp h
      simp only [Prod.mk.injEq, and_true] at hfe
      exact hdisj r hr f (hU.subset hf) hfe.symm
    · obtain ⟨f, _, hfe⟩ := List.mem_map.mp h
      simp at hfe
  · rw [hwin, List.length_map]
  · intro k w hk hw
    rw [hwin, List.getElem?_map, hk]
    refine ⟨_, rfl, ?_⟩
    have : w.monitor ∈ (live st1.registry).map (fun r => some r.addr) := by
      rw [hw]; exact List.mem_map_of_mem _ hrlive
    simp [this]

/-- C3 (amended), at a concrete input: the registry `[X, Z]` with a registered
callback, a window on "Z", and the fresh list `[X']`; "Z" is disconnected. -/
theorem inputMonitorChange_disconnect_witness :
    exampleLib.monitorCallback = some 7 ∧
    exampleLib.monitorCount = (exampleLib.monitors.length : Int) ∧
    ((exampleLib.monitors ++ [exampleMonitor 10 "X"]).map (fun m => m.addr)).Nodup ∧
    exampleMonitor 2 "Z" ∈ exampleLib.monitors ∧
    (∀ f ∈ [exampleMonitor 10 "X"], f.name ≠ (exampleMonitor 2 "Z").name) ∧
    ∃ res, _glfwInputMonitorChange exampleLib [exampleMonitor 10 "X"] = some res ∧
      (exampleMonitor 2 "Z").addr ∉ res.lib.monitors.map (fun m => m.addr) ∧
      timesNotified res.events (exampleMonitor 2 "Z").addr MonitorEvent.GLFW_DISCONNECTED = 1 ∧
      timesNotified res.events (exampleMonitor 2 "Z").addr MonitorEvent.GLFW_CONNECTED = 0 ∧
      res.lib.windowListHead.length = exampleLib.windowListHead.length ∧
      ∀ (k : Nat) (w : _GLFWwindow), exampleLib.windowListHead[k]? = some w →
        w.monitor = some (exampleMonitor 2 "Z").addr →
        ∃ w', res.lib.windowListHead[k]? = some w' ∧ w'.monitor = none :=
  ⟨by decide, by decide, by decide, by decide, by decide,
    inputMonitorChange_disconnect exampleLib [exampleMonitor 10 "X"] 7 (exampleMonitor 2 "Z")
      (by decide) (by decide) (by decide) (by decide) (by decide)⟩

/-- C4 (as stated) fails: with the monitor callback unset, the registry
`[X, Z]` and the fresh list `[Y]`, the fresh monitor "Y" has the name of no
old monitor, and the call `_glfw.monitorCallback(Y, GLFW_CONNECTED)` goes
through a `NULL` pointer: `_glfwInputMonitorChange` does not complete, so "Y"
never enters the registry and no notification is emitted. -/
theorem inputMonitorChange_connect_counterexample :
    exampleLibNoCallback.monitorCount = (exampleLibNoCallback.monitors.length : Int) ∧
    ((exampleLibNoCallback.monitors ++ [exampleMonitor 11 "Y"]).map
      (fun m => m.addr)).Nodup ∧
    [exampleMonitor 11 "Y"][0]? = some (exampleMonitor 11 "Y") ∧
    (∀ m ∈ live (registryAt exampleLibNoCallback [exampleMonitor 11 "Y"] 0),
      m.name ≠ (exampleMonitor 11 "Y").name) ∧
    _glfwInputMonitorChange exampleLibNoCallback [exampleMonitor 11 "Y"] = none := by
  decide

/-- C4 (amended): when a monitor callback is registered (and the registry is
well formed: its count is the length of its array, and the old and fresh
monitor objects have pairwise different addresses), for every registry and
fresh list and every fresh monitor `f` at index `i` whose name is the name of
no old monitor still unmatched when the first loop reaches `i`,
`_glfwInputMonitorChange` completes, afterwards `f` itself is in the registry
at index `i`, exactly one connected notification was emitted for `f`, and no
disconnected one. -/
theorem inputMonitorChange_connect (lib : _GLFWlibrary) (fresh : List _GLFWmonitor)
    (cb : Nat) (i : Nat) (f : _GLFWmonitor)
    (hcb : lib.monitorCallback = some cb)
    (hcount : lib.monitorCount = (lib.monitors.length : Int))
    (haddr : ((lib.monitors ++ fresh).map (fun m => m.addr)).Nodup)
    (hf : fresh[i]? = some f)
    (hno : ∀ m ∈ live (registryAt lib fresh i), m.name ≠ f.name) :
    ∃ res, _glfwInputMonitorChange lib fresh = some res ∧
      res.lib.monitors[i]? = some f ∧
      timesNotified res.events f.addr MonitorEvent.GLFW_CONNECTED = 1 ∧
      timesNotified res.events f.addr MonitorEvent.GLFW_DISCONNECTED = 0 := by
  obtain ⟨ms, st1, U, res, hrun, hres, hmon, hev1, hev, hwin, hlen, hsub, hkeep, hU, hUk,
    hmem⟩ :=
    inputMonitorChange_spec lib fresh cb hcb hcount
  obtain ⟨hRa, hFa, hdisj⟩ := addr_nodup_split _ _ haddr
  have hfm : f ∈ fresh := List.getElem?_mem hf
  have hno' : ∀ ms1 s1, connectLoop (some cb) (fresh.take i) (changeStart lib) = some (ms1, s1) →
      matchMonitor f.name s1.registry = none := by
    intro ms1 s1 h1
    rw [registryAt_eq lib fresh i cb hcb ms1 s1 h1] at hno
    exact (matchMonitor_none_iff _ _).mpr hno
  obtain ⟨hslot, hfev⟩ := connectLoop_unmatched_at cb fresh (changeStart lib) i f hf hno'
    ms st1 hrun
  rw [hev1] at hfev
  refine ⟨res, hres, ?_, ?_, ?_⟩
  · rw [hmon]; exact hslot
  · rw [hev, timesNotified_append]
    have hnd : (U.map (fun f => (f.addr, MonitorEvent.GLFW_CONNECTED))).Nodup := by
      have h1 : (U.map (fun m => m.addr)).Nodup := List.Nodup.sublist (hU.map _) hFa
      have h2 := List.Nodup.map (f := fun a : Nat => (a, MonitorEvent.GLFW_CONNECTED))
        (fun a b hab => by simpa using hab) h1
      rw [List.map_map] at h2
      exact h2
    have h0 : timesNotified ((live st1.registry).map
        (fun r => (r.addr, MonitorEvent.GLFW_DISCONNECTED)))
        f.addr MonitorEvent.GLFW_CONNECTED = 0 := by
      apply timesNotified_eq_zero
      intro h
      obtain ⟨m, _, hme⟩ := List.mem_map.mp h
      simp at hme
    rw [h0, timesNotified_eq_one _ _ _ hnd hfev]
  · apply timesNotified_eq_zero
    rw [hev, List.mem_append]
    rintro (h | h)
    · obtain ⟨m, _, hme⟩ := List.mem_map.mp h
      simp at hme
    · obtain ⟨m, hm, hme⟩ := List.mem_map.mp h
      simp only [Prod.mk.injEq, and_true] at hme
      exact hdisj m (hsub.subset hm) f hfm hme

/-- C4 (amended), at a concrete input: the registry `[X, Z]` with a registered
callback and the fresh list `[X', Y]`; "Y" at index 1 is newly connected. -/
theorem inputMonitorChange_connect_witness :
    exampleLib.monitorCallback = some 7 ∧
    exampleLib.monitorCount = (exampleLib.monitors.length : Int) ∧
    ((exampleLib.monitors ++ [exampleMonitor 10 "X", exampleMonitor 11 "Y"]).map
      (fun m => m.addr)).Nodup ∧
    [exampleMonitor 10 "X", exampleMonitor 11 "Y"][1]? = some (exampleMonitor 11 "Y") ∧
    (∀ m ∈ live (registryAt exampleLib [exampleMonitor 10 "X", exampleMonitor 11 "Y"] 1),
      m.name ≠ (exampleMonitor 11 "Y").name) ∧
    ∃ res, _glfwInputMonitorChange exampleLib [exampleMonitor 10 "X", exampleMonitor 11 "Y"]
        = some res ∧
      res.lib.monitors[1]? = some (exampleMonitor 11 "Y") ∧
      timesNotified res.events (exampleMonitor 11 "Y").addr MonitorEvent.GLFW_CONNECTED = 1 ∧
      timesNotified res.events (exampleMonitor 11 "Y").addr MonitorEvent.GLFW_DISCONNECTED = 0 :=
  ⟨by decide, by decide, by decide, by decide, by decide,
    inputMonitorChange_connect exampleLib [exampleMonitor 10 "X", exampleMonitor 11 "Y"] 7 1
      (exampleMonitor 11 "Y") (by decide) (by decide) (by decide) (by decide) (by decide)⟩

/-! ## Claims on the BPP splitter and the public queries -/

/-- C11: `_glfwSplitBPP` maps 24 to (8, 8, 8), 16 to (5, 6, 5), 32 to
(8, 8, 8), the same as for 24, and 15 to (5, 5, 5). -/
theorem splitBPP_examples :
    _glfwSplitBPP 24 = (8, 8, 8) ∧ _glfwSplitBPP 16 = (5, 6, 5) ∧
    _glfwSplitBPP 32 = (8, 8, 8) ∧ _glfwSplitBPP 32 = _glfwSplitBPP 24 ∧
    _glfwSplitBPP 15 = (5, 5, 5) := by
  decide

/-- C12: for every non-negative `int` value `bpp` other than 32, with
`base = bpp / 3` and `remainder = bpp - 3 * base`, `_glfwSplitBPP` yields
(base, base, base) when the remainder is 0, (base, base + 1, base) when it is
1 and (base + 1, base + 1, base) when it is 2. -/
theorem splitBPP_general (bpp : Int) (h0 : 0 ≤ bpp) (hint : InRange32 bpp) (h32 : bpp ≠ 32) :
    (bpp - 3 * (bpp / 3) = 0 → _glfwSplitBPP bpp = (bpp / 3, bpp / 3, bpp / 3)) ∧
    (bpp - 3 * (bpp / 3) = 1 → _glfwSplitBPP bpp = (bpp / 3, bpp / 3 + 1, bpp / 3)) ∧
    (bpp - 3 * (bpp / 3) = 2 → _glfwSplitBPP bpp = (bpp / 3 + 1, bpp / 3 + 1, bpp / 3)) ∧
    (bpp - 3 * (bpp / 3) = 0 ∨ bpp - 3 * (bpp / 3) = 1 ∨ bpp - 3 * (bpp / 3) = 2) := by
  unfold InRange32 at hint
  have hdiv : div32 bpp 3 = bpp / 3 := by
    unfold div32
    rw [Int.tdiv_eq_ediv h0 (by decide)]
    unfold wrap32; omega
  unfold _glfwSplitBPP
  simp only [h32, if_false, hdiv]
  have hdelta : sub32 bpp (mul32 (bpp / 3) 3) = bpp - 3 * (bpp / 3) := by
    unfold sub32 mul32 wrap32; omega
  have hadd : add32 (bpp / 3) 1 = bpp / 3 + 1 := by
    unfold add32 wrap32; omega
  rw [hdelta, hadd]
  refine ⟨?_, ?_, ?_, by omega⟩
  · intro h; rw [h]; simp
  · intro h; rw [h]; simp
  · intro h; rw [h]; simp

/-- C12, at a concrete input: 17 bits per pixel split into (6, 6, 5). -/
theorem splitBPP_general_witness :
    (0 : Int) ≤ 17 ∧ InRange32 17 ∧ (17 : Int) ≠ 32 ∧ _glfwSplitBPP 17 = (6, 6, 5) :=
  ⟨by decide, by decide, by decide,
    (splitBPP_general 17 (by decide) (by decide) (by decide)).2.2.1 (by decide)⟩

theorem findPrimary_cons_pos (x : _GLFWmonitor) (xs : List _GLFWmonitor)
    (h : x.primary = true) : findPrimary (x :: xs) = some x := by
  rw [findPrimary, if_pos h]

theorem findPrimary_cons_neg (x : _GLFWmonitor) (xs : List _GLFWmonitor)
    (h : x.primary = false) : findPrimary (x :: xs) = findPrimary xs := by
  rw [findPrimary, if_neg (by rw [h]; decide)]

theorem findPrimary_none (l : List _GLFWmonitor) :
    findPrimary l = none ↔ ∀ m ∈ l, m.primary = false := by
  induction l with
  | nil => simp [findPrimary]
  | cons x xs ih =>
    cases hx : x.primary with
    | true =>
      rw [findPrimary_cons_pos x xs hx]
      constructor
      · intro h; exact absurd h (by simp)
      · intro h
        have := h x (List.mem_cons_self _ _)
        rw [hx] at this
        exact absurd this (by decide)
    | false =>
      rw [findPrimary_cons_neg x xs hx, ih]
      constructor
      · intro h m hm
        rcases List.mem_cons.mp hm with h' | h'
        · rw [h']; exact hx
        · exact h m h'
      · intro h m hm
        exact h m (List.mem_cons_of_mem _ hm)

theorem findPrimary_some (l : List _GLFWmonitor) (m : _GLFWmonitor) :
    findPrimary l = some m ↔
      ∃ i : Nat, l[i]? = some m ∧ m.primary = true ∧
        ∀ (j : Nat) (x : _GLFWmonitor), j < i → l[j]? = some x → x.primary = false := by
  induction l with
  | nil => simp [findPrimary]
  | cons x xs ih =>
    cases hx : x.primary with
    | true =>
      rw [findPrimary_cons_pos x xs hx]
      constructor
      · intro h
        have hxm : x = m := Option.some.inj h
        subst hxm
        exact ⟨0, List.getElem?_cons_zero, hx, fun j _ hj => absurd hj (Nat.not_lt_zero j)⟩
      · rintro ⟨i, hi, _, hfirst⟩
        cases i with
        | zero =>
          rw [List.getElem?_cons_zero] at hi
          exact hi
        | succ k =>
          have := hfirst 0 x (Nat.succ_pos k) List.getElem?_cons_zero
          rw [hx] at this
          exact absurd this (by decide)
    | false =>
      rw [findPrimary_cons_neg x xs hx, ih]
      constructor
      · rintro ⟨i, hi, hp, hfirst⟩
        refine ⟨i + 1, by rw [List.getElem?_cons_succ]; exact hi, hp, ?_⟩
        intro j y hj hy
        cases j with
        | zero =>
          rw [List.getElem?_cons_zero] at hy
          rw [← Option.some.inj hy]; exact hx
        | succ k =>
          rw [List.getElem?_cons_succ] at hy
          exact hfirst k y (by omega) hy
      · rintro ⟨i, hi, hp, hfirst⟩
        cases i with
        | zero =>
          rw [List.getElem?_cons_zero] at hi
          rw [Option.some.inj hi, hp] at hx
          exact absurd hx (by decide)
        | succ k =>
          rw [List.getElem?_cons_succ] at hi
          refine ⟨k, hi, hp, ?_⟩
          intro j y hj hy
          exact hfirst (j + 1) y (by omega) (by rw [List.getElem?_cons_succ]; exact hy)

/-- C16: when the library is initialized, `glfwGetPrimaryMonitor` returns
the lowest-index registry monitor whose primary flag is set and records no
error; if no registry monitor is flagged primary (as in an empty registry) it
records a platform error and returns `NULL`. -/
theorem getPrimaryMonitor_first_primary (lib : _GLFWlibrary)
    (hcount : lib.monitorCount = (lib.monitors.length : Int)) :
    (∀ m : _GLFWmonitor, glfwGetPrimaryMonitor true lib = (some m, none) ↔
      ∃ i : Nat, lib.monitors[i]? = some m ∧ m.primary = true ∧
        ∀ (j : Nat) (x : _GLFWmonitor), j < i → lib.monitors[j]? = some x →
          x.primary = false) ∧
    (glfwGetPrimaryMonitor true lib = (none, some ErrorCode.GLFW_PLATFORM_ERROR) ↔
      ∀ m ∈ lib.monitors, m.primary = false) ∧
    ((∃ m : _GLFWmonitor, glfwGetPrimaryMonitor true lib = (some m, none)) ∨
      glfwGetPrimaryMonitor true lib = (none, some ErrorCode.GLFW_PLATFORM_ERROR)) := by
  have htake : lib.monitors.take lib.monitorCount.toNat = lib.monitors := by
    rw [hcount, Int.toNat_ofNat, List.take_length]
  unfold glfwGetPrimaryMonitor
  rw [htake]
  cases hfp : findPrimary lib.monitors with
  | none =>
    refine ⟨fun m => ?_, ?_, Or.inr (by simp)⟩
    · have hnone := (findPrimary_none lib.monitors).mp hfp
      simp only [Bool.true_eq_false, if_false, Prod.mk.injEq, and_true, false_iff, not_exists,
        not_and, reduceCtorEq, false_and]
      intro i hi hp
      have := hnone m (List.getElem?_mem hi)
      rw [hp] at this
      exact absurd this (by decide)
    · simp only [Bool.true_eq_false, if_false, true_iff]
      exact (findPrimary_none lib.monitors).mp hfp
  | some p =>
    refine ⟨fun m => ?_, ?_, Or.inl ⟨p, by simp⟩⟩
    · simp only [Bool.true_eq_false, if_false, Prod.mk.injEq, and_true, Option.some.injEq]
      rw [← findPrimary_some, hfp, Option.some.injEq]
    · simp only [Bool.true_eq_false, if_false, Prod.mk.injEq, reduceCtorEq, false_and,
        false_iff]
      intro h
      have := (findPrimary_none lib.monitors).mpr h
      rw [hfp] at this
      exact absurd this (by simp)

/-- C16, at a concrete input: of the monitors "X", "Z" and "W", of which "Z"
and "W" are flagged primary, "Z" at index 1 is returned. -/
theorem getPrimaryMonitor_first_primary_witness :
    examplePrimaryLib.monitorCount = (examplePrimaryLib.monitors.length : Int) ∧
    glfwGetPrimaryMonitor true examplePrimaryLib =
      (some { exampleMonitor 2 "Z" with primary := true }, none) ∧
    ∃ i : Nat, examplePrimaryLib.monitors[i]? =
        some { exampleMonitor 2 "Z" with primary := true } ∧
      ({ exampleMonitor 2 "Z" with primary := true } : _GLFWmonitor).primary = true ∧
      ∀ (j : Nat) (x : _GLFWmonitor), j < i → examplePrimaryLib.monitors[j]? = some x →
        x.primary = false :=
  ⟨by decide, by decide,
    ((getPrimaryMonitor_first_primary examplePrimaryLib (by decide)).1
      { exampleMonitor 2 "Z" with primary := true }).mp (by decide)⟩

/-- C17: when the library is initialized and the monitor handle is present,
`glfwGetMonitorParam` returns the monitor's `widthMM`, `heightMM`,
`positionX` or `positionY` for the selectors `GLFW_MONITOR_WIDTH_MM`,
`GLFW_MONITOR_HEIGHT_MM`, `GLFW_MONITOR_POS_X`, `GLFW_MONITOR_POS_Y`
respectively without recording an error, and for every other selector value
records an invalid-enum error and returns zero. -/
theorem getMonitorParam_selectors (sel : ParamSelectors) (monitor : _GLFWmonitor)
    (param : Int) (hsel : sel.Distinct) :
    glfwGetMonitorParam sel true (some monitor) sel.GLFW_MONITOR_WIDTH_MM
      = (monitor.widthMM, none) ∧
    glfwGetMonitorParam sel true (some monitor) sel.GLFW_MONITOR_HEIGHT_MM
      = (monitor.heightMM, none) ∧
    glfwGetMonitorParam sel true (some monitor) sel.GLFW_MONITOR_POS_X
      = (monitor.positionX, none) ∧
    glfwGetMonitorParam sel true (some monitor) sel.GLFW_MONITOR_POS_Y
      = (monitor.positionY, none) ∧
    ((param ≠ sel.GLFW_MONITOR_WIDTH_MM ∧ param ≠ sel.GLFW_MONITOR_HEIGHT_MM ∧
        param ≠ sel.GLFW_MONITOR_POS_X ∧ param ≠ sel.GLFW_MONITOR_POS_Y) →
      glfwGetMonitorParam sel true (some monitor) param
        = (0, some ErrorCode.GLFW_INVALID_ENUM)) := by
  obtain ⟨h1, h2, h3, h4, h5, h6⟩ := hsel
  unfold glfwGetMonitorParam
  refine ⟨by simp, ?_, ?_, ?_, ?_⟩
  · simp [Ne.symm h1]
  · simp [Ne.symm h2, Ne.symm h4]
  · simp [Ne.symm h3, Ne.symm h5, Ne.symm h6]
  · rintro ⟨p1, p2, p3, p4⟩
    simp [p1, p2, p3, p4]

/-- C17, at a concrete input: with the selector values 1, 2, 3, 4 the
selector 3 gives the x position, the value 9 an invalid-enum error. -/
theorem getMonitorParam_selectors_witness :
    exampleSelectors.Distinct ∧
    glfwGetMonitorParam exampleSelectors true (some (exampleMonitor 1 "X")) 3 = (0, none) ∧
    glfwGetMonitorParam exampleSelectors true (some (exampleMonitor 1 "X")) 9
      = (0, some ErrorCode.GLFW_INVALID_ENUM) :=
  ⟨by decide,
    (getMonitorParam_selectors exampleSelectors (exampleMonitor 1 "X") 9 (by decide)).2.2.1,
    (getMonitorParam_selectors exampleSelectors (exampleMonitor 1 "X") 9 (by decide)).2.2.2.2
      (by decide)⟩

/-- C18: when the library is not initialized, each of `glfwGetMonitors`,
`glfwGetPrimaryMonitor`, `glfwGetMonitorParam`, `glfwGetMonitorName`,
`glfwSetMonitorCallback`, `glfwGetVideoModes` and `glfwGetVideoMode`,
whatever its other arguments, records a not-initialized error, returns its
`NULL` or zero value, and leaves the library state, the monitor with its mode
cache, the integer behind `count` and the mode behind `mode` as they were,
without calling the platform. -/
theorem not_initialized_entry_points (sel : ParamSelectors) (lib : _GLFWlibrary)
    (handle : Option _GLFWmonitor) (count : Option Int) (param : Int)
    (cbfun : Option Nat) (platformModes : Option (List GLFWvidmode))
    (mode : Option GLFWvidmode) (platformMode : Option _GLFWmonitor → GLFWvidmode) :
    glfwGetMonitors false lib count =
      { ret := none, count := count, error := some ErrorCode.GLFW_NOT_INITIALIZED } ∧
    glfwGetPrimaryMonitor false lib = (none, some ErrorCode.GLFW_NOT_INITIALIZED) ∧
    glfwGetMonitorParam sel false handle param = (0, some ErrorCode.GLFW_NOT_INITIALIZED) ∧
    glfwGetMonitorName false handle = (none, some ErrorCode.GLFW_NOT_INITIALIZED) ∧
    glfwSetMonitorCallback false lib cbfun = (lib, some ErrorCode.GLFW_NOT_INITIALIZED) ∧
    glfwGetVideoModes false handle count platformModes =
      { ret := none, monitor := handle, count := count,
        error := some ErrorCode.GLFW_NOT_INITIALIZED } ∧
    glfwGetVideoMode false handle mode platformMode =
      { mode := mode, error := some ErrorCode.GLFW_NOT_INITIALIZED, platformCall := none } :=
  ⟨rfl, rfl, rfl, rfl, rfl, rfl, rfl⟩

/-- C19 fails on the code: `glfwGetVideoMode`, called in an initialized
library with a `NULL` monitor handle and a valid `mode` pointer, records no
error and hands the `NULL` handle to `_glfwPlatformGetVideoMode`; the other
accessors named by the claim do record an invalid-value error and return
their sentinel for a `NULL` handle, a `NULL` count pointer or a `NULL` mode
pointer. -/
theorem getVideoMode_null_handle_unchecked :
    (glfwGetVideoMode true none (some ⟨640, 480, 8, 8, 8⟩) (fun _ => ⟨800, 600, 8, 8, 8⟩)).error
      = none ∧
    (glfwGetVideoMode true none (some ⟨640, 480, 8, 8, 8⟩)
      (fun _ => ⟨800, 600, 8, 8, 8⟩)).platformCall = some none ∧
    (∀ (sel : ParamSelectors) (param : Int),
      glfwGetMonitorParam sel true none param = (0, some ErrorCode.GLFW_INVALID_VALUE)) ∧
    glfwGetMonitorName true none = (none, some ErrorCode.GLFW_INVALID_VALUE) ∧
    (∀ (count : Option Int) (platformModes : Option (List GLFWvidmode)),
      glfwGetVideoModes true none count platformModes =
        { ret := none, monitor := none, count := count,
          error := some ErrorCode.GLFW_INVALID_VALUE }) ∧
    (∀ lib : _GLFWlibrary, glfwGetMonitors true lib none =
      { ret := none, count := none, error := some ErrorCode.GLFW_INVALID_VALUE }) ∧
    (∀ (monitor : _GLFWmonitor) (platformModes : Option (List GLFWvidmode)),
      glfwGetVideoModes true (some monitor) none platformModes =
        { ret := none, monitor := some monitor, count := none,
          error := some ErrorCode.GLFW_INVALID_VALUE }) ∧
    (∀ (handle : Option _GLFWmonitor) (platformMode : Option _GLFWmonitor → GLFWvidmode),
      glfwGetVideoMode true handle none platformMode =
        { mode := none, error := some ErrorCode.GLFW_INVALID_VALUE, platformCall := none }) :=
  ⟨rfl, rfl, fun _ _ => rfl, rfl, fun _ _ => rfl, fun _ => rfl, fun _ _ => rfl,
    fun _ _ => rfl⟩

/-- C20: for every monitor, whatever its cache held before, if mode
discovery returns the same result on two successive `glfwGetVideoModes`
calls, the second call returns the same sequence and the same count as the
first; after a successful discovery of the list `M` both are the sorted `M`
and its length. -/
theorem getVideoModes_idempotent (monitor : _GLFWmonitor) (count : Int)
    (platformModes : Option (List GLFWvidmode)) (M : List GLFWvidmode) :
    (glfwGetVideoModes true
        (glfwGetVideoModes true (some monitor) (some count) platformModes).monitor
        (glfwGetVideoModes true (some monitor) (some count) platformModes).count
        platformModes).ret
      = (glfwGetVideoModes true (some monitor) (some count) platformModes).ret ∧
    (glfwGetVideoModes true
        (glfwGetVideoModes true (some monitor) (some count) platformModes).monitor
        (glfwGetVideoModes true (some monitor) (some count) platformModes).count
        platformModes).count
      = (glfwGetVideoModes true (some monitor) (some count) platformModes).count ∧
    (glfwGetVideoModes true (some monitor) (some count) (some M)).ret
      = some (qsort compareVideoModes M) ∧
    (glfwGetVideoModes true (some monitor) (some count) (some M)).count
      = some (M.length : Int) ∧
    (glfwGetVideoModes true
        (glfwGetVideoModes true (some monitor) (some count) (some M)).monitor
        (glfwGetVideoModes true (some monitor) (some count) (some M)).count
        (some M)).ret
      = some (qsort compareVideoModes M) ∧
    (glfwGetVideoModes true
        (glfwGetVideoModes true (some monitor) (some count) (some M)).monitor
        (glfwGetVideoModes true (some monitor) (some count) (some M)).count
        (some M)).count
      = some (M.length : Int) := by
  cases platformModes <;> simp [glfwGetVideoModes, refreshVideoModes]

/-! ## Claims on the notifications and the registry after reconciliation -/

theorem connectLoop_cons_unmatched_none (f : _GLFWmonitor) (rest : List _GLFWmonitor)
    (st : ChangeState) (h : matchMonitor f.name st.registry = none) :
    connectLoop none (f :: rest) st = none := by
  rw [connectLoop, h]
  rfl

/-- Without a callback the first loop, when it completes, has made no
callback call. -/
theorem connectLoop_none_events (F : List _GLFWmonitor) :
    ∀ (st : ChangeState) (ms : List _GLFWmonitor) (st' : ChangeState),
      connectLoop none F st = some (ms, st') → st'.events = st.events := by
  induction F with
  | nil =>
    intro st ms st' h
    rw [connectLoop] at h
    simp only [Option.some.injEq, Prod.mk.injEq] at h
    rw [← h.2]
  | cons f rest ih =>
    intro st ms st' h
    cases hm : matchMonitor f.name st.registry with
    | none =>
      rw [connectLoop_cons_unmatched_none f rest st hm] at h
      exact absurd h (by simp)
    | some p =>
      obtain ⟨r, reg'⟩ := p
      rw [connectLoop_cons_matched none f rest st r reg' hm, Option.map_eq_some'] at h
      obtain ⟨⟨ms0, s0⟩, hr, he⟩ := h
      simp only [Prod.mk.injEq] at he
      rw [← he.2]
      have h2 := ih _ ms0 s0 hr
      simpa using h2

/-- Without a callback the second loop, when it completes, has made no
callback call. -/
theorem disconnectLoop_none_events (reg : List (Option _GLFWmonitor)) :
    ∀ (st st' : ChangeState), disconnectLoop none reg st = some st' →
      st'.events = st.events := by
  induction reg with
  | nil =>
    intro st st' h
    rw [disconnectLoop] at h
    rw [← Option.some.inj h]
  | cons x xs ih =>
    intro st st' h
    cases x with
    | none =>
      rw [disconnectLoop] at h
      exact ih st st' h
    | some r =>
      rw [disconnectLoop] at h
      simp [callMonitorCallback] at h

/-- With a callback registered the call completes, and its callback calls
are connected notifications for fresh monitors followed by disconnected
notifications for old monitors. -/
theorem inputMonitorChange_events (lib : _GLFWlibrary) (fresh : List _GLFWmonitor) (c : Nat)
    (hcb : lib.monitorCallback = some c) :
    ∃ (res : MonitorChange) (U D : List _GLFWmonitor),
      _glfwInputMonitorChange lib fresh = some res ∧
      res.events = U.map (fun f => (f.addr, MonitorEvent.GLFW_CONNECTED)) ++
        D.map (fun r => (r.addr, MonitorEvent.GLFW_DISCONNECTED)) := by
  obtain ⟨ms, st1, U, hrun, _, _, _, _, _, hev, _, _⟩ :=
    connectLoop_spec c fresh (changeStart lib)
  refine ⟨
    { lib := { lib with
                 windowListHead := (live st1.registry).foldl (fun w r => clearWindows r w)
                   st1.windows
                 monitors := ms
                 monitorCount := (fresh.length : Int) }
      events := st1.events ++
        (live st1.registry).map (fun r => (r.addr, MonitorEvent.GLFW_DISCONNECTED))
      destroyed := _glfwDestroyMonitors st1.registry st1.destroyed },
    U, live st1.registry, ?_, ?_⟩
  · unfold _glfwInputMonitorChange
    rw [hcb, hrun]
    simp only
    rw [disconnectLoop_spec]
  · simp only [hev]
    rfl

/-- In a block of connected notifications followed by a block of
disconnected ones, every connected notification has the smaller index. -/
theorem blocks_ordered (C D : List Nat) (i j a b : Nat)
    (hi : (C.map (fun x => (x, MonitorEvent.GLFW_CONNECTED)) ++
      D.map (fun x => (x, MonitorEvent.GLFW_DISCONNECTED)))[i]?
        = some (a, MonitorEvent.GLFW_CONNECTED))
    (hj : (C.map (fun x => (x, MonitorEvent.GLFW_CONNECTED)) ++
      D.map (fun x => (x, MonitorEvent.GLFW_DISCONNECTED)))[j]?
        = some (b, MonitorEvent.GLFW_DISCONNECTED)) : i < j := by
  have hiC : i < C.length := by
    by_contra hge
    rw [List.getElem?_append_right (by rw [List.length_map]; omega), List.getElem?_map,
      Option.map_eq_some'] at hi
    obtain ⟨x, _, hx⟩ := hi
    simp at hx
  have hjC : C.length ≤ j := by
    by_contra hlt
    rw [List.getElem?_append_left (by rw [List.length_map]; omega), List.getElem?_map,
      Option.map_eq_some'] at hj
    obtain ⟨x, _, hx⟩ := hj
    simp at hx
  omega

/-- C13: in the sequence of notifications emitted by one call of
`_glfwInputMonitorChange`, for every registry, fresh list and window list,
every connected notification precedes every disconnected notification: the
sequence is a block of connected notifications followed by a block of
disconnected ones. A call that does not complete is one with the callback
unset, which has emitted no notification. -/
theorem notifications_connected_first (lib : _GLFWlibrary) (fresh : List _GLFWmonitor) :
    (_glfwInputMonitorChange lib fresh = none → lib.monitorCallback = none) ∧
    ∀ res, _glfwInputMonitorChange lib fresh = some res →
      (∃ C D : List Nat,
        res.events = C.map (fun x => (x, MonitorEvent.GLFW_CONNECTED)) ++
          D.map (fun x => (x, MonitorEvent.GLFW_DISCONNECTED))) ∧
      ∀ (i j a b : Nat), res.events[i]? = some (a, MonitorEvent.GLFW_CONNECTED) →
        res.events[j]? = some (b, MonitorEvent.GLFW_DISCONNECTED) → i < j := by
  have hblocks : ∀ res, _glfwInputMonitorChange lib fresh = some res →
      ∃ C D : List Nat,
        res.events = C.map (fun x => (x, MonitorEvent.GLFW_CONNECTED)) ++
          D.map (fun x => (x, MonitorEvent.GLFW_DISCONNECTED)) := by
    intro res hres
    cases hcb : lib.monitorCallback with
    | none =>
      refine ⟨[], [], ?_⟩
      unfold _glfwInputMonitorChange at hres
      rw [hcb] at hres
      cases h1 : connectLoop none fresh (changeStart lib) with
      | none => rw [h1] at hres; simp at hres
      | some p =>
        obtain ⟨ms, st1⟩ := p
        rw [h1] at hres
        simp only at hres
        cases h2 : disconnectLoop none st1.registry st1 with
        | none => rw [h2] at hres; simp at hres
        | some st2 =>
          rw [h2] at hres
          simp only [Option.some.injEq] at hres
          rw [← hres]
          simp only [List.map_nil, List.append_nil]
          rw [disconnectLoop_none_events _ _ _ h2, connectLoop_none_events _ _ _ _ h1]
          rfl
    | some c =>
      obtain ⟨res', U, D, hres', hev⟩ := inputMonitorChange_events lib fresh c hcb
      rw [hres] at hres'
      rw [Option.some.inj hres', hev]
      exact ⟨U.map (fun m => m.addr), D.map (fun m => m.addr), by
        simp only [List.map_map]; rfl⟩
  refine ⟨?_, fun res hres => ⟨hblocks res hres, ?_⟩⟩
  · intro hnone
    cases hcb : lib.monitorCallback with
    | none => rfl
    | some c =>
      obtain ⟨res', _, _, hres', _⟩ := inputMonitorChange_events lib fresh c hcb
      rw [hnone] at hres'
      exact absurd hres' (by simp)
  · obtain ⟨C, D, hev⟩ := hblocks res hres
    intro i j a b hi hj
    rw [hev] at hi hj
    exact blocks_ordered C D i j a b hi hj

/-- C14 fails on the code: with the monitor callback unset, the registry
`[X, Z]` and the fresh list `[X', W]`, in which "W" is newly connected and
"Z" disconnected, `_glfwInputMonitorChange` calls `_glfw.monitorCallback`
through the `NULL` pointer and does not complete; with a callback registered
the same call completes. -/
theorem inputMonitorChange_unset_callback_fails :
    exampleLibNoCallback.monitorCallback = none ∧
    _glfwInputMonitorChange exampleLibNoCallback
      [exampleMonitor 10 "X", exampleMonitor 12 "W"] = none ∧
    (_glfwInputMonitorChange exampleLib
      [exampleMonitor 10 "X", exampleMonitor 12 "W"]).isSome = true := by
  decide

theorem connectLoop_names (c : Nat) (F : List _GLFWmonitor) :
    ∀ (st : ChangeState) (ms : List _GLFWmonitor) (st' : ChangeState),
      connectLoop (some c) F st = some (ms, st') →
      ∀ (i : Nat) (f : _GLFWmonitor), F[i]? = some f →
        ∃ m, ms[i]? = some m ∧ m.name = f.name ∧ (m = f ∨ m ∈ live st.registry) := by
  induction F with
  | nil => intro st ms st' _ i f hf; simp at hf
  | cons f0 rest ih =>
    intro st ms st' h i f hf
    cases hm : matchMonitor f0.name st.registry with
    | none =>
      rw [connectLoop_cons_unmatched c f0 rest st hm, Option.map_eq_some'] at h
      obtain ⟨⟨ms0, s0⟩, hr, he⟩ := h
      simp only [Prod.mk.injEq] at he
      rw [← he.1]
      cases i with
      | zero =>
        rw [List.getElem?_cons_zero] at hf
        exact ⟨f0, List.getElem?_cons_zero, by rw [Option.some.inj hf],
          Or.inl (Option.some.inj hf)⟩
      | succ k =>
        rw [List.getElem?_cons_succ] at hf
        obtain ⟨m, h1, h2, h3⟩ := ih _ ms0 s0 hr k f hf
        exact ⟨m, by rw [List.getElem?_cons_succ]; exact h1, h2, h3⟩
    | some p =>
      obtain ⟨r, reg'⟩ := p
      obtain ⟨pre, post, e1, e2, _, e4⟩ := matchMonitor_some f0.name st.registry r reg' hm
      rw [connectLoop_cons_matched (some c) f0 rest st r reg' hm, Option.map_eq_some'] at h
      obtain ⟨⟨ms0, s0⟩, hr, he⟩ := h
      simp only [Prod.mk.injEq] at he
      rw [← he.1]
      cases i with
      | zero =>
        rw [List.getElem?_cons_zero] at hf
        refine ⟨r, List.getElem?_cons_zero, by rw [e4, Option.some.inj hf], Or.inr ?_⟩
        rw [e1]; simp
      | succ k =>
        rw [List.getElem?_cons_succ] at hf
        obtain ⟨m, h1, h2, h3⟩ := ih _ ms0 s0 hr k f hf
        refine ⟨m, by rw [List.getElem?_cons_succ]; exact h1, h2, ?_⟩
        rcases h3 with h3 | h3
        · exact Or.inl h3
        · right
          simp only at h3
          rw [e2] at h3
          rw [e1]
          rcases List.mem_append.mp h3 with h' | h'
          · exact List.mem_append_left _ h'
          · exact List.mem_append_right _ (List.mem_cons_of_mem _ h')

/-- C15 fails on the code: with the monitor callback unset, the registry
`[X, Z]` and an empty fresh list, the first disconnected notification goes
through the `NULL` callback pointer, `_glfwInputMonitorChange` does not
complete and the registry keeps its count 2, which is not the length of the
fresh list. With a callback registered the same call leaves an empty registry
with count 0. -/
theorem inputMonitorChange_registry_names_unset_callback :
    exampleLibNoCallback.monitorCallback = none ∧
    connectLoop none [] (changeStart exampleLibNoCallback) =
      some ([], changeStart exampleLibNoCallback) ∧
    disconnectLoop none (changeStart exampleLibNoCallback).registry
      (changeStart exampleLibNoCallback) = none ∧
    _glfwInputMonitorChange exampleLibNoCallback [] = none ∧
    exampleLibNoCallback.monitorCount = 2 ∧
    exampleLibNoCallback.monitorCount ≠ (([] : List _GLFWmonitor).length : Int) ∧
    (_glfwInputMonitorChange exampleLib []).map
        (fun res => (res.lib.monitors, res.lib.monitorCount)) = some ([], 0) := by
  decide

/-- The new registry when a monitor callback is registered: for every registry
and fresh discovery list `F`, `_glfwInputMonitorChange` completes, afterwards
the registry's count equals the length of `F` and, at every index `i`, the
registry holds a monitor with the name of `F[i]`: `F[i]` itself or an old
registry monitor of that name. -/
theorem inputMonitorChange_registry_names (lib : _GLFWlibrary) (fresh : List _GLFWmonitor)
    (cb : Nat) (hcb : lib.monitorCallback = some cb) :
    ∃ res, _glfwInputMonitorChange lib fresh = some res ∧
      res.lib.monitorCount = (fresh.length : Int) ∧
      res.lib.monitors.length = fresh.length ∧
      ∀ (i : Nat) (f : _GLFWmonitor), fresh[i]? = some f →
        ∃ m, res.lib.monitors[i]? = some m ∧ m.name = f.name ∧
          (m = f ∨ m ∈ lib.monitors) := by
  obtain ⟨ms, st1, U, hrun, hlen, _⟩ := connectLoop_spec cb fresh (changeStart lib)
  have hnames := connectLoop_names cb fresh (changeStart lib) ms st1 hrun
  refine ⟨
    { lib := { lib with
                 windowListHead := (live st1.registry).foldl (fun w r => clearWindows r w)
                   st1.windows
                 monitors := ms
                 monitorCount := (fresh.length : Int) }
      events := st1.events ++
        (live st1.registry).map (fun r => (r.addr, MonitorEvent.GLFW_DISCONNECTED))
      destroyed := _glfwDestroyMonitors st1.registry st1.destroyed },
    ?_, rfl, hlen, ?_⟩
  · unfold _glfwInputMonitorChange
    rw [hcb, hrun]
    simp only
    rw [disconnectLoop_spec]
  · intro i f hf
    obtain ⟨m, h1, h2, h3⟩ := hnames i f hf
    refine ⟨m, h1, h2, ?_⟩
    rcases h3 with h3 | h3
    · exact Or.inl h3
    · right
      unfold changeStart at h3
      simp only at h3
      rw [live_map_some] at h3
      exact List.mem_of_mem_take h3

/-- The new registry at a concrete input: the registry `[X, Z]` with a
registered callback and the fresh list `[X', Y]`. -/
theorem inputMonitorChange_registry_names_witness :
    exampleLib.monitorCallback = some 7 ∧
    ∃ res, _glfwInputMonitorChange exampleLib [exampleMonitor 10 "X", exampleMonitor 11 "Y"]
        = some res ∧
      res.lib.monitorCount =
        (([exampleMonitor 10 "X", exampleMonitor 11 "Y"] : List _GLFWmonitor).length : Int) ∧
      res.lib.monitors.length =
        ([exampleMonitor 10 "X", exampleMonitor 11 "Y"] : List _GLFWmonitor).length ∧
      ∀ (i : Nat) (f : _GLFWmonitor),
        [exampleMonitor 10 "X", exampleMonitor 11 "Y"][i]? = some f →
        ∃ m, res.lib.monitors[i]? = some m ∧ m.name = f.name ∧
          (m = f ∨ m ∈ exampleLib.monitors) :=
  ⟨by decide,
    inputMonitorChange_registry_names exampleLib
      [exampleMonitor 10 "X", exampleMonitor 11 "Y"] 7 (by decide)⟩

/-! ## Claims on the cache refresh, the mode matcher and the BPP splitter -/

/-- C21 (as stated) fails: when discovery reports a non-`NULL` mode list with
zero modes, `refreshVideoModes` returns success and replaces the monitor's
cached list of two modes by the empty list with count 0. -/
theorem refreshVideoModes_failure_counterexample :
    refreshVideoModes
        { exampleMonitor 1 "X" with
            modes := some [⟨640, 480, 8, 8, 8⟩, ⟨800, 600, 8, 8, 8⟩], modeCount := 2 }
        (some [])
      = (true, { exampleMonitor 1 "X" with modes := some [], modeCount := 0 }) := by
  decide

/-- C21 (amended): `refreshVideoModes` returns failure exactly when discovery
reports no (`NULL`) mode list, and then leaves the monitor, with its cached
list and count, untouched; a mode list with zero modes is a success that
makes the cache the empty list with count 0. -/
theorem refreshVideoModes_failure (monitor : _GLFWmonitor)
    (platformModes : Option (List GLFWvidmode)) :
    ((refreshVideoModes monitor platformModes).1 = false ↔ platformModes = none) ∧
    refreshVideoModes monitor none = (false, monitor) ∧
    refreshVideoModes monitor (some []) =
      (true, { monitor with modes := some [], modeCount := 0 }) := by
  refine ⟨?_, rfl, rfl⟩
  cases platformModes <;> simp [refreshVideoModes]

theorem sizeDiffOf_eq_arg (d c : GLFWvidmode) :
    sizeDiffOf d c = toUInt32 (abs32 (sizeDiffArg d c)) := rfl

theorem sizeDiffArg_eq (d c : GLFWvidmode) : sizeDiffArg d c = wrap32 (sizeDiff d c) := by
  unfold sizeDiffArg sub32
  rw [mul32_eq, mul32_eq]
  unfold add32
  apply wrap32_congr
  have h1 := wrap32_modEq ((c.width - d.width) * (c.width - d.width))
  have h2 := wrap32_modEq ((c.height - d.height) * (c.height - d.height))
  have h3 := h1.add h2
  unfold sizeDiff
  rw [pow_two, pow_two]
  exact h3

/-- C25 (as stated) fails: for the candidate `46342x1` and the desired mode
`1x1`, both with fields that fit in 32 bits, the square `46341^2` exceeds
`INT_MAX`, the computed sum of squares is negative, `abs` changes it, and the
resulting `sizeDiff` is not the squared Euclidean distance. -/
theorem sizeDiff_nonneg_counterexample :
    sizeDiffArg ⟨1, 1, 8, 8, 8⟩ ⟨46342, 1, 8, 8, 8⟩ = -2147479015 ∧
    sizeDiffArg ⟨1, 1, 8, 8, 8⟩ ⟨46342, 1, 8, 8, 8⟩ < 0 ∧
    abs32 (sizeDiffArg ⟨1, 1, 8, 8, 8⟩ ⟨46342, 1, 8, 8, 8⟩)
      ≠ sizeDiffArg ⟨1, 1, 8, 8, 8⟩ ⟨46342, 1, 8, 8, 8⟩ ∧
    sizeDiffOf ⟨1, 1, 8, 8, 8⟩ ⟨46342, 1, 8, 8, 8⟩ = 2147479015 ∧
    sizeDiff ⟨1, 1, 8, 8, 8⟩ ⟨46342, 1, 8, 8, 8⟩ = 2147488281 := by
  decide

/-- C25 (amended): for every candidate mode and desired mode whose exact
squared distance `(c.width - d.width)^2 + (c.height - d.height)^2` fits in a
32-bit signed int, the value computed by `_glfwChooseVideoMode` is that
squared distance and non-negative, taking its absolute value leaves it
unchanged, and `sizeDiff` equals the squared Euclidean distance. -/
theorem sizeDiff_nonneg (d c : GLFWvidmode) (h : InRange32 (sizeDiff d c)) :
    sizeDiffArg d c = sizeDiff d c ∧ 0 ≤ sizeDiffArg d c ∧
    abs32 (sizeDiffArg d c) = sizeDiffArg d c ∧ sizeDiffOf d c = sizeDiff d c := by
  have hnn : 0 ≤ sizeDiff d c := by unfold sizeDiff; positivity
  have harg : sizeDiffArg d c = sizeDiff d c := by
    rw [sizeDiffArg_eq, wrap32_of_inRange h]
  refine ⟨harg, by rw [harg]; exact hnn, ?_, sizeDiffOf_exact h⟩
  rw [harg]
  unfold InRange32 at h
  unfold abs32 wrap32
  split_ifs <;> omega

/-- C25 (amended), at a concrete input: candidate `800x600`, desired
`640x480`. -/
theorem sizeDiff_nonneg_witness :
    InRange32 (sizeDiff ⟨640, 480, 8, 8, 8⟩ ⟨800, 600, 8, 8, 8⟩) ∧
    sizeDiffOf ⟨640, 480, 8, 8, 8⟩ ⟨800, 600, 8, 8, 8⟩ = 40000 :=
  ⟨by decide, (sizeDiff_nonneg ⟨640, 480, 8, 8, 8⟩ ⟨800, 600, 8, 8, 8⟩ (by decide)).2.2.2⟩

/-- C27: for every non-negative `int` value `bpp` other than 32 the channel
widths produced by `_glfwSplitBPP` sum to `bpp`; for `bpp = 32` they sum to
24. -/
theorem splitBPP_sum (bpp : Int) (h0 : 0 ≤ bpp) (hint : InRange32 bpp) (h32 : bpp ≠ 32) :
    (_glfwSplitBPP bpp).1 + (_glfwSplitBPP bpp).2.1 + (_glfwSplitBPP bpp).2.2 = bpp ∧
    (_glfwSplitBPP 32).1 + (_glfwSplitBPP 32).2.1 + (_glfwSplitBPP 32).2.2 = 24 := by
  refine ⟨?_, by decide⟩
  unfold InRange32 at hint
  have hdiv : div32 bpp 3 = bpp / 3 := by
    unfold div32
    rw [Int.tdiv_eq_ediv h0 (by decide)]
    unfold wrap32; omega
  unfold _glfwSplitBPP
  simp only [h32, if_false, hdiv]
  have hdelta : sub32 bpp (mul32 (bpp / 3) 3) = bpp - 3 * (bpp / 3) := by
    unfold sub32 mul32 wrap32; omega
  have hadd : add32 (bpp / 3) 1 = bpp / 3 + 1 := by
    unfold add32 wrap32; omega
  rw [hdelta, hadd]
  split_ifs <;> omega

/-- C27, at a concrete input: 17 bits per pixel. -/
theorem splitBPP_sum_witness :
    (0 : Int) ≤ 17 ∧ InRange32 17 ∧ (17 : Int) ≠ 32 ∧
    (_glfwSplitBPP 17).1 + (_glfwSplitBPP 17).2.1 + (_glfwSplitBPP 17).2.2 = 17 :=
  ⟨by decide, by decide, by decide,
    (splitBPP_sum 17 (by decide) (by decide) (by decide)).1⟩

/-- After a successful discovery of a non-empty list `_glfwChooseVideoMode`
returns a pointer into the sorted list for which the loop invariant holds. -/
theorem chooseVideoMode_inv (monitor : _GLFWmonitor) (M : List GLFWvidmode)
    (d : GLFWvidmode) (hM : M ≠ []) :
    (_glfwChooseVideoMode monitor (some M) d).2.modes = some (qsort compareVideoModes M) ∧
    ChooseInv d (qsort compareVideoModes M)
      { closest := (_glfwChooseVideoMode monitor (some M) d).1
        leastSizeDiff :=
          (chooseLoop d (qsort compareVideoModes M) 0 chooseInit).leastSizeDiff
        leastColorDiff :=
          (chooseLoop d (qsort compareVideoModes M) 0 chooseInit).leastColorDiff } := by
  rw [chooseVideoMode_some]
  refine ⟨rfl, ?_⟩
  have hperm := qsort_perm compareVideoModes M
  cases hq : qsort compareVideoModes M with
  | nil =>
    rw [hq] at hperm
    exact absurd (List.Perm.nil_eq hperm).symm hM
  | cons x xs => exact chooseLoop_nonempty d x xs

/-- C24 (as stated) fails: with the modes `2x1` and `65537x1` and the desired
mode `1x1` of the same colour depth, the sorted cache is `[2x1, 65537x1]` and
the entry at index 0 attains the minimal pair `(0, 1)`; the code returns the
entry at index 1, whose exact pair is `(0, 2^32)`, because its computed size
difference wraps around to 0. -/
theorem chooseVideoMode_tie_break_counterexample :
    (_glfwChooseVideoMode (exampleMonitor 1 "X")
        (some [⟨2, 1, 8, 8, 8⟩, ⟨65537, 1, 8, 8, 8⟩]) ⟨1, 1, 8, 8, 8⟩).2.modes
      = some [⟨2, 1, 8, 8, 8⟩, ⟨65537, 1, 8, 8, 8⟩] ∧
    (_glfwChooseVideoMode (exampleMonitor 1 "X")
        (some [⟨2, 1, 8, 8, 8⟩, ⟨65537, 1, 8, 8, 8⟩]) ⟨1, 1, 8, 8, 8⟩).1
      = some (1, ⟨65537, 1, 8, 8, 8⟩) ∧
    colorDiff ⟨1, 1, 8, 8, 8⟩ ⟨2, 1, 8, 8, 8⟩ = 0 ∧
    sizeDiff ⟨1, 1, 8, 8, 8⟩ ⟨2, 1, 8, 8, 8⟩ = 1 ∧
    colorDiff ⟨1, 1, 8, 8, 8⟩ ⟨65537, 1, 8, 8, 8⟩ = 0 ∧
    sizeDiff ⟨1, 1, 8, 8, 8⟩ ⟨65537, 1, 8, 8, 8⟩ = 4294967296 := by
  decide

/-- C24 (amended): for every non-empty discovered mode list `M` and desired
mode `d` such that, for each mode of `M`, the exact colour depth difference
and the exact squared distance to `d` fit in a 32-bit signed int, the mode
returned by `_glfwChooseVideoMode` is the entry of the sorted cache at the
smallest index among all entries attaining the minimal `(colorDiff, sizeDiff)`
pair: it attains the minimum, and no earlier cache entry has the same
pair. -/
theorem chooseVideoMode_tie_break (monitor : _GLFWmonitor) (M : List GLFWvidmode)
    (d : GLFWvidmode) (hM : M ≠ [])
    (hfit : ∀ m ∈ M, InRange32 (colorDepth m - colorDepth d) ∧ InRange32 (sizeDiff d m)) :
    ∃ k r cache,
      (_glfwChooseVideoMode monitor (some M) d).1 = some (k, r) ∧
      (_glfwChooseVideoMode monitor (some M) d).2.modes = some cache ∧
      cache[k]? = some r ∧
      (∀ m ∈ cache, colorDiff d r < colorDiff d m ∨
        (colorDiff d r = colorDiff d m ∧ sizeDiff d r ≤ sizeDiff d m)) ∧
      ∀ (j : Nat) (m : GLFWvidmode), j < k → cache[j]? = some m →
        ¬ (colorDiff d m = colorDiff d r ∧ sizeDiff d m = sizeDiff d r) := by
  obtain ⟨hcache, k, r, hc, hk, _, _, hmin, hfirst⟩ := chooseVideoMode_inv monitor M d hM
  have hperm := qsort_perm compareVideoModes M
  have hfit' : ∀ m ∈ qsort compareVideoModes M,
      colorDiffOf d m = colorDiff d m ∧ sizeDiffOf d m = sizeDiff d m := by
    intro m hm
    have hmM := hperm.mem_iff.mp hm
    exact ⟨colorDiffOf_exact (hfit m hmM).1, sizeDiffOf_exact (hfit m hmM).2⟩
  have hr := hfit' r (List.getElem?_mem hk)
  refine ⟨k, r, qsort compareVideoModes M, hc, hcache, hk, ?_, ?_⟩
  · intro m hm
    have h := hmin m hm
    rw [hr.1, hr.2, (hfit' m hm).1, (hfit' m hm).2] at h
    exact h
  · intro j m hj hjm
    have h := hfirst j m hj hjm
    rw [hr.1, hr.2, (hfit' m (List.getElem?_mem hjm)).1,
      (hfit' m (List.getElem?_mem hjm)).2] at h
    exact h

/-- C24 (amended), at a concrete input: of two modes `640x480` of equal
colour depth sum and of `800x600`, with `640x480` desired. -/
theorem chooseVideoMode_tie_break_witness :
    ([⟨800, 600, 8, 8, 8⟩, ⟨640, 480, 8, 8, 8⟩, ⟨640, 480, 6, 9, 9⟩] : List GLFWvidmode) ≠ [] ∧
    (∀ m ∈ [(⟨800, 600, 8, 8, 8⟩ : GLFWvidmode), ⟨640, 480, 8, 8, 8⟩, ⟨640, 480, 6, 9, 9⟩],
      InRange32 (colorDepth m - colorDepth ⟨640, 480, 8, 8, 8⟩) ∧
      InRange32 (sizeDiff ⟨640, 480, 8, 8, 8⟩ m)) ∧
    ∃ k r cache,
      (_glfwChooseVideoMode (exampleMonitor 1 "X")
        (some [⟨800, 600, 8, 8, 8⟩, ⟨640, 480, 8, 8, 8⟩, ⟨640, 480, 6, 9, 9⟩])
        ⟨640, 480, 8, 8, 8⟩).1 = some (k, r) ∧
      (_glfwChooseVideoMode (exampleMonitor 1 "X")
        (some [⟨800, 600, 8, 8, 8⟩, ⟨640, 480, 8, 8, 8⟩, ⟨640, 480, 6, 9, 9⟩])
        ⟨640, 480, 8, 8, 8⟩).2.modes = some cache ∧
      cache[k]? = some r ∧
      (∀ m ∈ cache, colorDiff ⟨640, 480, 8, 8, 8⟩ r < colorDiff ⟨640, 480, 8, 8, 8⟩ m ∨
        (colorDiff ⟨640, 480, 8, 8, 8⟩ r = colorDiff ⟨640, 480, 8, 8, 8⟩ m ∧
          sizeDiff ⟨640, 480, 8, 8, 8⟩ r ≤ sizeDiff ⟨640, 480, 8, 8, 8⟩ m)) ∧
      ∀ (j : Nat) (m : GLFWvidmode), j < k → cache[j]? = some m →
        ¬ (colorDiff ⟨640, 480, 8, 8, 8⟩ m = colorDiff ⟨640, 480, 8, 8, 8⟩ r ∧
          sizeDiff ⟨640, 480, 8, 8, 8⟩ m = sizeDiff ⟨640, 480, 8, 8, 8⟩ r) :=
  ⟨by decide, by decide,
    chooseVideoMode_tie_break (exampleMonitor 1 "X")
      [⟨800, 600, 8, 8, 8⟩, ⟨640, 480, 8, 8, 8⟩, ⟨640, 480, 6, 9, 9⟩]
      ⟨640, 480, 8, 8, 8⟩ (by decide) (by decide)⟩

/-- C29 (as stated) fails: the discovered list `[65537x1, 1x1]` contains the
desired mode `65537x1` itself, but the sorted cache starts with `1x1`, whose
computed size difference `65536^2` wraps around to 0, so it is taken as an
exact match and returned although its width is not the desired one. -/
theorem chooseVideoMode_exact_match_counterexample :
    (⟨65537, 1, 8, 8, 8⟩ : GLFWvidmode) ∈
      [(⟨65537, 1, 8, 8, 8⟩ : GLFWvidmode), ⟨1, 1, 8, 8, 8⟩] ∧
    (_glfwChooseVideoMode (exampleMonitor 1 "X")
        (some [⟨65537, 1, 8, 8, 8⟩, ⟨1, 1, 8, 8, 8⟩]) ⟨65537, 1, 8, 8, 8⟩).1
      = some (0, ⟨1, 1, 8, 8, 8⟩) ∧
    (⟨1, 1, 8, 8, 8⟩ : GLFWvidmode).width ≠ (⟨65537, 1, 8, 8, 8⟩ : GLFWvidmode).width := by
  decide

/-- C29 (amended): for every monitor whose discovered mode list `M` contains
a mode with the same width, height and colour depth sum as the desired mode
`d`, and such that for each mode of `M` the exact colour depth difference and
the exact squared distance to `d` fit in a 32-bit signed int,
`_glfwChooseVideoMode` returns a mode whose width, height and colour depth sum
equal those of `d`. -/
theorem chooseVideoMode_exact_match (monitor : _GLFWmonitor) (M : List GLFWvidmode)
    (d x : GLFWvidmode) (hx : x ∈ M)
    (hw : x.width = d.width) (hh : x.height = d.height)
    (hdepth : colorDepth x = colorDepth d)
    (hfit : ∀ m ∈ M, InRange32 (colorDepth m - colorDepth d) ∧ InRange32 (sizeDiff d m)) :
    ∃ k r, (_glfwChooseVideoMode monitor (some M) d).1 = some (k, r) ∧ r ∈ M ∧
      r.width = d.width ∧ r.height = d.height ∧ colorDepth r = colorDepth d := by
  have hM : M ≠ [] := List.ne_nil_of_mem hx
  obtain ⟨_, k, r, hc, hk, _, _, hmin, _⟩ := chooseVideoMode_inv monitor M d hM
  have hperm := qsort_perm compareVideoModes M
  have hrM : r ∈ M := hperm.mem_iff.mp (List.getElem?_mem hk)
  have h := hmin x (hperm.mem_iff.mpr hx)
  rw [colorDiffOf_exact (hfit r hrM).1, colorDiffOf_exact (hfit x hx).1,
    sizeDiffOf_exact (hfit r hrM).2, sizeDiffOf_exact (hfit x hx).2] at h
  have hcx : colorDiff d x = 0 := by unfold colorDiff; rw [hdepth]; simp
  have hsx : sizeDiff d x = 0 := by unfold sizeDiff; rw [hw, hh]; simp
  have hcr0 : 0 ≤ colorDiff d r := by unfold colorDiff; exact abs_nonneg _
  have hw2 : 0 ≤ (r.width - d.width) ^ 2 := by positivity
  have hh2 : 0 ≤ (r.height - d.height) ^ 2 := by positivity
  rw [hcx, hsx] at h
  have hcr : colorDiff d r = 0 := by omega
  have hsr : sizeDiff d r ≤ 0 := by omega
  unfold sizeDiff at hsr
  have hw0 : (r.width - d.width) ^ 2 = 0 := by omega
  have hh0 : (r.height - d.height) ^ 2 = 0 := by omega
  refine ⟨k, r, hc, hrM, ?_, ?_, ?_⟩
  · have := pow_eq_zero_iff (two_ne_zero) |>.mp hw0
    omega
  · have := pow_eq_zero_iff (two_ne_zero) |>.mp hh0
    omega
  · unfold colorDiff at hcr
    have := abs_eq_zero.mp hcr
    omega

/-- C29 (amended), at a concrete input: the list `[800x600, 640x480]` with
`640x480` desired. -/
theorem chooseVideoMode_exact_match_witness :
    (⟨640, 480, 8, 8, 8⟩ : GLFWvidmode) ∈
      [(⟨800, 600, 8, 8, 8⟩ : GLFWvidmode), ⟨640, 480, 8, 8, 8⟩] ∧
    (∀ m ∈ [(⟨800, 600, 8, 8, 8⟩ : GLFWvidmode), ⟨640, 480, 8, 8, 8⟩],
      InRange32 (colorDepth m - colorDepth ⟨640, 480, 8, 8, 8⟩) ∧
      InRange32 (sizeDiff ⟨640, 480, 8, 8, 8⟩ m)) ∧
    ∃ k r, (_glfwChooseVideoMode (exampleMonitor 1 "X")
        (some [⟨800, 600, 8, 8, 8⟩, ⟨640, 480, 8, 8, 8⟩]) ⟨640, 480, 8, 8, 8⟩).1
          = some (k, r) ∧
      r ∈ [(⟨800, 600, 8, 8, 8⟩ : GLFWvidmode), ⟨640, 480, 8, 8, 8⟩] ∧
      r.width = (⟨640, 480, 8, 8, 8⟩ : GLFWvidmode).width ∧
      r.height = (⟨640, 480, 8, 8, 8⟩ : GLFWvidmode).height ∧
      colorDepth r = colorDepth ⟨640, 480, 8, 8, 8⟩ :=
  ⟨by decide, by decide,
    chooseVideoMode_exact_match (exampleMonitor 1 "X")
      [⟨800, 600, 8, 8, 8⟩, ⟨640, 480, 8, 8, 8⟩] ⟨640, 480, 8, 8, 8⟩ ⟨640, 480, 8, 8, 8⟩
      (by decide) rfl rfl rfl (by decide)⟩

/-! ## Ownership of the monitor objects across a reconciliation -/

theorem destroyMonitors_eq (reg : List (Option _GLFWmonitor)) :
    ∀ d : List Nat, _glfwDestroyMonitors reg d = d ++ (live reg).map (fun m => m.addr) := by
  induction reg with
  | nil => intro d; simp [_glfwDestroyMonitors, live]
  | cons x xs ih =>
    intro d
    have hstep : _glfwDestroyMonitors (x :: xs) d
        = _glfwDestroyMonitors xs (_glfwDestroyMonitor x d) := rfl
    rw [hstep, ih]
    cases x with
    | none => rw [live_cons_none]; rfl
    | some m =>
      rw [live_cons_some]
      simp [_glfwDestroyMonitor]

/-- The first loop destroys fresh monitors only. -/
theorem connectLoop_destroyed (c : Nat) (F : List _GLFWmonitor) :
    ∀ (st : ChangeState) (ms : List _GLFWmonitor) (st' : ChangeState),
      connectLoop (some c) F st = some (ms, st') →
      ∃ Dm : List _GLFWmonitor, Dm.Sublist F ∧
        st'.destroyed = st.destroyed ++ Dm.map (fun m => m.addr) := by
  induction F with
  | nil =>
    intro st ms st' h
    rw [connectLoop] at h
    simp only [Option.some.injEq, Prod.mk.injEq] at h
    exact ⟨[], List.Sublist.refl _, by rw [← h.2]; simp⟩
  | cons f rest ih =>
    intro st ms st' h
    cases hm : matchMonitor f.name st.registry with
    | none =>
      rw [connectLoop_cons_unmatched c f rest st hm, Option.map_eq_some'] at h
      obtain ⟨⟨ms0, s0⟩, hr, he⟩ := h
      simp only [Prod.mk.injEq] at he
      obtain ⟨Dm, hsub, hd⟩ := ih _ ms0 s0 hr
      exact ⟨Dm, hsub.cons f, by rw [← he.2, hd]⟩
    | some p =>
      obtain ⟨r, reg'⟩ := p
      rw [connectLoop_cons_matched (some c) f rest st r reg' hm, Option.map_eq_some'] at h
      obtain ⟨⟨ms0, s0⟩, hr, he⟩ := h
      simp only [Prod.mk.injEq] at he
      obtain ⟨Dm, hsub, hd⟩ := ih _ ms0 s0 hr
      refine ⟨f :: Dm, hsub.cons₂ f, ?_⟩
      rw [← he.2, hd]
      simp [_glfwDestroyMonitor]

/-- The first loop neither loses nor duplicates a monitor object: the slots
of the new array, the destroyed objects and the old entries still in place
are, up to order, the fresh monitors, the objects destroyed before and the
old entries in place before. -/
theorem connectLoop_perm (c : Nat) (F : List _GLFWmonitor) :
    ∀ (st : ChangeState) (ms : List _GLFWmonitor) (st' : ChangeState),
      connectLoop (some c) F st = some (ms, st') →
      (ms.map (fun m => m.addr) ++ (st'.destroyed ++
          (live st'.registry).map (fun m => m.addr))).Perm
        (F.map (fun m => m.addr) ++ (st.destroyed ++
          (live st.registry).map (fun m => m.addr))) := by
  induction F with
  | nil =>
    intro st ms st' h
    rw [connectLoop] at h
    simp only [Option.some.injEq, Prod.mk.injEq] at h
    rw [← h.1, ← h.2]
  | cons f rest ih =>
    intro st ms st' h
    cases hm : matchMonitor f.name st.registry with
    | none =>
      rw [connectLoop_cons_unmatched c f rest st hm, Option.map_eq_some'] at h
      obtain ⟨⟨ms0, s0⟩, hr, he⟩ := h
      simp only [Prod.mk.injEq] at he
      have hp := ih _ ms0 s0 hr
      rw [← he.1, ← he.2]
      simp only [List.map_cons, List.cons_append]
      exact List.Perm.cons _ hp
    | some p =>
      obtain ⟨r, reg'⟩ := p
      obtain ⟨pre, post, e1, e2, _, _⟩ := matchMonitor_some f.name st.registry r reg' hm
      rw [connectLoop_cons_matched (some c) f rest st r reg' hm, Option.map_eq_some'] at h
      obtain ⟨⟨ms0, s0⟩, hr, he⟩ := h
      simp only [Prod.mk.injEq] at he
      have hp := ih _ ms0 s0 hr
      simp only [_glfwDestroyMonitor] at hp
      rw [e2] at hp
      rw [← he.1, ← he.2, e1]
      simp only [List.map_cons, List.cons_append, List.map_append]
      simp only [List.map_append] at hp
      refine (List.Perm.cons r.addr hp).trans ?_
      rw [← Multiset.coe_eq_coe]
      simp only [← Multiset.cons_coe, ← Multiset.coe_add, ← Multiset.singleton_add]
      simp only [← Multiset.coe_singleton, Multiset.coe_add, Multiset.coe_eq_coe]
      rw [← Multiset.coe_eq_coe]
      simp only [← Multiset.coe_add]
      ac_rfl

theorem occurrences_append (a : Nat) (l1 l2 : List Nat) :
    occurrences a (l1 ++ l2) = occurrences a l1 + occurrences a l2 := by
  simp [occurrences, List.filter_append]

theorem occurrences_eq_zero (a : Nat) (l : List Nat) (h : a ∉ l) : occurrences a l = 0 := by
  unfold occurrences
  rw [List.length_eq_zero, List.filter_eq_nil_iff]
  intro x hx
  simp only [decide_eq_true_eq]
  intro he
  exact h (he ▸ hx)

theorem occurrences_eq_one (a : Nat) (l : List Nat) (hn : l.Nodup) (h : a ∈ l) :
    occurrences a l = 1 := by
  induction l with
  | nil => simp at h
  | cons x xs ih =>
    rw [List.nodup_cons] at hn
    have hc : occurrences a (x :: xs) = occurrences a [x] + occurrences a xs :=
      occurrences_append a [x] xs
    rw [hc]
    by_cases hx : x = a
    · subst hx
      rw [occurrences_eq_zero x xs hn.1]
      simp [occurrences]
    · have hxs : a ∈ xs := by
        rcases List.mem_cons.mp h with h1 | h1
        · exact absurd h1.symm hx
        · exact h1
      rw [ih hn.2 hxs]
      simp [occurrences, hx]

/-- What a completed run of the first loop leaves behind. -/
theorem connectLoop_run (c : Nat) (F : List _GLFWmonitor) (st : ChangeState)
    (ms : List _GLFWmonitor) (st' : ChangeState)
    (h : connectLoop (some c) F st = some (ms, st')) :
    ms.length = F.length ∧ st'.windows = st.windows ∧
    (live st'.registry).Sublist (live st.registry) ∧
    (∀ r ∈ live st.registry, (∀ f ∈ F, f.name ≠ r.name) → r ∈ live st'.registry) ∧
    (∀ m ∈ ms, m ∈ F ∨ (m ∈ live st.registry ∧ ∃ f ∈ F, f.name = m.name)) := by
  obtain ⟨ms', st'', U, hrun, hlen, hwin, hsub, hkeep, _, _, _, hmem⟩ := connectLoop_spec c F st
  rw [h] at hrun
  simp only [Option.some.injEq, Prod.mk.injEq] at hrun
  obtain ⟨rfl, rfl⟩ := hrun
  exact ⟨hlen, hwin, hsub, hkeep, hmem⟩

/-- With unique names in the old array, an old entry whose name is reported
again is taken out of the old array by the first loop. -/
theorem connectLoop_consumes (c : Nat) (F : List _GLFWmonitor) :
    ∀ (st : ChangeState) (ms : List _GLFWmonitor) (st' : ChangeState),
      connectLoop (some c) F st = some (ms, st') →
      ((live st.registry).map (fun m => m.name)).Nodup →
      ∀ r ∈ live st.registry, (∃ f ∈ F, f.name = r.name) → r ∉ live st'.registry := by
  induction F with
  | nil =>
    intro st ms st' _ _ r _ hex
    obtain ⟨f, hf, _⟩ := hex
    simp at hf
  | cons f0 rest ih =>
    intro st ms st' h hn r hr hex
    obtain ⟨f, hf, hfr⟩ := hex
    cases hm : matchMonitor f0.name st.registry with
    | none =>
      rw [connectLoop_cons_unmatched c f0 rest st hm, Option.map_eq_some'] at h
      obtain ⟨⟨ms0, s0⟩, hrun, he⟩ := h
      simp only [Prod.mk.injEq] at he
      rw [← he.2]
      have hne := (matchMonitor_none_iff f0.name st.registry).mp hm r hr
      have hf' : f ∈ rest := by
        rcases List.mem_cons.mp hf with h1 | h1
        · rw [h1] at hfr
          exact absurd hfr.symm hne
        · exact h1
      exact ih _ ms0 s0 hrun hn r hr ⟨f, hf', hfr⟩
    | some p =>
      obtain ⟨r0, reg'⟩ := p
      obtain ⟨pre, post, e1, e2, _, hname⟩ := matchMonitor_some f0.name st.registry r0 reg' hm
      rw [connectLoop_cons_matched (some c) f0 rest st r0 reg' hm, Option.map_eq_some'] at h
      obtain ⟨⟨ms0, s0⟩, hrun, he⟩ := h
      simp only [Prod.mk.injEq] at he
      rw [← he.2]
      obtain ⟨_, _, hsub, _, _⟩ := connectLoop_run c rest _ ms0 s0 hrun
      have hsub' : (live s0.registry).Sublist (live reg') := hsub
      have hnd : (live st.registry).Nodup := List.Nodup.of_map _ hn
      have hn' : ((live reg').map (fun m => m.name)).Nodup := by
        rw [e2]
        rw [e1] at hn
        exact hn.sublist
          (List.Sublist.map _ (List.Sublist.append_left (List.sublist_cons_self r0 post) pre))
      have hr0 : r0 ∈ live st.registry := by rw [e1]; simp
      by_cases hrr : r = r0
      · rw [e1] at hnd
        have hout : r0 ∉ pre ++ post := (List.nodup_cons.mp (List.nodup_middle.mp hnd)).1
        intro hin
        rw [hrr] at hin
        exact hout (e2 ▸ hsub'.subset hin)
      · have hr' : r ∈ live reg' := by
          rw [e2]
          rw [e1] at hr
          simp only [List.mem_append, List.mem_cons] at hr ⊢
          rcases hr with h1 | h1 | h1
          · exact Or.inl h1
          · exact absurd h1 hrr
          · exact Or.inr h1
        have hf' : f ∈ rest := by
          rcases List.mem_cons.mp hf with h1 | h1
          · exfalso
            rw [h1] at hfr
            exact hrr (List.inj_on_of_nodup_map hn hr hr0 (by rw [← hfr, hname]))
          · exact h1
        exact ih _ ms0 s0 hrun hn' r hr' ⟨f, hf', hfr⟩

/-- With unique names in the old array, the fresh monitor in whose slot an
old entry ends up is the first fresh monitor of that name. -/
theorem connectLoop_match_is_first (c : Nat) (F : List _GLFWmonitor) :
    ∀ (st : ChangeState) (ms : List _GLFWmonitor) (st' : ChangeState),
      connectLoop (some c) F st = some (ms, st') →
      ((live st.registry).map (fun m => m.name)).Nodup →
      ∀ (i : Nat) (r : _GLFWmonitor), ms[i]? = some r → r ∉ F →
        ∀ (j : Nat) (f : _GLFWmonitor), j < i → F[j]? = some f → f.name ≠ r.name := by
  induction F with
  | nil => intro st ms st' _ _ i r _ _ j f _ hf; simp at hf
  | cons f0 rest ih =>
    intro st ms st' h hn i r hi hrF j f hji hf
    have hrrest : r ∉ rest := fun hc => hrF (List.mem_cons_of_mem _ hc)
    cases hm : matchMonitor f0.name st.registry with
    | none =>
      rw [connectLoop_cons_unmatched c f0 rest st hm, Option.map_eq_some'] at h
      obtain ⟨⟨ms0, s0⟩, hrun, he⟩ := h
      simp only [Prod.mk.injEq] at he
      rw [← he.1] at hi
      cases i with
      | zero => omega
      | succ k =>
        rw [List.getElem?_cons_succ] at hi
        obtain ⟨_, _, _, _, hmem⟩ := connectLoop_run c rest _ ms0 s0 hrun
        cases j with
        | zero =>
          rw [List.getElem?_cons_zero] at hf
          have hfe : f0 = f := Option.some.inj hf
          rw [← hfe]
          rcases hmem r (List.getElem?_mem hi) with h1 | h1
          · exact absurd h1 hrrest
          · exact fun hc => (matchMonitor_none_iff f0.name st.registry).mp hm r h1.1 hc.symm
        | succ j0 =>
          rw [List.getElem?_cons_succ] at hf
          exact ih _ ms0 s0 hrun hn k r hi hrrest j0 f (by omega) hf
    | some p =>
      obtain ⟨r0, reg'⟩ := p
      obtain ⟨pre, post, e1, e2, _, hname⟩ := matchMonitor_some f0.name st.registry r0 reg' hm
      rw [connectLoop_cons_matched (some c) f0 rest st r0 reg' hm, Option.map_eq_some'] at h
      obtain ⟨⟨ms0, s0⟩, hrun, he⟩ := h
      simp only [Prod.mk.injEq] at he
      rw [← he.1] at hi
      have hnd : (live st.registry).Nodup := List.Nodup.of_map _ hn
      have hn' : ((live reg').map (fun m => m.name)).Nodup := by
        rw [e2]
        rw [e1] at hn
        exact hn.sublist
          (List.Sublist.map _ (List.Sublist.append_left (List.sublist_cons_self r0 post) pre))
      have hr0 : r0 ∈ live st.registry := by rw [e1]; simp
      cases i with
      | zero => omega
      | succ k =>
        rw [List.getElem?_cons_succ] at hi
        obtain ⟨_, _, _, _, hmem⟩ := connectLoop_run c rest _ ms0 s0 hrun
        cases j with
        | zero =>
          rw [List.getElem?_cons_zero] at hf
          have hfe : f0 = f := Option.some.inj hf
          rw [← hfe]
          rcases hmem r (List.getElem?_mem hi) with h1 | h1
          · exact absurd h1 hrrest
          · have hr' : r ∈ live reg' := h1.1
            intro hc
            have hr1 : r ∈ live st.registry := by
              rw [e1]
              rw [e2] at hr'
              simp only [List.mem_append, List.mem_cons] at hr' ⊢
              rcases hr' with h2 | h2
              · exact Or.inl h2
              · exact Or.inr (Or.inr h2)
            have heq : r = r0 := List.inj_on_of_nodup_map hn hr1 hr0 (by rw [← hc, hname])
            rw [e1] at hnd
            have hout : r0 ∉ pre ++ post := (List.nodup_cons.mp (List.nodup_middle.mp hnd)).1
            rw [heq, e2] at hr'
            exact hout hr'
        | succ j0 =>
          rw [List.getElem?_cons_succ] at hf
          exact ih _ ms0 s0 hrun hn' k r hi hrrest j0 f (by omega) hf

/-- A completed run of the first loop without a callback is the run with any
callback: no callback call was made. -/
theorem connectLoop_none_some (c : Nat) (F : List _GLFWmonitor) :
    ∀ (st : ChangeState) (p : List _GLFWmonitor × ChangeState),
      connectLoop none F st = some p → connectLoop (some c) F st = some p := by
  induction F with
  | nil =>
    intro st p h
    rw [connectLoop] at h ⊢
    exact h
  | cons f rest ih =>
    intro st p h
    cases hm : matchMonitor f.name st.registry with
    | none =>
      rw [connectLoop_cons_unmatched_none f rest st hm] at h
      exact absurd h (by simp)
    | some q =>
      obtain ⟨r, reg'⟩ := q
      rw [connectLoop_cons_matched none f rest st r reg' hm, Option.map_eq_some'] at h
      obtain ⟨p0, hrun, he⟩ := h
      rw [connectLoop_cons_matched (some c) f rest st r reg' hm, ih _ p0 hrun]
      simp [he]

theorem disconnectLoop_none_some (c : Nat) (reg : List (Option _GLFWmonitor)) :
    ∀ (st st' : ChangeState), disconnectLoop none reg st = some st' →
      disconnectLoop (some c) reg st = some st' := by
  induction reg with
  | nil =>
    intro st st' h
    rw [disconnectLoop] at h ⊢
    exact h
  | cons x xs ih =>
    intro st st' h
    cases x with
    | none =>
      rw [disconnectLoop] at h ⊢
      exact ih st st' h
    | some r =>
      rw [disconnectLoop] at h
      simp [callMonitorCallback] at h

/-- A call of `_glfwInputMonitorChange` that completes without a callback
leaves what the same call with a callback registered leaves. -/
theorem inputMonitorChange_none_some (lib : _GLFWlibrary) (fresh : List _GLFWmonitor)
    (res : MonitorChange) (c : Nat) (hcb : lib.monitorCallback = none)
    (hres : _glfwInputMonitorChange lib fresh = some res) :
    _glfwInputMonitorChange { lib with monitorCallback := some c } fresh =
      some { res with lib := { res.lib with monitorCallback := some c } } := by
  unfold _glfwInputMonitorChange at hres ⊢
  rw [hcb] at hres
  cases h1 : connectLoop none fresh (changeStart lib) with
  | none => rw [h1] at hres; simp at hres
  | some p =>
    obtain ⟨ms, st1⟩ := p
    rw [h1] at hres
    simp only at hres
    cases h2 : disconnectLoop none st1.registry st1 with
    | none => rw [h2] at hres; simp at hres
    | some st2 =>
      rw [h2] at hres
      simp only [Option.some.injEq] at hres
      have h1' : connectLoop (some c) fresh (changeStart { lib with monitorCallback := some c })
          = some (ms, st1) := connectLoop_none_some c fresh (changeStart lib) (ms, st1) h1
      simp only
      rw [h1']
      simp only
      rw [disconnectLoop_none_some c st1.registry st1 st2 h2]
      simp only [Option.some.injEq]
      rw [← hres]

/-- The result of `_glfwInputMonitorChange` in terms of the run of its first
loop, when a callback is registered. -/
theorem inputMonitorChange_eq (lib : _GLFWlibrary) (fresh : List _GLFWmonitor) (c : Nat)
    (ms : List _GLFWmonitor) (st1 : ChangeState)
    (hcb : lib.monitorCallback = some c)
    (hrun : connectLoop (some c) fresh (changeStart lib) = some (ms, st1)) :
    _glfwInputMonitorChange lib fresh = some
      { lib := { lib with
                   windowListHead := lib.windowListHead.map (fun w =>
                     if w.monitor ∈ (live st1.registry).map (fun r => some r.addr)
                     then { w with monitor := none } else w)
                   monitors := ms
                   monitorCount := (fresh.length : Int) }
        events := st1.events ++
          (live st1.registry).map (fun r => (r.addr, MonitorEvent.GLFW_DISCONNECTED))
        destroyed := st1.destroyed ++ (live st1.registry).map (fun m => m.addr) } := by
  obtain ⟨_, hwin, _, _, _⟩ := connectLoop_run c fresh _ ms st1 hrun
  have hwin' : st1.windows = lib.windowListHead := hwin
  unfold _glfwInputMonitorChange
  rw [hcb, hrun]
  simp only
  rw [disconnectLoop_spec]
  simp only [hwin', clearWindows_foldl, destroyMonitors_eq]

/-- Ownership after the first loop of a whole reconciliation: the slots of
the new array, the objects destroyed in the loop and the old entries left
over are pairwise different objects, and they are the objects of the old
array and of the fresh list. -/
theorem inputMonitorChange_ownership (lib : _GLFWlibrary) (fresh : List _GLFWmonitor)
    (c : Nat) (ms : List _GLFWmonitor) (st1 : ChangeState)
    (hcount : lib.monitorCount = (lib.monitors.length : Int))
    (haddr : ((lib.monitors ++ fresh).map (fun m => m.addr)).Nodup)
    (hrun : connectLoop (some c) fresh (changeStart lib) = some (ms, st1)) :
    (ms.map (fun m => m.addr) ++ (st1.destroyed ++
        (live st1.registry).map (fun m => m.addr))).Nodup ∧
    (∀ a, a ∈ ms.map (fun m => m.addr) ++ (st1.destroyed ++
        (live st1.registry).map (fun m => m.addr)) ↔
      a ∈ (lib.monitors ++ fresh).map (fun m => m.addr)) ∧
    (∀ a ∈ st1.destroyed, a ∈ fresh.map (fun m => m.addr)) := by
  have hp := connectLoop_perm c fresh (changeStart lib) ms st1 hrun
  rw [live_changeStart lib hcount] at hp
  have hd0 : (changeStart lib).destroyed = [] := rfl
  rw [hd0, List.nil_append] at hp
  have hp2 : (fresh.map (fun m => m.addr) ++ lib.monitors.map (fun m => m.addr)).Perm
      ((lib.monitors ++ fresh).map (fun m => m.addr)) := by
    rw [List.map_append]
    exact List.perm_append_comm
  have hp3 := hp.trans hp2
  refine ⟨hp3.nodup_iff.mpr haddr, fun a => hp3.mem_iff, ?_⟩
  obtain ⟨Dm, hsub, hd⟩ := connectLoop_destroyed c fresh (changeStart lib) ms st1 hrun
  rw [hd0, List.nil_append] at hd
  intro a ha
  rw [hd] at ha
  exact (List.Sublist.map _ hsub).subset ha

/-- The slot of a reused monitor, when a callback is registered: if slot `i`
of the new array does not hold the fresh object `fresh[i]`, it holds an old
object of the same name, and the fresh object is in no slot and has been
destroyed. -/
theorem inputMonitorChange_reused_slot (lib : _GLFWlibrary) (fresh : List _GLFWmonitor)
    (c : Nat) (res : MonitorChange) (i : Nat) (f m : _GLFWmonitor)
    (hcb : lib.monitorCallback = some c)
    (hres : _glfwInputMonitorChange lib fresh = some res)
    (hcount : lib.monitorCount = (lib.monitors.length : Int))
    (haddr : ((lib.monitors ++ fresh).map (fun m => m.addr)).Nodup)
    (hf : fresh[i]? = some f) (hm : res.lib.monitors[i]? = some m)
    (hreuse : m.addr ≠ f.addr) :
    m.name = f.name ∧ m ∈ lib.monitors ∧
    f.addr ∉ res.lib.monitors.map (fun x => x.addr) ∧ f.addr ∈ res.destroyed := by
  obtain ⟨ms, st1, U, hrun, _⟩ := connectLoop_spec c fresh (changeStart lib)
  have hres' := inputMonitorChange_eq lib fresh c ms st1 hcb hrun
  rw [hres'] at hres
  have hres2 := Option.some.inj hres
  rw [← hres2] at hm ⊢
  simp only at hm ⊢
  obtain ⟨hRn, hFn, hdisj⟩ := addr_nodup_split lib.monitors fresh haddr
  obtain ⟨_, hiff, _⟩ := inputMonitorChange_ownership lib fresh c ms st1 hcount haddr hrun
  obtain ⟨hlen, _, _, _, hmem⟩ := connectLoop_run c fresh _ ms st1 hrun
  rw [live_changeStart lib hcount] at hmem
  have hnames := connectLoop_names c fresh (changeStart lib) ms st1 hrun
  rw [live_changeStart lib hcount] at hnames
  have hfF : f ∈ fresh := List.getElem?_mem hf
  obtain ⟨m', hm', hname, hor⟩ := hnames i f hf
  rw [hm] at hm'
  have hmm : m = m' := Option.some.inj hm'
  rw [← hmm] at hname hor
  have hold : m ∈ lib.monitors := by
    rcases hor with h1 | h1
    · exact absurd (by rw [h1]) hreuse
    · exact h1
  have hnot : f.addr ∉ ms.map (fun x => x.addr) := by
    intro hin
    obtain ⟨m2, hm2, he2⟩ := List.mem_map.mp hin
    have hm2F : m2 ∈ fresh := by
      rcases hmem m2 hm2 with h1 | h1
      · exact h1
      · exact absurd he2 (hdisj m2 h1.1 f hfF)
    have hm2f : m2 = f := List.inj_on_of_nodup_map hFn hm2F hfF he2
    rw [hm2f] at hm2
    obtain ⟨k, hk, hkf⟩ := List.getElem_of_mem hm2
    have hk' : k < fresh.length := by omega
    have hfk : fresh[k]? = some (fresh.get ⟨k, hk'⟩) := List.getElem?_eq_getElem hk'
    obtain ⟨m3, hm3, _, hor3⟩ := hnames k _ hfk
    have hmsk : ms[k]? = some f := by rw [List.getElem?_eq_getElem hk, hkf]
    rw [hmsk] at hm3
    have hfm3 : f = m3 := Option.some.inj hm3
    rw [← hfm3] at hor3
    have hfk2 : fresh[k]? = some f := by
      rcases hor3 with h1 | h1
      · rw [hfk, ← h1]
      · exact absurd rfl (hdisj f h1 f hfF)
    have hki : k = i := index_unique_of_nodup_map (fun m => m.addr) fresh hFn k i f f hfk2 hf rfl
    rw [hki, hm] at hmsk
    exact hreuse (by rw [Option.some.inj hmsk])
  refine ⟨hname, hold, hnot, ?_⟩
  have hall : f.addr ∈ (lib.monitors ++ fresh).map (fun m => m.addr) :=
    List.mem_map_of_mem _ (List.mem_append_right _ hfF)
  rcases List.mem_append.mp ((hiff f.addr).mpr hall) with h1 | h1
  · exact absurd h1 hnot
  · exact h1

/-! ## Claims on ownership, window references and reused monitors -/

/-- C22 fails on the code: a registry `[X, Z]` and a fresh list `[Z', Y]`,
each with unique names and exactly one monitor flagged primary ("X" before,
"Z" now), with a callback registered. The old object of "Z" is reused with
its old flag, the fresh object carrying the primary flag is destroyed without
its properties being transferred, and the registry is left with no primary
monitor at all, so that `glfwGetPrimaryMonitor` reports a platform error. -/
theorem inputMonitorChange_primary_lost :
    examplePrimaryXLib.monitorCallback = some 7 ∧
    examplePrimaryXLib.monitorCount = (examplePrimaryXLib.monitors.length : Int) ∧
    (examplePrimaryXLib.monitors.map (fun m => m.name)).Nodup ∧
    ([{ exampleMonitor 10 "Z" with primary := true }, exampleMonitor 11 "Y"].map
      (fun m => m.name)).Nodup ∧
    primaryCount examplePrimaryXLib.monitors = 1 ∧
    primaryCount [{ exampleMonitor 10 "Z" with primary := true }, exampleMonitor 11 "Y"] = 1 ∧
    (_glfwInputMonitorChange examplePrimaryXLib
      [{ exampleMonitor 10 "Z" with primary := true }, exampleMonitor 11 "Y"]).map
        (fun res => res.lib.monitors) = some [exampleMonitor 2 "Z", exampleMonitor 11 "Y"] ∧
    (_glfwInputMonitorChange examplePrimaryXLib
      [{ exampleMonitor 10 "Z" with primary := true }, exampleMonitor 11 "Y"]).map
        (fun res => primaryCount res.lib.monitors) = some 0 ∧
    (_glfwInputMonitorChange examplePrimaryXLib
      [{ exampleMonitor 10 "Z" with primary := true }, exampleMonitor 11 "Y"]).map
        (fun res => glfwGetPrimaryMonitor true res.lib) =
      some (none, some ErrorCode.GLFW_PLATFORM_ERROR) := by
  decide

/-- C23 (as stated) fails: with a callback registered, the registry `[X, X]`
(two monitors named "X", at the addresses 1 and 2), a window on the second of
them and the fresh list `[X']`, the name of the window's monitor still appears
in the fresh list, but only the first "X" is reused: the second is reported
disconnected and the window's monitor reference is set to `NULL`. With the
callback unset the same call does not complete at all. -/
theorem window_references_survive_counterexample :
    exampleTwinLib.monitorCallback = some 7 ∧
    exampleTwinLib.windowListHead[0]? = some ({ width := 800, height := 600, monitor := some 2 }) ∧
    exampleMonitor 2 "X" ∈ exampleTwinLib.monitors ∧
    exampleMonitor 10 "X" ∈ [exampleMonitor 10 "X"] ∧
    (exampleMonitor 10 "X").name = (exampleMonitor 2 "X").name ∧
    (_glfwInputMonitorChange exampleTwinLib [exampleMonitor 10 "X"]).map
      (fun res => res.lib.windowListHead[0]?) =
        some (some ({ width := 800, height := 600, monitor := none })) ∧
    _glfwInputMonitorChange { exampleTwinLib with monitorCallback := none }
      [exampleMonitor 10 "X"] = none := by
  decide

/-- C23 (amended): when a monitor callback is registered and the names within
the registry are unique (the registry being well formed: its count is the
length of its array, and the old and fresh monitor objects have pairwise
different addresses), for every fresh list and window list
`_glfwInputMonitorChange` completes, the window list keeps its length, every
window whose monitor reference is none or is a registry monitor whose name
appears in the fresh list is left exactly as it was, and a window whose
monitor reference has changed referred to a registry monitor whose name is not
in the fresh list and now has the reference none. -/
theorem window_references_survive (lib : _GLFWlibrary) (fresh : List _GLFWmonitor) (c : Nat)
    (hcb : lib.monitorCallback = some c)
    (hcount : lib.monitorCount = (lib.monitors.length : Int))
    (haddr : ((lib.monitors ++ fresh).map (fun m => m.addr)).Nodup)
    (hnames : (lib.monitors.map (fun m => m.name)).Nodup) :
    ∃ res, _glfwInputMonitorChange lib fresh = some res ∧
      res.lib.windowListHead.length = lib.windowListHead.length ∧
      ∀ (k : Nat) (w w' : _GLFWwindow),
        lib.windowListHead[k]? = some w → res.lib.windowListHead[k]? = some w' →
        ((w.monitor = none ∨ ∃ r ∈ lib.monitors, w.monitor = some r.addr ∧
            ∃ f ∈ fresh, f.name = r.name) → w' = w) ∧
        (w'.monitor ≠ w.monitor → w'.monitor = none ∧
          ∃ r ∈ lib.monitors, w.monitor = some r.addr ∧ ∀ f ∈ fresh, f.name ≠ r.name) := by
  obtain ⟨ms, st1, U, hrun, _⟩ := connectLoop_spec c fresh (changeStart lib)
  have hres := inputMonitorChange_eq lib fresh c ms st1 hcb hrun
  obtain ⟨hRn, _, _⟩ := addr_nodup_split lib.monitors fresh haddr
  obtain ⟨_, _, hsub, _, _⟩ := connectLoop_run c fresh _ ms st1 hrun
  rw [live_changeStart lib hcount] at hsub
  have hcons := connectLoop_consumes c fresh (changeStart lib) ms st1 hrun
  rw [live_changeStart lib hcount] at hcons
  have hdead : ∀ r ∈ lib.monitors, (∃ f ∈ fresh, f.name = r.name) →
      some r.addr ∉ (live st1.registry).map (fun r => some r.addr) := by
    intro r hr hex hin
    obtain ⟨r', hr', he⟩ := List.mem_map.mp hin
    have he' : r'.addr = r.addr := Option.some.inj he
    have hrr : r' = r := List.inj_on_of_nodup_map hRn (hsub.subset hr') hr he'
    rw [hrr] at hr'
    exact hcons hnames r hr hex hr'
  refine ⟨_, hres, by simp, ?_⟩
  intro k w w' hw hw'
  simp only [List.getElem?_map, hw, Option.map_some', Option.some.injEq] at hw'
  constructor
  · intro hkeep
    have hnot : w.monitor ∉ (live st1.registry).map (fun r => some r.addr) := by
      rcases hkeep with h1 | ⟨r, hr, h1, hex⟩
      · rw [h1]; simp
      · rw [h1]; exact hdead r hr hex
    rw [if_neg hnot] at hw'
    exact hw'.symm
  · intro hne
    by_cases hc : w.monitor ∈ (live st1.registry).map (fun r => some r.addr)
    · rw [if_pos hc] at hw'
      obtain ⟨r, hr, he⟩ := List.mem_map.mp hc
      refine ⟨by rw [← hw'], r, hsub.subset hr, he.symm, ?_⟩
      intro f hf hfn
      exact hdead r (hsub.subset hr) ⟨f, hf, hfn⟩ (List.mem_map_of_mem _ hr)
    · rw [if_neg hc] at hw'
      exact absurd (by rw [hw']) hne

/-- C23 (amended), on the worked example: registry `[X, Z]`, fresh list
`[X', Y]`, windows on "Z", on "X" and on no monitor. -/
theorem window_references_survive_witness :
    exampleLib.monitorCallback = some 7 ∧
    exampleLib.monitorCount = (exampleLib.monitors.length : Int) ∧
    ((exampleLib.monitors ++ [exampleMonitor 10 "X", exampleMonitor 11 "Y"]).map
      (fun m => m.addr)).Nodup ∧
    (exampleLib.monitors.map (fun m => m.name)).Nodup ∧
    ∃ res, _glfwInputMonitorChange exampleLib [exampleMonitor 10 "X", exampleMonitor 11 "Y"]
        = some res ∧
      res.lib.windowListHead.length = exampleLib.windowListHead.length ∧
      ∀ (k : Nat) (w w' : _GLFWwindow),
        exampleLib.windowListHead[k]? = some w → res.lib.windowListHead[k]? = some w' →
        ((w.monitor = none ∨ ∃ r ∈ exampleLib.monitors, w.monitor = some r.addr ∧
            ∃ f ∈ [exampleMonitor 10 "X", exampleMonitor 11 "Y"], f.name = r.name) → w' = w) ∧
        (w'.monitor ≠ w.monitor → w'.monitor = none ∧
          ∃ r ∈ exampleLib.monitors, w.monitor = some r.addr ∧
            ∀ f ∈ [exampleMonitor 10 "X", exampleMonitor 11 "Y"], f.name ≠ r.name) :=
  ⟨by decide, by decide, by decide, by decide,
    window_references_survive exampleLib [exampleMonitor 10 "X", exampleMonitor 11 "Y"] 7
      (by decide) (by decide) (by decide) (by decide)⟩

/-- C26 (as stated) fails: with the monitor callback unset, the registry
`[X, Z]` and the fresh list `[Z', Z'']` with a repeated name, the second "Z"
finds the old "Z" consumed and is newly connected, the callback call goes
through the `NULL` pointer and `_glfwInputMonitorChange` does not complete:
the fresh objects are neither in the registry nor destroyed. And with a
callback registered, the registry `[X, X]` and the fresh list `[X', X'']`,
the second old "X" ends up in slot 1, matched by the second fresh monitor of
its name, not by the first one. -/
theorem consumed_once_ownership_counterexample :
    _glfwInputMonitorChange exampleLibNoCallback
      [exampleMonitor 10 "Z", exampleMonitor 11 "Z"] = none ∧
    exampleTwinLib.monitorCallback = some 7 ∧
    exampleTwinLib.monitors[1]? = some (exampleMonitor 2 "X") ∧
    (_glfwInputMonitorChange exampleTwinLib
      [exampleMonitor 10 "X", exampleMonitor 11 "X"]).map (fun res => res.lib.monitors[1]?)
        = some (some (exampleMonitor 2 "X")) ∧
    [exampleMonitor 10 "X", exampleMonitor 11 "X"][0]? = some (exampleMonitor 10 "X") ∧
    (exampleMonitor 10 "X").name = (exampleMonitor 2 "X").name := by
  decide

/-- C26 (amended): when a monitor callback is registered (and the registry is
well formed: its count is the length of its array, and the old and fresh
monitor objects have pairwise different addresses), for every registry `R`
and fresh list `F`, also with repeated names, `_glfwInputMonitorChange`
completes and afterwards every monitor object from `R` and `F` is either in
the new registry exactly once or has been destroyed exactly once, never both
and never neither; an old registry entry is in at most one slot of the new
registry, the fresh monitor of that slot has its name, and when the names
within `R` are unique no earlier fresh monitor has that name. -/
theorem consumed_once_ownership (lib : _GLFWlibrary) (fresh : List _GLFWmonitor) (c : Nat)
    (hcb : lib.monitorCallback = some c)
    (hcount : lib.monitorCount = (lib.monitors.length : Int))
    (haddr : ((lib.monitors ++ fresh).map (fun m => m.addr)).Nodup) :
    ∃ res, _glfwInputMonitorChange lib fresh = some res ∧
      (∀ m ∈ lib.monitors ++ fresh,
        occurrences m.addr (res.lib.monitors.map (fun x => x.addr)) +
          occurrences m.addr res.destroyed = 1) ∧
      (∀ (i : Nat) (r : _GLFWmonitor), r ∈ lib.monitors → res.lib.monitors[i]? = some r →
        (∀ j : Nat, res.lib.monitors[j]? = some r → j = i) ∧
        ∃ f, fresh[i]? = some f ∧ f.name = r.name ∧
          ((lib.monitors.map (fun m => m.name)).Nodup →
            ∀ (j : Nat) (g : _GLFWmonitor), j < i → fresh[j]? = some g → g.name ≠ r.name)) := by
  obtain ⟨ms, st1, U, hrun, _⟩ := connectLoop_spec c fresh (changeStart lib)
  have hres := inputMonitorChange_eq lib fresh c ms st1 hcb hrun
  obtain ⟨_, _, hdisj⟩ := addr_nodup_split lib.monitors fresh haddr
  obtain ⟨hnd, hiff, _⟩ := inputMonitorChange_ownership lib fresh c ms st1 hcount haddr hrun
  obtain ⟨hlen, _, _, _, _⟩ := connectLoop_run c fresh _ ms st1 hrun
  have hnames := connectLoop_names c fresh (changeStart lib) ms st1 hrun
  have hfirst := connectLoop_match_is_first c fresh (changeStart lib) ms st1 hrun
  rw [live_changeStart lib hcount] at hfirst
  refine ⟨_, hres, ?_, ?_⟩
  · intro m hm
    simp only
    rw [← occurrences_append]
    exact occurrences_eq_one _ _ hnd ((hiff m.addr).mpr (List.mem_map_of_mem _ hm))
  · intro i r hr hi
    simp only at hi ⊢
    have hmsn : (ms.map (fun m => m.addr)).Nodup := (List.nodup_append.mp hnd).1
    refine ⟨fun j hj => index_unique_of_nodup_map (fun m => m.addr) ms hmsn j i r r hj hi rfl, ?_⟩
    have hi1 : i < ms.length := (List.getElem?_eq_some_iff.mp hi).1
    have hi2 : i < fresh.length := by omega
    have hfi : fresh[i]? = some (fresh.get ⟨i, hi2⟩) := List.getElem?_eq_getElem hi2
    obtain ⟨m', hm', hname, _⟩ := hnames i _ hfi
    rw [hi] at hm'
    have hrm : r = m' := Option.some.inj hm'
    refine ⟨fresh.get ⟨i, hi2⟩, hfi, by rw [hrm, hname], ?_⟩
    intro hn j g hj hg
    have hrF : r ∉ fresh := fun hc => hdisj r hr r hc rfl
    exact hfirst hn i r hi hrF j g hj hg

/-- C26 (amended), on the worked example: registry `[X, Z]` and the fresh
list `[Z', Y, Z'']` with a repeated name. -/
theorem consumed_once_ownership_witness :
    exampleLib.monitorCallback = some 7 ∧
    exampleLib.monitorCount = (exampleLib.monitors.length : Int) ∧
    ((exampleLib.monitors ++
      [exampleMonitor 10 "Z", exampleMonitor 11 "Y", exampleMonitor 12 "Z"]).map
        (fun m => m.addr)).Nodup ∧
    ∃ res, _glfwInputMonitorChange exampleLib
        [exampleMonitor 10 "Z", exampleMonitor 11 "Y", exampleMonitor 12 "Z"] = some res ∧
      (∀ m ∈ exampleLib.monitors ++
          [exampleMonitor 10 "Z", exampleMonitor 11 "Y", exampleMonitor 12 "Z"],
        occurrences m.addr (res.lib.monitors.map (fun x => x.addr)) +
          occurrences m.addr res.destroyed = 1) ∧
      (∀ (i : Nat) (r : _GLFWmonitor), r ∈ exampleLib.monitors →
        res.lib.monitors[i]? = some r →
        (∀ j : Nat, res.lib.monitors[j]? = some r → j = i) ∧
        ∃ f, [exampleMonitor 10 "Z", exampleMonitor 11 "Y", exampleMonitor 12 "Z"][i]? = some f ∧
          f.name = r.name ∧
          ((exampleLib.monitors.map (fun m => m.name)).Nodup →
            ∀ (j : Nat) (g : _GLFWmonitor), j < i →
              [exampleMonitor 10 "Z", exampleMonitor 11 "Y", exampleMonitor 12 "Z"][j]? = some g →
              g.name ≠ r.name)) :=
  ⟨by decide, by decide, by decide,
    consumed_once_ownership exampleLib
      [exampleMonitor 10 "Z", exampleMonitor 11 "Y", exampleMonitor 12 "Z"] 7
      (by decide) (by decide) (by decide)⟩

/-- C28 fails on the code: with the monitor callback unset, the registry
`[X, Z]`, windows on "Z", on "X" and on no monitor, and the fresh list `[Z']`,
the first loop reuses the old "Z" and destroys "Z'"; the old "X" is no longer
reported, the disconnected notification goes through the `NULL` callback
pointer and `_glfwInputMonitorChange` does not complete: the window on "X" is
not reset and the new array never becomes the registry. With a callback
registered the same call resets the window on "X", leaves the registry `[Z]`
and destroys "Z'" and "X". -/
theorem window_references_valid_unset_callback :
    exampleLibNoCallback.monitorCallback = none ∧
    (∀ w ∈ exampleLibNoCallback.windowListHead,
      w.monitor = none ∨ ∃ r ∈ exampleLibNoCallback.monitors, w.monitor = some r.addr) ∧
    connectLoop none [exampleMonitor 10 "Z"] (changeStart exampleLibNoCallback) =
      some ([exampleMonitor 2 "Z"],
        { registry := [some (exampleMonitor 1 "X"), none]
          windows := exampleLibNoCallback.windowListHead
          events := []
          destroyed := [10] }) ∧
    disconnectLoop none [some (exampleMonitor 1 "X"), none]
      { registry := [some (exampleMonitor 1 "X"), none]
        windows := exampleLibNoCallback.windowListHead
        events := []
        destroyed := [10] } = none ∧
    _glfwInputMonitorChange exampleLibNoCallback [exampleMonitor 10 "Z"] = none ∧
    (_glfwInputMonitorChange exampleLib [exampleMonitor 10 "Z"]).map
        (fun res => (res.lib.windowListHead.map (fun w => w.monitor),
          res.lib.monitors.map (fun m => m.addr), res.destroyed)) =
      some ([some 2, none, none], [2], [10, 1]) := by
  decide

/-- Window references when a monitor callback is registered (and the registry
is well formed: its count is the length of its array, and the old and fresh
monitor objects have pairwise different addresses): if before
`_glfwInputMonitorChange` every window's monitor reference is none or a
monitor in the registry, then the call completes and afterwards every window's
monitor reference is none or a monitor in the new registry, and no window
references a destroyed monitor. -/
theorem window_references_valid (lib : _GLFWlibrary) (fresh : List _GLFWmonitor) (c : Nat)
    (hcb : lib.monitorCallback = some c)
    (hcount : lib.monitorCount = (lib.monitors.length : Int))
    (haddr : ((lib.monitors ++ fresh).map (fun m => m.addr)).Nodup)
    (hvalid : ∀ w ∈ lib.windowListHead,
      w.monitor = none ∨ ∃ r ∈ lib.monitors, w.monitor = some r.addr) :
    ∃ res, _glfwInputMonitorChange lib fresh = some res ∧
      ∀ w ∈ res.lib.windowListHead,
        (w.monitor = none ∨ ∃ m ∈ res.lib.monitors, w.monitor = some m.addr) ∧
        ∀ a : Nat, w.monitor = some a → a ∉ res.destroyed := by
  obtain ⟨ms, st1, U, hrun, _⟩ := connectLoop_spec c fresh (changeStart lib)
  have hres := inputMonitorChange_eq lib fresh c ms st1 hcb hrun
  obtain ⟨_, _, hdisj⟩ := addr_nodup_split lib.monitors fresh haddr
  obtain ⟨hnd, hiff, hdF⟩ := inputMonitorChange_ownership lib fresh c ms st1 hcount haddr hrun
  refine ⟨_, hres, ?_⟩
  intro w' hw'
  simp only at hw' ⊢
  obtain ⟨w, hw, he⟩ := List.mem_map.mp hw'
  by_cases hc : w.monitor ∈ (live st1.registry).map (fun r => some r.addr)
  · rw [if_pos hc] at he
    rw [← he]
    exact ⟨Or.inl rfl, fun a ha => by simp at ha⟩
  · rw [if_neg hc] at he
    rw [← he]
    rcases hvalid w hw with h1 | ⟨r, hr, h1⟩
    · exact ⟨Or.inl h1, fun a ha => by rw [h1] at ha; simp at ha⟩
    · have hlive : r.addr ∉ (live st1.registry).map (fun m => m.addr) := by
        intro hin
        obtain ⟨r', hr', he'⟩ := List.mem_map.mp hin
        exact hc (by rw [h1, ← he']; exact List.mem_map_of_mem (fun r => some r.addr) hr')
      have hdes : r.addr ∉ st1.destroyed := by
        intro hin
        obtain ⟨f, hf, hfe⟩ := List.mem_map.mp (hdF r.addr hin)
        exact hdisj r hr f hf hfe.symm
      have hall : r.addr ∈ (lib.monitors ++ fresh).map (fun m => m.addr) :=
        List.mem_map_of_mem _ (List.mem_append_left _ hr)
      have hms : r.addr ∈ ms.map (fun m => m.addr) := by
        rcases List.mem_append.mp ((hiff r.addr).mpr hall) with h2 | h2
        · exact h2
        · rcases List.mem_append.mp h2 with h3 | h3
          · exact absurd h3 hdes
          · exact absurd h3 hlive
      constructor
      · obtain ⟨m, hm, hme⟩ := List.mem_map.mp hms
        exact Or.inr ⟨m, hm, by rw [h1, hme]⟩
      · intro a ha
        rw [h1] at ha
        have hae : r.addr = a := Option.some.inj ha
        rw [← hae]
        intro hin
        rcases List.mem_append.mp hin with h3 | h3
        · exact hdes h3
        · exact hlive h3

/-- Window references on the worked example: registry `[X, Z]`, windows on
"Z", on "X" and on no monitor, fresh list `[Z', W]`. -/
theorem window_references_valid_witness :
    exampleLib.monitorCallback = some 7 ∧
    exampleLib.monitorCount = (exampleLib.monitors.length : Int) ∧
    ((exampleLib.monitors ++ [exampleMonitor 10 "Z", exampleMonitor 12 "W"]).map
      (fun m => m.addr)).Nodup ∧
    (∀ w ∈ exampleLib.windowListHead,
      w.monitor = none ∨ ∃ r ∈ exampleLib.monitors, w.monitor = some r.addr) ∧
    ∃ res, _glfwInputMonitorChange exampleLib [exampleMonitor 10 "Z", exampleMonitor 12 "W"]
        = some res ∧
      ∀ w ∈ res.lib.windowListHead,
        (w.monitor = none ∨ ∃ m ∈ res.lib.monitors, w.monitor = some m.addr) ∧
        ∀ a : Nat, w.monitor = some a → a ∉ res.destroyed :=
  ⟨by decide, by decide, by decide, by decide,
    window_references_valid exampleLib [exampleMonitor 10 "Z", exampleMonitor 12 "W"] 7
      (by decide) (by decide) (by decide) (by decide)⟩

/-- C30: whenever a call of `_glfwInputMonitorChange` on a well-formed
registry completes and slot `i` of the new registry holds an object other
than the fresh object `fresh[i]` (the slot holds a reused monitor), that
object has the name of the fresh object and is the object of the old registry
at its address, with the primary flag, physical size, position, cached modes
and mode count it had before the call; the fresh object is in no slot of the
new registry and has been destroyed. -/
theorem reused_monitor_keeps_attributes (lib : _GLFWlibrary) (fresh : List _GLFWmonitor)
    (res : MonitorChange) (i : Nat) (f m : _GLFWmonitor)
    (hres : _glfwInputMonitorChange lib fresh = some res)
    (hcount : lib.monitorCount = (lib.monitors.length : Int))
    (haddr : ((lib.monitors ++ fresh).map (fun m => m.addr)).Nodup)
    (hf : fresh[i]? = some f) (hm : res.lib.monitors[i]? = some m)
    (hreuse : m.addr ≠ f.addr) :
    m.name = f.name ∧
    (∃ r ∈ lib.monitors, r.addr = m.addr ∧ m.primary = r.primary ∧
      m.widthMM = r.widthMM ∧ m.heightMM = r.heightMM ∧
      m.positionX = r.positionX ∧ m.positionY = r.positionY ∧
      m.modes = r.modes ∧ m.modeCount = r.modeCount) ∧
    f.addr ∉ res.lib.monitors.map (fun x => x.addr) ∧
    f.addr ∈ res.destroyed := by
  have hcore : m.name = f.name ∧ m ∈ lib.monitors ∧
      f.addr ∉ res.lib.monitors.map (fun x => x.addr) ∧ f.addr ∈ res.destroyed := by
    cases hcb : lib.monitorCallback with
    | some c =>
      exact inputMonitorChange_reused_slot lib fresh c res i f m hcb hres hcount haddr hf hm
        hreuse
    | none =>
      have h2 := inputMonitorChange_none_some lib fresh res 0 hcb hres
      exact inputMonitorChange_reused_slot { lib with monitorCallback := some 0 } fresh 0
        { res with lib := { res.lib with monitorCallback := some 0 } } i f m rfl h2 hcount
        haddr hf hm hreuse
  obtain ⟨h1, h2, h3, h4⟩ := hcore
  exact ⟨h1, ⟨m, h2, rfl, rfl, rfl, rfl, rfl, rfl, rfl, rfl⟩, h3, h4⟩

/-- C30, on the worked example: registry `[X, Z]` and a fresh list whose
first monitor is named "X" and reports other attributes (primary, 500 mm
wide, at position (1920, 0)); slot 0 holds the old "X" with its old
attributes. -/
theorem reused_monitor_keeps_attributes_witness :
    _glfwInputMonitorChange exampleLib
        [{ exampleMonitor 10 "X" with primary := true, widthMM := 500, positionX := 1920 },
          exampleMonitor 11 "Y"] =
      some { lib := { exampleLib with
                        windowListHead := [⟨800, 600, none⟩, ⟨640, 480, some 1⟩, ⟨320, 200, none⟩]
                        monitors := [exampleMonitor 1 "X", exampleMonitor 11 "Y"]
                        monitorCount := 2 }
             events := [(11, MonitorEvent.GLFW_CONNECTED), (2, MonitorEvent.GLFW_DISCONNECTED)]
             destroyed := [10, 2] } ∧
    (exampleMonitor 1 "X").name = "X" ∧
    (∃ r ∈ exampleLib.monitors, r.addr = (exampleMonitor 1 "X").addr ∧
      (exampleMonitor 1 "X").primary = r.primary ∧
      (exampleMonitor 1 "X").widthMM = r.widthMM ∧ (exampleMonitor 1 "X").heightMM = r.heightMM ∧
      (exampleMonitor 1 "X").positionX = r.positionX ∧
      (exampleMonitor 1 "X").positionY = r.positionY ∧
      (exampleMonitor 1 "X").modes = r.modes ∧ (exampleMonitor 1 "X").modeCount = r.modeCount) ∧
    (10 : Nat) ∉ [exampleMonitor 1 "X", exampleMonitor 11 "Y"].map (fun x => x.addr) ∧
    (10 : Nat) ∈ [10, 2] :=
  ⟨by decide,
    reused_monitor_keeps_attributes exampleLib
      [{ exampleMonitor 10 "X" with primary := true, widthMM := 500, positionX := 1920 },
        exampleMonitor 11 "Y"]
      { lib := { exampleLib with
                   windowListHead := [⟨800, 600, none⟩, ⟨640, 480, some 1⟩, ⟨320, 200, none⟩]
                   monitors := [exampleMonitor 1 "X", exampleMonitor 11 "Y"]
                   monitorCount := 2 }
        events := [(11, MonitorEvent.GLFW_CONNECTED), (2, MonitorEvent.GLFW_DISCONNECTED)]
        destroyed := [10, 2] }
      0 { exampleMonitor 10 "X" with primary := true, widthMM := 500, positionX := 1920 }
      (exampleMonitor 1 "X")
      (by decide) (by decide) (by decide) (by decide) (by decide) (by decide)⟩

end GLFW
